import Mathlib

/-!
# Pintos thread scheduler: fixed point, ready queue, donation, MLFQS, sleep/wake

A shallow embedding of `threads/fixed_point.h`, `threads/thread.c` and
`devices/timer.c`.

Conventions of the embedding.

* A C `int` is a mathematical integer in the signed 32-bit range; every C
  arithmetic operation on `int` is followed by `wrap32`, so overflow wraps
  modulo 2^32.  The `int64_t` intermediates of `fixed_mul` and `fixed_div`
  are followed by `wrap64`.  C division and remainder truncate toward zero
  (`Int.tdiv`, `Int.tmod`).  The 64-bit tick counter `ticks` is kept as an
  unbounded integer; the `int64_t` sum that `timer_sleep` stores in
  `wake_tick` is followed by `wrap64`.
* A `struct thread *` is a natural number, the memory of thread records is the
  total map `State.threads`, and a possibly-NULL pointer is an `Option`.
* An intrusive `struct list` is the `List` of the threads that own its
  elements, front first.
* A kernel panic (a failed `ASSERT`, a NULL dereference, a division by zero)
  is the result `none`.  Assertions about the interrupt level, the interrupt
  context and the stack-overflow canary `magic` are outside the embedding; the
  interrupt level itself appears only where a call is modelled together with
  its `intr_disable` and `intr_set_level`.
-/

namespace Pintos

/-! ## fixed_point.h -/

/-- The 17.14 scale factor, `1 << 14`. -/
def F : Int := 2 ^ 14

/-- Largest signed 32-bit integer. -/
def INT_MAX : Int := 2 ^ 31 - 1

/-- Smallest signed 32-bit integer. -/
def INT_MIN : Int := -(2 ^ 31)

/-- Narrowing of an integer to a signed 32-bit `int`, wrapping modulo 2^32. -/
def wrap32 (x : Int) : Int := (x + 2 ^ 31) % 2 ^ 32 - 2 ^ 31

/-- Narrowing of an integer to a signed 64-bit `int64_t`, wrapping modulo
2^64. -/
def wrap64 (x : Int) : Int := (x + 2 ^ 63) % 2 ^ 64 - 2 ^ 63

/-- Source: `int_to_fixed`, `n * F`. -/
def int_to_fixed (n : Int) : Int := wrap32 (n * F)

/-- Source: `fixed_to_int_round`, `(x + F/2)/F` for `x >= 0`, else `(x - F/2)/F`. -/
def fixed_to_int_round (x : Int) : Int :=
  if 0 ≤ x then Int.tdiv (wrap32 (x + Int.tdiv F 2)) F
  else Int.tdiv (wrap32 (x - Int.tdiv F 2)) F

/-- Source: `fixed_to_int_zero`, `x / F`. -/
def fixed_to_int_zero (x : Int) : Int := Int.tdiv x F

/-- Source: `fixed_add`. -/
def fixed_add (x y : Int) : Int := wrap32 (x + y)

/-- Source: `fixed_sub`. -/
def fixed_sub (x y : Int) : Int := wrap32 (x - y)

/-- Source: `fixed_int_add`, `x + n*F`. -/
def fixed_int_add (x n : Int) : Int := wrap32 (x + wrap32 (n * F))

/-- Source: `fixed_int_sub`, `x - n*F`. -/
def fixed_int_sub (x n : Int) : Int := wrap32 (x - wrap32 (n * F))

/-- Source: `fixed_mul`, `(int64_t)(x)*y/F` narrowed to `int`. -/
def fixed_mul (x y : Int) : Int := wrap32 (Int.tdiv (wrap64 (x * y)) F)

/-- Source: `fixed_int_mul`, `x*n`. -/
def fixed_int_mul (x n : Int) : Int := wrap32 (x * n)

/-- Source: `fixed_div`, `(int64_t)(x)*F/y` narrowed to `int`; a zero divisor
traps. -/
def fixed_div (x y : Int) : Option Int :=
  if y = 0 then none else some (wrap32 (Int.tdiv (wrap64 (x * F)) y))

/-- Source: `fixed_int_div`, `x/n`; a zero divisor traps. -/
def fixed_int_div (x n : Int) : Option Int :=
  if n = 0 then none else some (wrap32 (Int.tdiv x n))

/-! ## Data model -/

/-- Modelled from the spec: `PRI_MIN` of the missing `threads/thread.h`, the
lower end of the teaching range 0-63. -/
def PRI_MIN : Int := 0

/-- Modelled from the spec: `PRI_MAX` of the missing `threads/thread.h`, the
upper end of the teaching range 0-63. -/
def PRI_MAX : Int := 63

/-- Modelled from the spec: `TID_ERROR` of the missing `threads/thread.h`, the
distinguished invalid id that `thread_create` returns when allocation
fails. -/
def TID_ERROR : Int := -1

/-- Source: `TIME_SLICE`, the number of timer ticks given to each thread. -/
def TIME_SLICE : Nat := 4

/-- Modelled from the spec: `enum thread_status` of the missing
`threads/thread.h`, the four states Ready, Running, Blocked, Dying. -/
inductive thread_status where
  | THREAD_RUNNING
  | THREAD_READY
  | THREAD_BLOCKED
  | THREAD_DYING
  deriving DecidableEq, Repr

open thread_status

/-- Modelled from the spec: `struct thread` of the missing `threads/thread.h`,
with the members that `thread.c` and `timer.c` read or write.  `priority` is
the effective priority, `priority_inst` the base priority, `lock_pointing` the
lock the thread waits on (NULL when none) and `dona_list` the donor list. -/
structure thread where
  tid : Int
  status : thread_status
  priority : Int
  priority_inst : Int
  recent_cpu : Int
  nice : Int
  wake_tick : Int
  lock_pointing : Option Nat
  dona_list : List Nat

/-- The kernel state used by `thread.c` and `timer.c`: the thread records, the
`holder` member of every lock, the running thread (what `running_thread ()`
returns), and the file-scope variables of the two files.  `next_tid` is the
static counter of `allocate_tid` and `yield_on_return` records a call of
`intr_yield_on_return ()`.  `dona_word t` is the `int` that `high_pri` reads
when it is handed `&t->dona_elem`: it converts with
`list_entry (.., struct thread, elem)`, so its `->priority` is the word that
lies `offsetof (dona_elem) - offsetof (elem)` bytes behind `t->priority` in
the page of `t`.  Which member or stack word that is depends on the layout of
`struct thread` in the missing `threads/thread.h`, so the word is kept as a
separate part of the memory. -/
structure State where
  threads : Nat → thread
  dona_word : Nat → Int
  holder : Nat → Option Nat
  cur : Nat
  idle_thread : Option Nat
  initial_thread : Option Nat
  next_tid : Int
  ready_list : List Nat
  all_list : List Nat
  block_list : List Nat
  thread_mlfqs : Bool
  load_avg : Int
  ticks : Int
  thread_ticks : Nat
  idle_ticks : Int
  kernel_ticks : Int
  yield_on_return : Bool

/-- Write access to one thread record: `t->... = ...`. -/
def State.upd (s : State) (t : Nat) (f : thread → thread) : State :=
  { s with threads := Function.update s.threads t (f (s.threads t)) }

/-! ## lib/kernel/list.c -/

/-- Modelled from the spec: `list_insert_ordered` of the missing
`lib/kernel/list.c`.  The element goes in front of the first element that it
is `less` than, hence behind every element it ties with (FIFO among ties). -/
def list_insert_ordered {α : Type} (less : α → α → Bool) (x : α) : List α → List α
  | [] => [x]
  | e :: l => if less x e then x :: e :: l else e :: list_insert_ordered less x l

/-- Insertion step of the stable sort: `x`, which preceded every element of
the list before sorting, goes in front of the first element that is not
`less` than it. -/
def sort_insert {α : Type} (less : α → α → Bool) (x : α) : List α → List α
  | [] => [x]
  | e :: l => if less e x then e :: sort_insert less x l else x :: e :: l

/-- Modelled from the spec: `list_sort` of the missing `lib/kernel/list.c`, a
stable sort into the order given by `less` (the spec: the queue is re-sorted,
ties keep their insertion order). -/
def list_sort {α : Type} (less : α → α → Bool) : List α → List α
  | [] => []
  | x :: l => sort_insert less x (list_sort less l)

/-! ## thread.c -/

/-- Source: `high_pri`, true when the thread owning `a` has a higher
`priority` than the thread owning `b`.  A list element stands for the thread
that owns it. -/
def high_pri (s : State) (a b : Nat) : Bool :=
  decide ((s.threads a).priority > (s.threads b).priority)

/-- Source: `high_pri` as `list_sort (d1, high_pri, NULL)` of
`thread_set_priority` calls it, on two elements of a donor list.  A donor list
is linked through `dona_elem`, and `high_pri` converts its arguments with
`list_entry (.., struct thread, elem)`: it compares the words `dona_word`, not
the priorities of the two donors. -/
def high_pri_dona (s : State) (a b : Nat) : Bool :=
  decide (s.dona_word a > s.dona_word b)

/-- Source: `thread_current`, the running thread, with
`ASSERT (t->status == THREAD_RUNNING)`. -/
def thread_current (s : State) : Option Nat :=
  if (s.threads s.cur).status = THREAD_RUNNING then some s.cur else none

/-- Source: `next_thread_to_run`: `idle_thread` when the ready list is empty,
else the popped front of the ready list. -/
def next_thread_to_run (s : State) : Option Nat × State :=
  match s.ready_list with
  | [] => (s.idle_thread, s)
  | t :: rest => (some t, { s with ready_list := rest })

/-- Source: `thread_schedule_tail` after `switch_threads`: the thread switched
to is marked running and a new time slice starts.  Freeing the page of a dying
predecessor is outside the embedding. -/
def thread_schedule_tail (s : State) (next : Nat) : State :=
  { (s.upd next fun t => { t with status := THREAD_RUNNING }) with
    cur := next, thread_ticks := 0 }

/-- Source: `schedule`, with `ASSERT (cur->status != THREAD_RUNNING)` and
`ASSERT (is_thread (next))`. -/
def schedule (s : State) : Option State :=
  match next_thread_to_run s with
  | (none, _) => none
  | (some next, s1) =>
    if (s1.threads s1.cur).status = THREAD_RUNNING then none
    else some (thread_schedule_tail s1 next)

/-- Source: `thread_block`. -/
def thread_block (s : State) : Option State :=
  match thread_current s with
  | none => none
  | some c => schedule (s.upd c fun t => { t with status := THREAD_BLOCKED })

/-- Source: `thread_unblock`, with `ASSERT (t->status == THREAD_BLOCKED)`. -/
def thread_unblock (t : Nat) (s : State) : Option State :=
  if (s.threads t).status = THREAD_BLOCKED then
    some ({ s with ready_list := list_insert_ordered (high_pri s) t s.ready_list }.upd t
      fun r => { r with status := THREAD_READY })
  else none

/-- Source: `thread_yield`. -/
def thread_yield (s : State) : Option State :=
  match thread_current s with
  | none => none
  | some c =>
    let s1 : State :=
      if some c ≠ s.idle_thread then
        { s with ready_list := list_insert_ordered (high_pri s) c s.ready_list }
      else s
    schedule (s1.upd c fun t => { t with status := THREAD_READY })

/-- Source: `thread_tick`. -/
def thread_tick (s : State) : Option State :=
  match thread_current s with
  | none => none
  | some t =>
    let s1 : State :=
      if some t = s.idle_thread then { s with idle_ticks := s.idle_ticks + 1 }
      else { s with kernel_ticks := s.kernel_ticks + 1 }
    let n := (s1.thread_ticks + 1) % 2 ^ 32
    some { s1 with thread_ticks := n,
                   yield_on_return := if TIME_SLICE ≤ n then true else s1.yield_on_return }

/-- Source: `thread_set_priority`, the statements that store the base
priority of the running thread `c` and recompute its effective priority from
the front of its donor list, after `list_sort (d1, high_pri, NULL)`.  The
front is converted with `list_entry (.., struct thread, dona_elem)`, so
`t1->priority` is the priority of the donor in front. -/
def set_priority_donors (new_priority : Int) (c : Nat) (s : State) : State :=
  let s1 := s.upd c fun t => { t with priority_inst := new_priority }
  if ¬ (s1.threads c).dona_list = [] then
    let s1a := s1.upd c fun t =>
      { t with dona_list := list_sort (high_pri_dona s1) t.dona_list }
    match (s1a.threads c).dona_list with
    | [] => s1a
    | t1 :: _ =>
      if (s1a.threads t1).priority > (s1a.threads c).priority_inst then
        s1a.upd c fun t => { t with priority := (s1a.threads t1).priority }
      else s1a.upd c fun t => { t with priority := t.priority_inst }
  else s1.upd c fun t => { t with priority := t.priority_inst }

/-- Source: `thread_set_priority`, the closing statements that sort the ready
list and yield when the running thread `c` is below its front. -/
def set_priority_yield (c : Nat) (s2 : State) : Option State :=
  if ¬ s2.ready_list = [] then
    let s3 := { s2 with ready_list := list_sort (high_pri s2) s2.ready_list }
    match s3.ready_list with
    | [] => some s3
    | front :: _ =>
      if (s3.threads c).priority < (s3.threads front).priority then thread_yield s3
      else some s3
  else some s2

/-- Source: `thread_set_priority`. -/
def thread_set_priority (new_priority : Int) (s : State) : Option State :=
  if s.thread_mlfqs then some s
  else
    match thread_current s with
    | none => none
    | some c => set_priority_yield c (set_priority_donors new_priority c s)

/-- Source: `mlfqs_priority`. -/
def mlfqs_priority (t : Nat) (s : State) : State :=
  if some t = s.idle_thread then s
  else s.upd t fun r =>
    { r with priority :=
        wrap32 (wrap32 (PRI_MAX - fixed_to_int_round (Int.tdiv r.recent_cpu 4))
          - wrap32 (r.nice * 2)) }

/-- Source: `mlfqs_recent_cpu`. -/
def mlfqs_recent_cpu (t : Nat) (s : State) : Option State :=
  if some t = s.idle_thread then some s
  else
    match fixed_div (wrap32 (2 * s.load_avg)) (fixed_int_add (wrap32 (2 * s.load_avg)) 1) with
    | none => none
    | some k =>
      some (s.upd t fun r =>
        { r with recent_cpu := fixed_int_add (fixed_mul k r.recent_cpu) r.nice })

/-- Source: `mlfqs_load_avg`, with `ASSERT (load_avg >= 0)`. -/
def mlfqs_load_avg (s : State) : Option State :=
  match thread_current s with
  | none => none
  | some c =>
    let n0 := wrap32 (s.ready_list.length : Int)
    let n := if some c ≠ s.idle_thread then wrap32 (n0 + 1) else n0
    let la := wrap32 (fixed_mul (Int.tdiv (int_to_fixed 59) 60) s.load_avg
      + wrap32 (Int.tdiv (int_to_fixed 1) 60 * n))
    if 0 ≤ la then some { s with load_avg := la } else none

/-- Source: `mlfqs_increment`. -/
def mlfqs_increment (s : State) : Option State :=
  match thread_current s with
  | none => none
  | some c =>
    if some c = s.idle_thread then some s
    else some (s.upd c fun r => { r with recent_cpu := fixed_int_add r.recent_cpu 1 })

/-- The loop of `mlfqs_recalc` over the elements of `all_list`. -/
def mlfqs_recalc_loop : List Nat → State → Option State
  | [], s => some s
  | t1 :: rest, s =>
    match mlfqs_recent_cpu t1 s with
    | none => none
    | some s1 => mlfqs_recalc_loop rest (mlfqs_priority t1 s1)

/-- Source: `mlfqs_recalc`. -/
def mlfqs_recalc (s : State) : Option State := mlfqs_recalc_loop s.all_list s

/-- Source: `thread_get_priority`. -/
def thread_get_priority (s : State) : Option Int :=
  (thread_current s).map fun c => (s.threads c).priority

/-- Source: `thread_set_nice`, with `ASSERT (nice >= -20 && nice <= 20)`. -/
def thread_set_nice (nice : Int) (s : State) : Option State :=
  if -20 ≤ nice ∧ nice ≤ 20 then
    match thread_current s with
    | none => none
    | some t1 =>
      match mlfqs_recent_cpu t1 (s.upd t1 fun r => { r with nice := nice }) with
      | none => none
      | some s1 =>
        let s2 := mlfqs_priority t1 s1
        some { s2 with ready_list := list_sort (high_pri s2) s2.ready_list }
  else none

/-- Source: `thread_get_nice`. -/
def thread_get_nice (s : State) : Option Int :=
  (thread_current s).map fun c => (s.threads c).nice

/-- Source: `thread_get_load_avg`. -/
def thread_get_load_avg (s : State) : Int :=
  fixed_to_int_round (wrap32 (100 * s.load_avg))

/-- Source: `thread_get_recent_cpu`. -/
def thread_get_recent_cpu (s : State) : Option Int :=
  (thread_current s).map fun c => fixed_to_int_round (wrap32 ((s.threads c).recent_cpu * 100))

/-- Modelled from the spec: `enum intr_level` of the missing
`threads/interrupt.h`, interrupts disabled or enabled (the spec's "preemption
suspended"). -/
inductive intr_level where
  | INTR_OFF
  | INTR_ON
  deriving DecidableEq, Repr

/-- Modelled from the spec: `intr_disable` of the missing
`threads/interrupt.c`: it turns interrupts off and returns the previous
level.  The result is the returned level and the level afterwards. -/
def intr_disable (level : intr_level) : intr_level × intr_level :=
  (level, intr_level.INTR_OFF)

/-- Modelled from the spec: `intr_set_level` of the missing
`threads/interrupt.c`: the level afterwards is its argument. -/
def intr_set_level (level : intr_level) : intr_level := level

/-- Source: `thread_get_load_avg` with everything it does to the machine.  The
interrupt level is not a part of `State`, so the call takes the level at entry
and returns the value, the level at exit and the state at exit. -/
def thread_get_load_avg_call (level : intr_level) (s : State) : Int × intr_level × State :=
  let old_level := (intr_disable level).1
  let l1 := fixed_to_int_round (wrap32 (100 * s.load_avg))
  (l1, intr_set_level old_level, s)

/-- Source: `thread_get_recent_cpu` with everything it does to the machine, as
for `thread_get_load_avg_call`; `thread_current ()` may fail its assertion. -/
def thread_get_recent_cpu_call (level : intr_level) (s : State) :
    Option (Int × intr_level × State) :=
  let old_level := (intr_disable level).1
  match thread_current s with
  | none => none
  | some c =>
    let r1 := fixed_to_int_round (wrap32 ((s.threads c).recent_cpu * 100))
    some (r1, intr_set_level old_level, s)

/-- Result of running a loop with a bound on the number of iterations: a final
state, a kernel panic, or the bound was reached before the loop ended. -/
inductive Run (α : Type) where
  | done : α → Run α
  | fault : Run α
  | more : Run α

/-- The `while` loop of `donate_priority`, entered with the holder `t1` and
the waiter `t2`, for at most `n` evaluations of the loop condition.  A lock
without holder is a NULL dereference. -/
def donate_loop : Nat → State → Nat → Nat → Run State
  | 0, _, _, _ => Run.more
  | n + 1, s, t1, t2 =>
    if (s.threads t1).priority < (s.threads t2).priority then
      let s1 := s.upd t1 fun r => { r with priority := (s.threads t2).priority }
      match (s1.threads t1).lock_pointing with
      | none => Run.done s1
      | some l =>
        match s1.holder l with
        | none => Run.fault
        | some h => donate_loop n s1 h t1
    else Run.done s

/-- Source: `donate_priority`, for at most `n` evaluations of the loop
condition. -/
def donate_priority (n : Nat) (s : State) : Run State :=
  match thread_current s with
  | none => Run.fault
  | some t2 =>
    match (s.threads t2).lock_pointing with
    | none => Run.fault
    | some l =>
      match s.holder l with
      | none => Run.fault
      | some t1 => donate_loop n s t1 t2

/-- Source: `init_thread`, with
`ASSERT (PRI_MIN <= priority && priority <= PRI_MAX)`.  The record is zeroed
(status value 0 is THREAD_RUNNING), set up as a blocked thread and appended
to `all_list`; a thread other than `initial_thread` takes over the
`recent_cpu` of the running thread.  The members `name`, `stack` and `magic`
are outside the embedding. -/
def init_thread (t : Nat) (priority : Int) (s : State) : Option State :=
  if PRI_MIN ≤ priority ∧ priority ≤ PRI_MAX then
    let zeroed : thread :=
      { tid := 0, status := THREAD_RUNNING, priority := 0, priority_inst := 0, recent_cpu := 0,
        nice := 0, wake_tick := 0, lock_pointing := none, dona_list := [] }
    let s1 := s.upd t fun _ =>
      { zeroed with status := THREAD_BLOCKED, priority := priority, priority_inst := priority }
    let r2 : Option State :=
      if some t = s1.initial_thread then
        some (s1.upd t fun r => { r with recent_cpu := 0, nice := 0 })
      else
        match thread_current (s1.upd t fun r => { r with nice := 0 }) with
        | none => none
        | some c =>
          some (s1.upd t fun r =>
            { r with nice := 0, recent_cpu := (s1.threads c).recent_cpu })
    match r2 with
    | none => none
    | some s2 =>
      some { (s2.upd t fun r => { r with dona_list := [] }) with
        all_list := s2.all_list ++ [t] }
  else none

/-- Source: `allocate_tid`, `tid = next_tid++`.  The acquisition and release
of `tid_lock` are outside the embedding. -/
def allocate_tid (s : State) : Int × State :=
  (s.next_tid, { s with next_tid := wrap32 (s.next_tid + 1) })

/-- Source: `thread_create`.  `page` is the result of `palloc_get_page`
(NULL when allocation fails); the result is the returned tid and the state.
Setting up the stack frames is outside the embedding. -/
def thread_create (page : Option Nat) (priority : Int) (s : State) : Option (Int × State) :=
  match page with
  | none => some (TID_ERROR, s)
  | some t =>
    match init_thread t priority s with
    | none => none
    | some s1 =>
      let s2 := (allocate_tid s1).2.upd t fun r => { r with tid := (allocate_tid s1).1 }
      match thread_unblock t s2 with
      | none => none
      | some s3 =>
        match thread_current s3 with
        | none => none
        | some c =>
          if (s3.threads t).priority > (s3.threads c).priority then
            (thread_yield s3).map fun s4 => ((allocate_tid s1).1, s4)
          else some ((allocate_tid s1).1, s3)

/-! ## timer.c -/

/-- Source: `timer_ticks`. -/
def timer_ticks (s : State) : Int := s.ticks

/-- Source: `timer_sleep`.  The sum `start + ticks` is an `int64_t`. -/
def timer_sleep (ticks : Int) (s : State) : Option State :=
  let start := timer_ticks s
  match thread_current s with
  | none => none
  | some sleep_t =>
    let s1 := s.upd sleep_t fun t => { t with wake_tick := wrap64 (start + ticks) }
    thread_block { s1 with block_list := s1.block_list ++ [sleep_t] }

/-- The `while` loop of `timer_wake`: `kept` are the elements already passed
over, the last argument the elements from `cur_elem` to the end of
`block_list`. -/
def timer_wake_loop (temp_tick : Int) : List Nat → List Nat → State → Option State
  | _, [], s => some s
  | kept, cur_thr :: rest, s =>
    if temp_tick ≥ (s.threads cur_thr).wake_tick then
      match thread_unblock cur_thr { s with block_list := kept ++ rest } with
      | none => none
      | some s1 => timer_wake_loop temp_tick kept rest s1
    else timer_wake_loop temp_tick (kept ++ [cur_thr]) rest s

/-- Source: `timer_wake`. -/
def timer_wake (s : State) : Option State :=
  timer_wake_loop (timer_ticks s) [] s.block_list s

/-- Source: `timer_interrupt`; `TIMER_FREQ` of the missing `devices/timer.h`
is a parameter. -/
def timer_interrupt (TIMER_FREQ : Int) (s : State) : Option State :=
  let s0 := { s with ticks := s.ticks + 1 }
  match thread_tick s0 with
  | none => none
  | some s1 =>
    if s1.thread_mlfqs then
      match mlfqs_increment s1 with
      | none => none
      | some s2 =>
        let r3 : Option State :=
          if Int.tmod s2.ticks TIMER_FREQ = 0 then
            match mlfqs_load_avg s2 with
            | none => none
            | some s2a => mlfqs_recalc s2a
          else some s2
        match r3 with
        | none => none
        | some s3 =>
          let s4 : Option State :=
            if Int.tmod s3.ticks 4 = 0 then
              (thread_current s3).map fun c => mlfqs_priority c s3
            else some s3
          match s4 with
          | none => none
          | some s5 => timer_wake s5
    else timer_wake s1


/-! ## Definitions used to state the properties -/

/-- The max-rule of the spec: the maximum of `base` and the effective
priorities of the donors `ds`. -/
def donor_max (s : State) (base : Int) (ds : List Nat) : Int :=
  ds.foldr (fun d m => max (s.threads d).priority m) base

/-- A thread record with no donors, waiting on no lock. -/
def plain_thread (st : thread_status) (pri : Int) : thread :=
  { tid := 0, status := st, priority := pri, priority_inst := pri, recent_cpu := 0, nice := 0,
    wake_tick := 0, lock_pointing := none, dona_list := [] }

/-- A state with the given thread records and running thread, empty lists, no
locks held, tick 0, next tid 1, and 0 for every word `dona_word`. -/
def plain_state (th : Nat → thread) (cur : Nat) (mlfqs : Bool) : State :=
  { threads := th, dona_word := fun _ => 0, holder := fun _ => none, cur := cur,
    idle_thread := none,
    initial_thread := none, next_tid := 1, ready_list := [], all_list := [],
    block_list := [], thread_mlfqs := mlfqs, load_avg := 0, ticks := 0, thread_ticks := 0,
    idle_ticks := 0, kernel_ticks := 0, yield_on_return := false }

/-- MLFQS scenario: thread 0 runs; thread 1 (priority 53, recent_cpu 40.0) and
thread 2 (priority 50, recent_cpu 0) are blocked; load_avg is 2.0. -/
def recalc_state : State :=
  { plain_state (fun t =>
      if t = 0 then plain_thread THREAD_RUNNING 63
      else if t = 1 then { plain_thread THREAD_BLOCKED 53 with recent_cpu := 40 * F }
      else plain_thread THREAD_BLOCKED 50) 0 true with
    all_list := [0, 1, 2], load_avg := 2 * F }

/-- Donation-mode scenario: thread 0 runs at tick 10, thread 1 is ready. -/
def sleep_state : State :=
  { plain_state (fun t =>
      if t = 0 then plain_thread THREAD_RUNNING 31 else plain_thread THREAD_READY 31) 0 false with
    all_list := [0, 1], ready_list := [1], ticks := 10 }


/-- Donation-mode scenario: thread 0 runs with base priority 31 and the donors
1 (priority 20) and 2 (priority 45); thread 3 (priority 40) is ready. -/
def set_priority_state : State :=
  { plain_state (fun t =>
      if t = 0 then { plain_thread THREAD_RUNNING 31 with dona_list := [1, 2] }
      else if t = 1 then plain_thread THREAD_BLOCKED 20
      else if t = 2 then plain_thread THREAD_BLOCKED 45
      else plain_thread THREAD_READY 40) 0 false with
    all_list := [0, 1, 2, 3], ready_list := [3] }

/-- A run of `k` consecutive timer interrupts. -/
def timer_interrupts (TIMER_FREQ : Int) : Nat → State → Option State
  | 0, s => some s
  | k + 1, s => (timer_interrupt TIMER_FREQ s).bind (timer_interrupts TIMER_FREQ k)

/-- The state `s2` agrees with `s` on everything that sleeping and waking
depend on: the two lists, the tick counter, the running thread, the mode, the
idle thread, and the status and wake-up tick of every thread. -/
def same_sleepers (s s2 : State) : Prop :=
  s2.block_list = s.block_list ∧ s2.ready_list = s.ready_list ∧ s2.ticks = s.ticks ∧
    s2.cur = s.cur ∧ s2.thread_mlfqs = s.thread_mlfqs ∧ s2.idle_thread = s.idle_thread ∧
    ∀ t, (s2.threads t).status = (s.threads t).status ∧
      (s2.threads t).wake_tick = (s.threads t).wake_tick

/-- The sleeping list is duplicate-free, holds only blocked threads, and the
running thread has status Running. -/
def sleep_inv (s : State) : Prop :=
  s.block_list.Nodup ∧ (∀ t ∈ s.block_list, (s.threads t).status = THREAD_BLOCKED) ∧
    (s.threads s.cur).status = THREAD_RUNNING

/-- Thread `t` is blocked on a lock whose holder is `h`. -/
def waits_for (s : State) (t h : Nat) : Prop :=
  ∃ l, (s.threads t).lock_pointing = some l ∧ s.holder l = some h

/-- The max-rule holds for thread `t`: its effective priority is the maximum
of its base priority and the effective priorities of its donors. -/
def max_rule (s : State) (t : Nat) : Prop :=
  (s.threads t).priority = donor_max s (s.threads t).priority_inst (s.threads t).dona_list

/-- Nested-donation scenario: A (thread 0, base 10, raised to 20 by B) holds
lock 1; B (thread 1, base 20) holds lock 2 and waits on lock 1; C (thread 2,
priority 30) runs and has registered on lock 2. -/
def nested_state : State :=
  { plain_state (fun t =>
      if t = 0 then
        { plain_thread THREAD_READY 20 with priority_inst := 10, dona_list := [1] }
      else if t = 1 then
        { plain_thread THREAD_BLOCKED 20 with lock_pointing := some 1, dona_list := [2] }
      else if t = 2 then
        { plain_thread THREAD_RUNNING 30 with lock_pointing := some 2 }
      else plain_thread THREAD_BLOCKED 0) 2 false with
    holder := fun l => if l = 1 then some 0 else if l = 2 then some 1 else none,
    all_list := [0, 1, 2] }

/-- Scenario in which the holder's priority is too high before the donation:
A (thread 0, base 10, effective 40) holds lock 1 and its only donor is the
caller C (thread 2, priority 30), which runs and has registered on lock 1. -/
def stale_holder_state : State :=
  { plain_state (fun t =>
      if t = 0 then
        { plain_thread THREAD_READY 40 with priority_inst := 10, dona_list := [2] }
      else if t = 2 then
        { plain_thread THREAD_RUNNING 30 with lock_pointing := some 1 }
      else plain_thread THREAD_BLOCKED 0) 2 false with
    holder := fun l => if l = 1 then some 0 else none,
    all_list := [0, 2] }

/-- MLFQS scenario with a long ready list: thread 0 runs, the threads 1 to
150000 are ready (150000 pages of 4 kB, one per thread), load_avg is 0. -/
def crowded_state : State :=
  { plain_state (fun t =>
      if t = 0 then plain_thread THREAD_RUNNING 31 else plain_thread THREAD_READY 31) 0 true with
    ready_list := List.range' 1 150000 }

/-- A sequence of `mlfqs_load_avg` updates; before each update the ready list
is replaced by the next list of the sequence. -/
def load_avg_updates : List (List Nat) → State → Option State
  | [], s => some s
  | rl :: rest, s => (mlfqs_load_avg { s with ready_list := rl }).bind (load_avg_updates rest)

/-- MLFQS boot scenario: thread 0 (nice 0, recent_cpu 0) runs, thread 1 is
the blocked idle thread, nothing else exists; load_avg is 0 at tick 0. -/
def mlfqs_boot_state : State :=
  { plain_state (fun t =>
      if t = 0 then plain_thread THREAD_RUNNING 31 else plain_thread THREAD_BLOCKED 0) 0 true with
    idle_thread := some 1, all_list := [0, 1] }

/-- Donation-mode scenario: thread 0 (priority 30) runs and has registered on
lock 1, which thread 2 (priority 10) holds; threads 1 (priority 25) and 2 are
blocked and about to be made ready. -/
def inversion_state : State :=
  { plain_state (fun t =>
      if t = 0 then { plain_thread THREAD_RUNNING 30 with lock_pointing := some 1 }
      else if t = 1 then plain_thread THREAD_BLOCKED 25
      else if t = 2 then { plain_thread THREAD_BLOCKED 10 with dona_list := [0] }
      else plain_thread THREAD_BLOCKED 0) 0 false with
    holder := fun l => if l = 1 then some 2 else none,
    all_list := [0, 1, 2] }

/-- Scenario for `thread_unblock`: thread 0 runs; the ready list holds thread
3 (priority 40) and thread 4 (priority 31); thread 5 (priority 31) and
thread 6 (priority 35) are blocked. -/
def unblock_state : State :=
  { plain_state (fun t =>
      if t = 0 then plain_thread THREAD_RUNNING 31
      else if t = 3 then plain_thread THREAD_READY 40
      else if t = 4 then plain_thread THREAD_READY 31
      else if t = 6 then plain_thread THREAD_BLOCKED 35
      else plain_thread THREAD_BLOCKED 31) 0 false with
    all_list := [0, 3, 4, 5, 6], ready_list := [3, 4] }

/-- Scenario for thread creation: thread 0 (priority 31, recent_cpu 5.0) is
the running initial thread, thread 3 (priority 40) is ready, and the next tid
is 7. -/
def create_state : State :=
  { plain_state (fun t =>
      if t = 0 then { plain_thread THREAD_RUNNING 31 with recent_cpu := 5 * F, tid := 1 }
      else if t = 3 then { plain_thread THREAD_READY 40 with tid := 4 }
      else plain_thread THREAD_DYING 0) 0 true with
    initial_thread := some 0, all_list := [0, 3], ready_list := [3], next_tid := 7 }

/-- MLFQS scenario for `thread_set_nice`: thread 0 (priority 63, nice 0,
recent_cpu 0) runs, thread 1 (priority 60) is ready, load_avg is 0. -/
def nice_state : State :=
  { plain_state (fun t =>
      if t = 0 then plain_thread THREAD_RUNNING 63 else plain_thread THREAD_READY 60) 0 true with
    all_list := [0, 1], ready_list := [1] }

/-- A state whose load_avg and running thread's recent_cpu are both 21474836
(about 1310.72): their product with 100 is 2147483600, below INT_MAX. -/
def large_stats_state : State :=
  { plain_state (fun _ => { plain_thread THREAD_RUNNING 0 with recent_cpu := 21474836 })
      0 true with
    load_avg := 21474836 }

/-- The ready-thread count `n` that `mlfqs_load_avg` computes: the length of
the ready list, plus one when the running thread is not the idle thread. -/
def ready_count (s : State) : Int :=
  if some s.cur ≠ s.idle_thread then (s.ready_list.length : Int) + 1
  else (s.ready_list.length : Int)

/-- A run of `k` consecutive `mlfqs_load_avg` updates.  Nothing else happens
in between, so the ready-thread count stays what it is in the first state. -/
def mlfqs_load_avg_iter : Nat → State → Option State
  | 0, s => some s
  | k + 1, s => (mlfqs_load_avg s).bind (mlfqs_load_avg_iter k)

/-- The value of one load_avg update from `x` with ready count `n` when no
intermediate result wraps: 59/60 is the 17.14 constant 16110 and 1/60 the
17.14 constant 273. -/
def load_avg_next (n x : Int) : Int := 16110 * x / 16384 + 273 * n

/-- The value after `k` updates from `x` with ready count `n` when no
intermediate result wraps. -/
def load_avg_seq (n : Int) : Nat → Int → Int
  | 0, x => x
  | k + 1, x => load_avg_seq n k (load_avg_next n x)

/-- The least load_avg value that an update with ready count `R` leaves
unchanged: the least integer above `(273 * R - 1) * F / 274`. -/
def load_avg_limit (R : Int) : Int := ((273 * R - 1) * F) / 274 + 1

/-- The part of the donation chain that is below `p`: thread `t` is one of the
holders h1, h2, ... (h1 = `h1`, each next one holds the lock the previous one
waits on) and every holder from h1 up to `t` has an effective priority
below `p`. -/
inductive chain_below (s : State) (p : Int) (h1 : Nat) : Nat → Prop where
  | head : (s.threads h1).priority < p → chain_below s p h1 h1
  | next (t h : Nat) : chain_below s p h1 t → waits_for s t h →
      (s.threads h).priority < p → chain_below s p h1 h

/-- Donation scenario with a bystander: A (thread 0, priority 10) holds lock
1; B (thread 1, priority 20) holds lock 2 and waits on lock 1; C (thread 2,
priority 30) runs and has registered on lock 2; thread 3 (priority 5) is
ready and holds or awaits no lock; every other record has priority 63. -/
def chain_state : State :=
  { plain_state (fun t =>
      if t = 0 then { plain_thread THREAD_READY 10 with dona_list := [1] }
      else if t = 1 then
        { plain_thread THREAD_BLOCKED 20 with lock_pointing := some 1, dona_list := [2] }
      else if t = 2 then
        { plain_thread THREAD_RUNNING 30 with lock_pointing := some 2 }
      else if t = 3 then plain_thread THREAD_READY 5
      else plain_thread THREAD_DYING 63) 2 false with
    holder := fun l => if l = 1 then some 0 else if l = 2 then some 1 else none,
    all_list := [0, 1, 2, 3], ready_list := [0, 3] }

/-- Donation-mode scenario for `thread_set_priority`: thread 0 runs with base
priority 31 and the donor list 1, 2; the donors have the effective priorities
`p1` and `p2`, and `high_pri` reads the words `w1` and `w2` from them. -/
def donors_state (w1 w2 p1 p2 : Int) : State :=
  { plain_state (fun t =>
      if t = 0 then { plain_thread THREAD_RUNNING 31 with dona_list := [1, 2] }
      else if t = 1 then plain_thread THREAD_BLOCKED p1
      else plain_thread THREAD_BLOCKED p2) 0 false with
    dona_word := fun t => if t = 1 then w1 else if t = 2 then w2 else 0,
    all_list := [0, 1, 2] }

/-- MLFQS scenario for the two read-only calls: load_avg is 16265 (about
0.9927) and the running thread 0 has recent_cpu 655450 (about 40.0055). -/
def rounding_state : State :=
  { plain_state (fun _ => { plain_thread THREAD_RUNNING 31 with recent_cpu := 655450 })
      0 true with
    load_avg := 16265 }

/-! ## Basic facts -/

theorem wrap32_eq (x : Int) (h1 : -(2 : Int) ^ 31 ≤ x) (h2 : x ≤ 2 ^ 31 - 1) : wrap32 x = x := by
  unfold wrap32; omega

theorem wrap64_eq (x : Int) (h1 : -(2 : Int) ^ 63 ≤ x) (h2 : x ≤ 2 ^ 63 - 1) : wrap64 x = x := by
  unfold wrap64; omega

@[simp] theorem upd_threads_same (s : State) (t : Nat) (f : thread → thread) :
    (s.upd t f).threads t = f (s.threads t) := by
  simp [State.upd]

@[simp] theorem upd_threads_ne (s : State) (t u : Nat) (f : thread → thread) (h : u ≠ t) :
    (s.upd t f).threads u = s.threads u := by
  simp [State.upd, Function.update, h]

@[simp] theorem upd_ready_list (s : State) (t : Nat) (f : thread → thread) :
    (s.upd t f).ready_list = s.ready_list := rfl

@[simp] theorem upd_cur (s : State) (t : Nat) (f : thread → thread) :
    (s.upd t f).cur = s.cur := rfl

@[simp] theorem upd_holder (s : State) (t : Nat) (f : thread → thread) :
    (s.upd t f).holder = s.holder := rfl

@[simp] theorem upd_load_avg (s : State) (t : Nat) (f : thread → thread) :
    (s.upd t f).load_avg = s.load_avg := rfl

@[simp] theorem upd_all_list (s : State) (t : Nat) (f : thread → thread) :
    (s.upd t f).all_list = s.all_list := rfl

@[simp] theorem upd_initial_thread (s : State) (t : Nat) (f : thread → thread) :
    (s.upd t f).initial_thread = s.initial_thread := rfl

@[simp] theorem upd_next_tid (s : State) (t : Nat) (f : thread → thread) :
    (s.upd t f).next_tid = s.next_tid := rfl

/-! ## C10: round trip through the fixed-point format -/

/-- C10, as stated, fails at the smallest representable integer: for
n = -2^17 the subtraction of F/2 in `fixed_to_int_round` wraps and the
round trip yields 131071. -/
theorem round_trip_fails_at_min :
    -(2 : Int) ^ 17 ≤ -131072 ∧ (-131072 : Int) ≤ 2 ^ 17 - 1 ∧
      int_to_fixed (-131072) = INT_MIN ∧
      fixed_to_int_round (int_to_fixed (-131072)) = 131071 := by
  decide

/-- C10, amended: for every integer n with -2^17 < n <= 2^17 - 1,
`fixed_to_int_round (int_to_fixed n)` is n, with 32-bit arithmetic wrapping
modulo 2^32. -/
theorem round_trip (n : Int) (h1 : -(2 : Int) ^ 17 < n) (h2 : n ≤ 2 ^ 17 - 1) :
    fixed_to_int_round (int_to_fixed n) = n := by
  unfold fixed_to_int_round int_to_fixed F
  rw [wrap32_eq (n * 2 ^ 14) (by omega) (by omega)]
  have e2 : Int.tdiv ((2 : Int) ^ 14) 2 = 8192 := by decide
  rw [e2]
  split
  · rw [wrap32_eq _ (by omega) (by omega), Int.tdiv_eq_ediv (by omega) (by norm_num)]
    omega
  · have e : n * 2 ^ 14 - 8192 = -(8192 - n * 2 ^ 14) := by ring
    rw [wrap32_eq _ (by omega) (by omega), e, Int.neg_tdiv,
      Int.tdiv_eq_ediv (by omega) (by norm_num)]
    omega

/-- Witness of `round_trip` at n = -131071, the smallest integer it covers. -/
theorem round_trip_witness :
    -(2 : Int) ^ 17 < -131071 ∧ (-131071 : Int) ≤ 2 ^ 17 - 1 ∧
      fixed_to_int_round (int_to_fixed (-131071)) = -131071 :=
  ⟨by decide, by decide, round_trip (-131071) (by decide) (by decide)⟩

/-! ## C7: the priority computed by `mlfqs_priority` -/

/-- C7, the code at two failing inputs: for a non-idle thread with
recent_cpu 0 and nice -20 `mlfqs_priority` stores 103, above PRI_MAX, and for
recent_cpu 400.0 and nice 0 it stores -37, below PRI_MIN; the result is not
clamped. -/
theorem mlfqs_priority_not_clamped :
    (((mlfqs_priority 1 (plain_state (fun _ =>
        { plain_thread THREAD_READY 31 with nice := -20 }) 0 true)).threads 1).priority = 103 ∧
      PRI_MAX < 103) ∧
    (((mlfqs_priority 1 (plain_state (fun _ =>
        { plain_thread THREAD_READY 31 with recent_cpu := 400 * F }) 0 true)).threads 1).priority
        = -37 ∧ (-37 : Int) < PRI_MIN) := by
  decide

/-! ## C1: the thread returned by `next_thread_to_run` -/

/-- C1, the code at two failing inputs.  MLFQS: threads 1 and 2 are unblocked
in priority order, `mlfqs_recalc` then lowers thread 1 to 55 and raises
thread 2 to 63 without re-sorting, and `next_thread_to_run` returns thread 1
although thread 2, left in the ready list, has the higher priority.
Donation: threads 1 (25) and 2 (10) are unblocked, `donate_priority` raises
the lock holder 2 to 30 inside the ready list, and `next_thread_to_run`
returns thread 1 (25) although thread 2 (30) is left in the ready list. -/
theorem next_thread_to_run_after_recalc :
    (((thread_unblock 1 recalc_state).bind (thread_unblock 2)).bind mlfqs_recalc).map
        (fun s => (s.ready_list, (next_thread_to_run s).1, (next_thread_to_run s).2.ready_list,
          (s.threads 1).priority, (s.threads 2).priority))
      = some ([1, 2], some 1, [2], 55, 63) ∧
    (match (thread_unblock 1 inversion_state).bind (thread_unblock 2) with
      | some s =>
        (match donate_priority 2 s with
          | Run.done s' =>
            some (s'.ready_list, (next_thread_to_run s').1, (next_thread_to_run s').2.ready_list,
              (s'.threads 1).priority, (s'.threads 2).priority)
          | _ => none)
      | none => none)
      = some ([1, 2], some 1, [2], 25, 30) :=
  ⟨by decide, by decide⟩

/-! ## C5: `timer_sleep` with a non-positive duration -/

/-- C5 fails on the code: `timer_sleep` has no test of its argument.
`timer_sleep (0)` called by thread 0 at tick 10 sets the caller to Blocked,
appends it to `block_list` with wake_tick 10 and dispatches thread 1, and so
does `timer_sleep (-5)`, with wake_tick 5. -/
theorem timer_sleep_zero_blocks :
    (timer_sleep 0 sleep_state).map
        (fun s => ((s.threads 0).status, s.block_list, (s.threads 0).wake_tick, s.cur,
          s.ready_list))
      = some (THREAD_BLOCKED, [0], 10, 1, []) ∧
    (timer_sleep (-5) sleep_state).map
        (fun s => ((s.threads 0).status, s.block_list, (s.threads 0).wake_tick, s.cur,
          s.ready_list))
      = some (THREAD_BLOCKED, [0], 5, 1, []) :=
  ⟨by decide, by decide⟩

/-! ## Lists -/

theorem mem_sort_insert {α : Type} (less : α → α → Bool) (x d : α) (l : List α) :
    d ∈ sort_insert less x l ↔ d = x ∨ d ∈ l := by
  induction l with
  | nil => simp [sort_insert]
  | cons e l ih =>
    unfold sort_insert
    split
    · simp only [List.mem_cons, ih]; tauto
    · simp only [List.mem_cons]

theorem mem_list_sort {α : Type} (less : α → α → Bool) (d : α) (l : List α) :
    d ∈ list_sort less l ↔ d ∈ l := by
  induction l with
  | nil => simp [list_sort]
  | cons e l ih => simp [list_sort, mem_sort_insert, ih]

theorem mem_list_insert_ordered {α : Type} (less : α → α → Bool) (x d : α) (l : List α) :
    d ∈ list_insert_ordered less x l ↔ d = x ∨ d ∈ l := by
  induction l with
  | nil => simp [list_insert_ordered]
  | cons e l ih =>
    unfold list_insert_ordered
    split
    · simp only [List.mem_cons]
    · simp only [List.mem_cons, ih]; tauto

theorem list_insert_ordered_ne_nil {α : Type} (less : α → α → Bool) (x : α) (l : List α) :
    list_insert_ordered less x l ≠ [] := by
  cases l with
  | nil => simp [list_insert_ordered]
  | cons e l => unfold list_insert_ordered; split <;> simp

theorem sort_insert_pairwise {α : Type} (key : α → Int) (x : α) (l : List α)
    (h : l.Pairwise (fun a b => key b ≤ key a)) :
    (sort_insert (fun a b => decide (key a > key b)) x l).Pairwise
      (fun a b => key b ≤ key a) := by
  induction l with
  | nil => simp [sort_insert]
  | cons e l ih =>
    rw [List.pairwise_cons] at h
    unfold sort_insert
    split
    · rename_i hlt
      have hlt2 : key x < key e := by simpa using hlt
      rw [List.pairwise_cons]
      refine ⟨?_, ih h.2⟩
      intro d hd
      rcases (mem_sort_insert _ x d l).1 hd with rfl | hd
      · omega
      · exact h.1 d hd
    · rename_i hlt
      have hlt2 : key e ≤ key x := by simpa using hlt
      rw [List.pairwise_cons]
      refine ⟨?_, List.pairwise_cons.2 h⟩
      intro d hd
      rcases List.mem_cons.1 hd with rfl | hd
      · exact hlt2
      · have := h.1 d hd
        omega

theorem list_sort_pairwise {α : Type} (key : α → Int) (l : List α) :
    (list_sort (fun a b => decide (key a > key b)) l).Pairwise (fun a b => key b ≤ key a) := by
  induction l with
  | nil => simp [list_sort]
  | cons e l ih => exact sort_insert_pairwise key e _ ih

/-! ## The max-rule -/

theorem donor_max_ge_base (s : State) (base : Int) (ds : List Nat) :
    base ≤ donor_max s base ds := by
  induction ds with
  | nil => simp [donor_max]
  | cons d ds ih =>
    have : donor_max s base (d :: ds) = max (s.threads d).priority (donor_max s base ds) := rfl
    rw [this]; omega

theorem donor_max_ge_mem (s : State) (base : Int) (ds : List Nat) (d : Nat) (hd : d ∈ ds) :
    (s.threads d).priority ≤ donor_max s base ds := by
  induction ds with
  | nil => simp at hd
  | cons e ds ih =>
    have : donor_max s base (e :: ds) = max (s.threads e).priority (donor_max s base ds) := rfl
    rw [this]
    rcases List.mem_cons.1 hd with rfl | hd
    · omega
    · have := ih hd; omega

theorem donor_max_attained (s : State) (base : Int) (ds : List Nat) :
    donor_max s base ds = base ∨ ∃ d ∈ ds, donor_max s base ds = (s.threads d).priority := by
  induction ds with
  | nil => left; rfl
  | cons e ds ih =>
    have he : donor_max s base (e :: ds) = max (s.threads e).priority (donor_max s base ds) := rfl
    rw [he]
    rcases le_total (s.threads e).priority (donor_max s base ds) with h | h
    · rw [max_eq_right h]
      rcases ih with ih | ⟨d, hd, ih⟩
      · left; exact ih
      · right; exact ⟨d, List.mem_cons_of_mem _ hd, ih⟩
    · rw [max_eq_left h]
      right; exact ⟨e, List.mem_cons_self _ _, rfl⟩

theorem donor_max_unique (s : State) (base m : Int) (ds : List Nat)
    (h1 : base ≤ m) (h2 : ∀ d ∈ ds, (s.threads d).priority ≤ m)
    (h3 : m = base ∨ ∃ d ∈ ds, m = (s.threads d).priority) :
    m = donor_max s base ds := by
  have g1 := donor_max_ge_base s base ds
  have g3 := donor_max_attained s base ds
  apply le_antisymm
  · rcases h3 with h | ⟨d, hd, h⟩
    · omega
    · rw [h]; exact donor_max_ge_mem s base ds d hd
  · rcases g3 with g | ⟨d, hd, g⟩
    · omega
    · rw [g]; exact h2 d hd

/-! ## Dispatching -/

theorem upd_threads (s : State) (t u : Nat) (f : thread → thread) :
    (s.upd t f).threads u = if u = t then f (s.threads t) else s.threads u := by
  by_cases h : u = t
  · subst h; simp
  · simp [h]

@[simp] theorem next_thread_to_run_threads (s : State) :
    (next_thread_to_run s).2.threads = s.threads := by
  unfold next_thread_to_run; cases s.ready_list <;> rfl

@[simp] theorem next_thread_to_run_cur (s : State) :
    (next_thread_to_run s).2.cur = s.cur := by
  unfold next_thread_to_run; cases s.ready_list <;> rfl

@[simp] theorem next_thread_to_run_block_list (s : State) :
    (next_thread_to_run s).2.block_list = s.block_list := by
  unfold next_thread_to_run; cases s.ready_list <;> rfl

@[simp] theorem next_thread_to_run_ticks (s : State) :
    (next_thread_to_run s).2.ticks = s.ticks := by
  unfold next_thread_to_run; cases s.ready_list <;> rfl

@[simp] theorem next_thread_to_run_thread_mlfqs (s : State) :
    (next_thread_to_run s).2.thread_mlfqs = s.thread_mlfqs := by
  unfold next_thread_to_run; cases s.ready_list <;> rfl

theorem next_thread_to_run_cons (s : State) (front : Nat) (rest : List Nat)
    (h : s.ready_list = front :: rest) :
    next_thread_to_run s = (some front, { s with ready_list := rest }) := by
  unfold next_thread_to_run; rw [h]

theorem thread_schedule_tail_threads (s : State) (next t : Nat) :
    (thread_schedule_tail s next).threads t =
      if t = next then { s.threads next with status := THREAD_RUNNING } else s.threads t := by
  have h : (thread_schedule_tail s next).threads
      = (s.upd next fun t => { t with status := THREAD_RUNNING }).threads := rfl
  rw [h, upd_threads]

@[simp] theorem thread_schedule_tail_cur (s : State) (next : Nat) :
    (thread_schedule_tail s next).cur = next := rfl

@[simp] theorem thread_schedule_tail_block_list (s : State) (next : Nat) :
    (thread_schedule_tail s next).block_list = s.block_list := rfl

@[simp] theorem thread_schedule_tail_ready_list (s : State) (next : Nat) :
    (thread_schedule_tail s next).ready_list = s.ready_list := rfl

@[simp] theorem thread_schedule_tail_ticks (s : State) (next : Nat) :
    (thread_schedule_tail s next).ticks = s.ticks := rfl

@[simp] theorem thread_schedule_tail_thread_mlfqs (s : State) (next : Nat) :
    (thread_schedule_tail s next).thread_mlfqs = s.thread_mlfqs := rfl

theorem schedule_eq_some (s : State) (next : Nat)
    (h1 : (next_thread_to_run s).1 = some next)
    (h2 : (s.threads s.cur).status ≠ THREAD_RUNNING) :
    schedule s = some (thread_schedule_tail (next_thread_to_run s).2 next) := by
  unfold schedule
  rcases h : next_thread_to_run s with ⟨a, b⟩
  rw [h] at h1
  simp only at h1
  subst h1
  have hb : b = (next_thread_to_run s).2 := by rw [h]
  simp only
  rw [hb]
  simp [h2]

theorem thread_yield_eq (s : State) (hrun : (s.threads s.cur).status = THREAD_RUNNING) :
    thread_yield s = schedule
      ((if some s.cur ≠ s.idle_thread then
          ({ s with ready_list := list_insert_ordered (high_pri s) s.cur s.ready_list } : State)
        else s).upd s.cur fun t => { t with status := THREAD_READY }) := by
  unfold thread_yield thread_current
  simp only [hrun, if_true]

theorem thread_yield_keeps (s : State) (hrun : (s.threads s.cur).status = THREAD_RUNNING)
    (hne : s.ready_list ≠ []) :
    ∃ s', thread_yield s = some s' ∧ ∀ t, (s'.threads t).priority = (s.threads t).priority ∧
      (s'.threads t).priority_inst = (s.threads t).priority_inst := by
  rw [thread_yield_eq s hrun]
  generalize hs1 : (if some s.cur ≠ s.idle_thread then
          ({ s with ready_list := list_insert_ordered (high_pri s) s.cur s.ready_list } : State)
        else s) = s1
  have hth : s1.threads = s.threads := by subst hs1; split <;> rfl
  have hcur : s1.cur = s.cur := by subst hs1; split <;> rfl
  have hL : s1.ready_list ≠ [] := by
    subst hs1
    split
    · exact list_insert_ordered_ne_nil _ _ _
    · exact hne
  obtain ⟨front, rest, hfr⟩ : ∃ front rest, s1.ready_list = front :: rest := by
    cases h : s1.ready_list with
    | nil => exact absurd h hL
    | cons a b => exact ⟨a, b, rfl⟩
  have hnext := next_thread_to_run_cons (s1.upd s.cur fun t => { t with status := THREAD_READY })
    front rest (by simpa using hfr)
  refine ⟨_, schedule_eq_some _ front (by rw [hnext]) (by simp [hcur]), ?_⟩
  intro t
  rw [thread_schedule_tail_threads]
  simp only [next_thread_to_run_threads, upd_threads, hth]
  split_ifs <;> simp_all

/-! ## C3: `thread_set_priority` -/

theorem list_sort_head_max (s : State) (ds : List Nat) (t1 : Nat) (rest : List Nat)
    (h : list_sort (high_pri s) ds = t1 :: rest) :
    t1 ∈ ds ∧ ∀ d ∈ ds, (s.threads d).priority ≤ (s.threads t1).priority := by
  have hp := list_sort_pairwise (fun d => (s.threads d).priority) ds
  have hm : ∀ d, d ∈ list_sort (high_pri s) ds ↔ d ∈ ds := fun d => mem_list_sort _ d ds
  have hp2 : (list_sort (high_pri s) ds).Pairwise
      (fun a b => (s.threads b).priority ≤ (s.threads a).priority) := hp
  rw [h] at hp2
  rw [List.pairwise_cons] at hp2
  refine ⟨(hm t1).1 (by rw [h]; exact List.mem_cons_self _ _), ?_⟩
  intro d hd
  have hd2 := (hm d).2 hd
  rw [h] at hd2
  rcases List.mem_cons.1 hd2 with rfl | hd3
  · exact le_refl _
  · exact hp2.1 d hd3

theorem list_sort_eq_nil {α : Type} (less : α → α → Bool) (l : List α)
    (h : list_sort less l = []) : l = [] := by
  cases l with
  | nil => rfl
  | cons a l =>
    have := (mem_list_sort less a (a :: l)).2 (List.mem_cons_self _ _)
    rw [h] at this
    simp at this

theorem set_priority_yield_keeps (c : Nat) (s2 : State)
    (hrun : (s2.threads s2.cur).status = THREAD_RUNNING) :
    ∃ s', set_priority_yield c s2 = some s' ∧
      ∀ t, (s'.threads t).priority = (s2.threads t).priority ∧
        (s'.threads t).priority_inst = (s2.threads t).priority_inst := by
  unfold set_priority_yield
  by_cases hr : s2.ready_list = []
  · simp [hr]
  · simp only [hr, not_false_eq_true, if_true]
    cases hsort : list_sort (high_pri s2) s2.ready_list with
    | nil => exact ⟨_, rfl, fun t => ⟨rfl, rfl⟩⟩
    | cons front rest =>
      simp only
      split
      · have h := thread_yield_keeps { s2 with ready_list := front :: rest } hrun (by simp)
        exact h
      · exact ⟨_, rfl, fun t => ⟨rfl, rfl⟩⟩

theorem donors_state_sort (w1 w2 p1 p2 : Int) (f : thread → thread) :
    list_sort (high_pri_dona ((donors_state w1 w2 p1 p2).upd 0 f)) [1, 2]
      = if w2 > w1 then [2, 1] else [1, 2] := by
  simp only [list_sort, sort_insert, high_pri_dona]
  have h1 : ((donors_state w1 w2 p1 p2).upd 0 f).dona_word 1 = w1 := by
    simp [State.upd, donors_state]
  have h2 : ((donors_state w1 w2 p1 p2).upd 0 f).dona_word 2 = w2 := by
    simp [State.upd, donors_state]
  rw [h1, h2]
  by_cases h : w2 > w1
  · simp [h]
  · simp [h]

theorem donors_state_result (w1 w2 p1 p2 : Int) (front other : Nat) (pf : Int)
    (hs : (if w2 > w1 then [2, 1] else [1, 2]) = [front, other])
    (hf : ((donors_state w1 w2 p1 p2).threads front).priority = pf) (h0 : front ≠ 0)
    (hle : ¬ pf > 31) :
    (thread_set_priority 31 (donors_state w1 w2 p1 p2)).map
      (fun s => ((s.threads 0).priority_inst, (s.threads 0).priority)) = some (31, 31) := by
  have hmode : (donors_state w1 w2 p1 p2).thread_mlfqs = false := rfl
  have hcur : thread_current (donors_state w1 w2 p1 p2) = some 0 := rfl
  have hd : ((donors_state w1 w2 p1 p2).threads 0).dona_list = [1, 2] := rfl
  have hrl : ∀ f g : thread → thread,
      (((donors_state w1 w2 p1 p2).upd 0 f).upd 0 g).ready_list = [] := fun _ _ => rfl
  unfold thread_set_priority
  rw [hmode, hcur]
  simp only [Bool.false_eq_true, if_false]
  unfold set_priority_donors
  simp only [upd_threads_same, hd]
  rw [donors_state_sort, hs]
  simp only [List.cons_ne_nil, not_false_eq_true, if_true, upd_threads_ne _ _ _ _ h0,
    upd_threads_same, hf, hle, if_false]
  unfold set_priority_yield
  simp only [upd_ready_list]
  have hr0 : (donors_state w1 w2 p1 p2).ready_list = [] := rfl
  simp [hr0]

/-- C3 fails on the code for a caller with two donors.  `thread_set_priority`
sorts the donor list with `high_pri`, which does not compare the donors'
priorities but the words `dona_word`, and then takes the priority of the donor
in front.  With equal words (scenario `set_priority_state`, donors of priority
20 and 45 in this order) `thread_set_priority (33)` leaves the caller with
effective priority 33, though the maximum over base and donors is 45.  And
whatever the two words are, one of the two assignments of the priorities 20
and 45 to the donors 1 and 2 makes `thread_set_priority (31)` end with
effective priority 31 instead of 45. -/
theorem thread_set_priority_misses_donor :
    ((thread_set_priority 33 set_priority_state).map
        (fun s => ((s.threads 0).priority_inst, (s.threads 0).priority)) = some (33, 33) ∧
      donor_max set_priority_state 33 (set_priority_state.threads 0).dona_list = 45) ∧
    ∀ w1 w2 : Int, ∃ p1 p2 : Int, ((p1 = 20 ∧ p2 = 45) ∨ (p1 = 45 ∧ p2 = 20)) ∧
      (thread_set_priority 31 (donors_state w1 w2 p1 p2)).map
        (fun s => ((s.threads 0).priority_inst, (s.threads 0).priority)) = some (31, 31) ∧
      donor_max (donors_state w1 w2 p1 p2) 31
        ((donors_state w1 w2 p1 p2).threads 0).dona_list = 45 := by
  refine ⟨⟨by decide, by decide⟩, ?_⟩
  intro w1 w2
  by_cases h : w2 > w1
  · refine ⟨45, 20, Or.inr ⟨rfl, rfl⟩, ?_, rfl⟩
    exact donors_state_result w1 w2 45 20 2 1 20 (by rw [if_pos h]) rfl (by decide) (by decide)
  · refine ⟨20, 45, Or.inl ⟨rfl, rfl⟩, ?_, rfl⟩
    exact donors_state_result w1 w2 20 45 1 2 20 (by rw [if_neg h]) rfl (by decide) (by decide)

/-! ## C5: `timer_sleep` -/

theorem high_pri_congr (s s2 : State)
    (h : ∀ t, (s2.threads t).priority = (s.threads t).priority) : high_pri s2 = high_pri s := by
  funext a b
  simp [high_pri, h]

theorem list_insert_ordered_perm {α : Type} (less : α → α → Bool) (x : α) (l : List α) :
    List.Perm (list_insert_ordered less x l) (x :: l) := by
  induction l with
  | nil => simp [list_insert_ordered]
  | cons e l ih =>
    unfold list_insert_ordered
    split
    · exact List.Perm.refl _
    · exact (List.Perm.cons e ih).trans (List.Perm.swap x e l)

/-- The ready list after the threads `ws` have been unblocked one after the
other. -/
theorem foldl_insert_perm {α : Type} (less : α → α → Bool) (ws l : List α) :
    List.Perm (ws.foldl (fun rl t => list_insert_ordered less t rl) l) (l ++ ws) := by
  induction ws generalizing l with
  | nil => simp
  | cons w ws ih =>
    simp only [List.foldl_cons]
    refine (ih _).trans ?_
    have h1 := list_insert_ordered_perm less w l
    refine (List.Perm.append_right ws h1).trans ?_
    simp only [List.cons_append]
    exact (List.perm_middle).symm

theorem thread_unblock_eq (t : Nat) (s : State) (h : (s.threads t).status = THREAD_BLOCKED) :
    thread_unblock t s = some ({ s with
      ready_list := list_insert_ordered (high_pri s) t s.ready_list }.upd t
        fun r => { r with status := THREAD_READY }) := by
  unfold thread_unblock
  simp only [h, if_true]

theorem timer_wake_loop_spec (now : Int) (rest : List Nat) :
    ∀ (kept : List Nat) (s : State),
      (∀ t ∈ rest, (s.threads t).status = THREAD_BLOCKED) → rest.Nodup →
      s.block_list = kept ++ rest →
      ∃ s', timer_wake_loop now kept rest s = some s' ∧
        s'.block_list = kept ++ rest.filter (fun t => decide (now < (s.threads t).wake_tick)) ∧
        (∀ t, s'.threads t =
          if t ∈ rest ∧ (s.threads t).wake_tick ≤ now then
            { s.threads t with status := THREAD_READY }
          else s.threads t) ∧
        s'.ready_list =
          (rest.filter (fun t => decide ((s.threads t).wake_tick ≤ now))).foldl
            (fun rl t => list_insert_ordered (high_pri s) t rl) s.ready_list ∧
        s' = { s with threads := s'.threads, ready_list := s'.ready_list,
                      block_list := s'.block_list } := by
  induction rest with
  | nil =>
    intro kept s _ _ hbl
    refine ⟨s, rfl, by simpa using hbl, by simp, by simp, rfl⟩
  | cons c rest ih =>
    intro kept s hst hnd hbl
    rw [List.nodup_cons] at hnd
    have hcst := hst c (List.mem_cons_self _ _)
    unfold timer_wake_loop
    by_cases hw : (s.threads c).wake_tick ≤ now
    · simp only [ge_iff_le, hw, if_true]
      obtain ⟨s0, hs0⟩ : ∃ s0 : State, s0 = { s with block_list := kept ++ rest } := ⟨_, rfl⟩
      rw [← hs0]
      have hcst0 : (s0.threads c).status = THREAD_BLOCKED := by rw [hs0]; exact hcst
      rw [thread_unblock_eq c s0 hcst0]
      simp only
      obtain ⟨s1, hs1⟩ : ∃ s1 : State, s1 = ({ s0 with
          ready_list := list_insert_ordered (high_pri s0) c s0.ready_list }.upd c
            fun r => { r with status := THREAD_READY }) := ⟨_, rfl⟩
      rw [← hs1]
      subst hs0
      have hs1 := hs1.symm
      have hth : ∀ t, s1.threads t
          = if t = c then { s.threads c with status := THREAD_READY } else s.threads t := by
        intro t; subst hs1; exact upd_threads _ c t _
      have hrl : s1.ready_list = list_insert_ordered (high_pri s) c s.ready_list := by
        subst hs1; rfl
      have hbl1 : s1.block_list = kept ++ rest := by subst hs1; rfl
      have hhp : high_pri s1 = high_pri s := by
        apply high_pri_congr; intro t; rw [hth]; split_ifs with h
        · subst h; rfl
        · rfl
      have hwk : ∀ t, (s1.threads t).wake_tick = (s.threads t).wake_tick := by
        intro t; rw [hth]; split_ifs with h
        · subst h; rfl
        · rfl
      have hrest : s1 =
          { s with threads := s1.threads, ready_list := s1.ready_list, block_list := kept ++ rest } := by
        subst hs1; rfl
      obtain ⟨s', h1, h2, h3, h4, h5⟩ := ih kept s1
        (by
          intro t ht
          have hne : t ≠ c := fun h => hnd.1 (h ▸ ht)
          rw [hth, if_neg hne]
          exact hst t (List.mem_cons_of_mem _ ht))
        hnd.2 hbl1
      refine ⟨s', h1, ?_, ?_, ?_, ?_⟩
      · rw [h2]
        simp only [hwk]
        rw [List.filter_cons]
        have : ¬ now < (s.threads c).wake_tick := by omega
        simp [this]
      · intro t
        rw [h3, hwk, hth]
        by_cases htc : t = c
        · subst htc
          simp [hnd.1, hw]
        · simp [htc]
      · rw [h4, hrl, hhp]
        simp only [hwk]
        rw [List.filter_cons]
        simp [hw]
      · rw [hrest] at h5
        exact h5
    · have hw2 : now < (s.threads c).wake_tick := by omega
      simp only [ge_iff_le, hw, if_false]
      obtain ⟨s', h1, h2, h3, h4, h5⟩ := ih (kept ++ [c]) s
        (fun t ht => hst t (List.mem_cons_of_mem _ ht)) hnd.2 (by simpa using hbl)
      refine ⟨s', h1, ?_, ?_, ?_, h5⟩
      · rw [h2, List.filter_cons]
        simp [hw2]
      · intro t
        rw [h3]
        by_cases htc : t = c
        · subst htc
          simp [hnd.1, hw]
        · simp [htc]
      · rw [h4, List.filter_cons]
        simp [hw]

theorem same_sleepers_refl (s : State) : same_sleepers s s :=
  ⟨rfl, rfl, rfl, rfl, rfl, rfl, fun _ => ⟨rfl, rfl⟩⟩

theorem same_sleepers_trans (a b c : State) (h1 : same_sleepers a b) (h2 : same_sleepers b c) :
    same_sleepers a c := by
  obtain ⟨a1, a2, a3, a4, a5, a7, a6⟩ := h1
  obtain ⟨b1, b2, b3, b4, b5, b7, b6⟩ := h2
  refine ⟨b1.trans a1, b2.trans a2, b3.trans a3, b4.trans a4, b5.trans a5, b7.trans a7,
    fun t => ?_⟩
  exact ⟨(b6 t).1.trans (a6 t).1, (b6 t).2.trans (a6 t).2⟩

theorem same_sleepers_upd (s : State) (t : Nat) (f : thread → thread)
    (hf : ∀ r, (f r).status = r.status ∧ (f r).wake_tick = r.wake_tick) :
    same_sleepers s (s.upd t f) := by
  refine ⟨rfl, rfl, rfl, rfl, rfl, rfl, fun u => ?_⟩
  rw [upd_threads]
  split_ifs with h
  · subst h; exact hf _
  · exact ⟨rfl, rfl⟩

theorem thread_tick_same (s s' : State) (h : thread_tick s = some s') : same_sleepers s s' := by
  unfold thread_tick at h
  cases hc : thread_current s with
  | none => rw [hc] at h; simp at h
  | some c =>
    rw [hc] at h
    simp only [Option.some.injEq] at h
    subst h
    split_ifs <;> exact ⟨rfl, rfl, rfl, rfl, rfl, rfl, fun _ => ⟨rfl, rfl⟩⟩

theorem thread_tick_total (s : State) (h : (s.threads s.cur).status = THREAD_RUNNING) :
    ∃ s', thread_tick s = some s' := by
  unfold thread_tick thread_current
  simp only [h, if_true]
  exact ⟨_, rfl⟩

theorem mlfqs_increment_same (s s' : State) (h : mlfqs_increment s = some s') :
    same_sleepers s s' := by
  unfold mlfqs_increment at h
  cases hc : thread_current s with
  | none => rw [hc] at h; simp at h
  | some c =>
    rw [hc] at h
    simp only at h
    split_ifs at h
    · simp only [Option.some.injEq] at h; subst h; exact same_sleepers_refl s
    · simp only [Option.some.injEq] at h; subst h
      exact same_sleepers_upd s c _ (fun r => ⟨rfl, rfl⟩)

theorem mlfqs_load_avg_same (s s' : State) (h : mlfqs_load_avg s = some s') :
    same_sleepers s s' := by
  unfold mlfqs_load_avg at h
  cases hc : thread_current s with
  | none => rw [hc] at h; simp at h
  | some c =>
    rw [hc] at h
    simp only at h
    split_ifs at h <;>
      (simp only [Option.some.injEq] at h; subst h
       exact ⟨rfl, rfl, rfl, rfl, rfl, rfl, fun _ => ⟨rfl, rfl⟩⟩)

theorem mlfqs_priority_same (t : Nat) (s : State) : same_sleepers s (mlfqs_priority t s) := by
  unfold mlfqs_priority
  split_ifs
  · exact same_sleepers_refl s
  · exact same_sleepers_upd s t _ (fun r => ⟨rfl, rfl⟩)

theorem mlfqs_recent_cpu_same (t : Nat) (s s' : State) (h : mlfqs_recent_cpu t s = some s') :
    same_sleepers s s' := by
  unfold mlfqs_recent_cpu at h
  split_ifs at h
  · simp only [Option.some.injEq] at h; subst h; exact same_sleepers_refl s
  · cases hk : fixed_div (wrap32 (2 * s.load_avg)) (fixed_int_add (wrap32 (2 * s.load_avg)) 1) with
    | none => rw [hk] at h; simp at h
    | some k =>
      rw [hk] at h
      simp only [Option.some.injEq] at h; subst h
      exact same_sleepers_upd s t _ (fun r => ⟨rfl, rfl⟩)

theorem mlfqs_recalc_loop_same (l : List Nat) :
    ∀ (s s' : State), mlfqs_recalc_loop l s = some s' → same_sleepers s s' := by
  induction l with
  | nil =>
    intro s s' h
    simp only [mlfqs_recalc_loop, Option.some.injEq] at h
    subst h; exact same_sleepers_refl s
  | cons t l ih =>
    intro s s' h
    unfold mlfqs_recalc_loop at h
    cases h1 : mlfqs_recent_cpu t s with
    | none => rw [h1] at h; simp at h
    | some s1 =>
      rw [h1] at h
      simp only at h
      exact same_sleepers_trans _ _ _ (mlfqs_recent_cpu_same t s s1 h1)
        (same_sleepers_trans _ _ _ (mlfqs_priority_same t s1) (ih _ _ h))

theorem timer_wake_spec (s : State) (hnd : s.block_list.Nodup)
    (hbl : ∀ t ∈ s.block_list, (s.threads t).status = THREAD_BLOCKED) :
    ∃ s', timer_wake s = some s' ∧
      s'.block_list = s.block_list.filter (fun t => decide (s.ticks < (s.threads t).wake_tick)) ∧
      (∀ t, s'.threads t =
        if t ∈ s.block_list ∧ (s.threads t).wake_tick ≤ s.ticks then
          { s.threads t with status := THREAD_READY }
        else s.threads t) ∧
      s'.ready_list =
        (s.block_list.filter (fun t => decide ((s.threads t).wake_tick ≤ s.ticks))).foldl
          (fun rl t => list_insert_ordered (high_pri s) t rl) s.ready_list ∧
      s' = { s with threads := s'.threads, ready_list := s'.ready_list,
                    block_list := s'.block_list } := by
  obtain ⟨s', h1, h2, h3, h4, h5⟩ :=
    timer_wake_loop_spec s.ticks s.block_list [] s hbl hnd (by simp)
  exact ⟨s', h1, by simpa using h2, h3, h4, h5⟩

theorem timer_interrupt_wake (TIMER_FREQ : Int) (s s' : State)
    (h : timer_interrupt TIMER_FREQ s = some s') :
    ∃ s5, same_sleepers { s with ticks := s.ticks + 1 } s5 ∧ timer_wake s5 = some s' := by
  unfold timer_interrupt at h
  simp only at h
  cases h1 : thread_tick { s with ticks := s.ticks + 1 } with
  | none => rw [h1] at h; simp at h
  | some s1 =>
    rw [h1] at h
    simp only at h
    have e1 := thread_tick_same _ _ h1
    by_cases hm : s1.thread_mlfqs = true
    · simp only [hm, if_true] at h
      cases h2 : mlfqs_increment s1 with
      | none => rw [h2] at h; simp at h
      | some s2 =>
        rw [h2] at h
        simp only at h
        have e2 := same_sleepers_trans _ _ _ e1 (mlfqs_increment_same _ _ h2)
        have e3 : ∀ s3, (if Int.tmod s2.ticks TIMER_FREQ = 0 then
            (match mlfqs_load_avg s2 with
              | none => none
              | some s2a => mlfqs_recalc s2a) else some s2) = some s3 →
            same_sleepers { s with ticks := s.ticks + 1 } s3 := by
          intro s3 h3
          split_ifs at h3
          · cases h4 : mlfqs_load_avg s2 with
            | none => rw [h4] at h3; simp at h3
            | some s2a =>
              rw [h4] at h3
              simp only at h3
              exact same_sleepers_trans _ _ _ e2
                (same_sleepers_trans _ _ _ (mlfqs_load_avg_same _ _ h4)
                  (mlfqs_recalc_loop_same _ _ _ h3))
          · simp only [Option.some.injEq] at h3; subst h3; exact e2
        cases h3 : (if Int.tmod s2.ticks TIMER_FREQ = 0 then
            (match mlfqs_load_avg s2 with
              | none => none
              | some s2a => mlfqs_recalc s2a) else some s2) with
        | none => rw [h3] at h; simp at h
        | some s3 =>
          rw [h3] at h
          simp only at h
          have e4 := e3 s3 h3
          by_cases h4 : Int.tmod s3.ticks 4 = 0
          · simp only [h4, if_true] at h
            cases h5 : thread_current s3 with
            | none => rw [h5] at h; simp at h
            | some c =>
              rw [h5] at h
              simp only [Option.map_some'] at h
              exact ⟨_, same_sleepers_trans _ _ _ e4 (mlfqs_priority_same c s3), h⟩
          · simp only [h4, if_false] at h
            exact ⟨_, e4, h⟩
    · simp only [hm, if_false] at h
      exact ⟨_, e1, h⟩

theorem timer_interrupt_sleepers (TIMER_FREQ : Int) (s s' : State) (hinv : sleep_inv s)
    (h : timer_interrupt TIMER_FREQ s = some s') :
    s'.ticks = s.ticks + 1 ∧ sleep_inv s' ∧ s'.thread_mlfqs = s.thread_mlfqs ∧
      s'.block_list
        = s.block_list.filter (fun t => decide (s.ticks + 1 < (s.threads t).wake_tick)) ∧
      (∀ t, (s'.threads t).wake_tick = (s.threads t).wake_tick) ∧
      (∀ t, (s'.threads t).status =
        if t ∈ s.block_list ∧ (s.threads t).wake_tick ≤ s.ticks + 1 then THREAD_READY
        else (s.threads t).status) ∧
      (∀ t ∈ s.block_list, (s.threads t).wake_tick ≤ s.ticks + 1 → t ∈ s'.ready_list) := by
  obtain ⟨s5, ⟨e1, e2, e3, e4, e5, _, e6⟩, hw⟩ := timer_interrupt_wake TIMER_FREQ s s' h
  simp only at e1 e2 e3 e4 e5 e6
  obtain ⟨hnd, hbl, hrun⟩ := hinv
  obtain ⟨s'', k1, k2, k3, k4, k5⟩ := timer_wake_spec s5 (by rw [e1]; exact hnd)
    (by intro t ht; rw [(e6 t).1]; rw [e1] at ht; exact hbl t ht)
  rw [hw] at k1
  simp only [Option.some.injEq] at k1
  subst k1
  have hwk : ∀ t, (s5.threads t).wake_tick = (s.threads t).wake_tick := fun t => (e6 t).2
  have hst : ∀ t, (s5.threads t).status = (s.threads t).status := fun t => (e6 t).1
  have hstat : ∀ t, (s'.threads t).status =
      if t ∈ s.block_list ∧ (s.threads t).wake_tick ≤ s.ticks + 1 then THREAD_READY
      else (s.threads t).status := by
    intro t
    rw [k3, e1, hwk, e3]
    split_ifs
    · rfl
    · exact hst t
  have hblk : s'.block_list
      = s.block_list.filter (fun t => decide (s.ticks + 1 < (s.threads t).wake_tick)) := by
    rw [k2, e1, e3]; simp only [hwk]
  have hcur : s'.cur = s.cur := by rw [k5]; exact e4
  refine ⟨?_, ⟨?_, ?_, ?_⟩, ?_, hblk, ?_, hstat, ?_⟩
  · rw [k5]; exact e3
  · rw [hblk]; exact hnd.filter _
  · intro t ht
    rw [hblk, List.mem_filter] at ht
    have h2 : s.ticks + 1 < (s.threads t).wake_tick := by simpa using ht.2
    rw [hstat, if_neg (by intro hc; omega)]
    exact hbl t ht.1
  · rw [hcur, hstat]
    have hnb : s.cur ∉ s.block_list := by
      intro hc
      have := hbl _ hc
      rw [hrun] at this
      exact absurd this (by decide)
    rw [if_neg (fun hc => hnb hc.1)]
    exact hrun
  · rw [k5]; exact e5
  · intro t
    rw [k3]
    split_ifs
    · exact hwk t
    · exact hwk t
  · intro t ht hle
    have hp := foldl_insert_perm (high_pri s5)
      (s5.block_list.filter (fun t => decide ((s5.threads t).wake_tick ≤ s5.ticks))) s5.ready_list
    rw [← k4] at hp
    apply hp.mem_iff.2
    apply List.mem_append_right
    rw [List.mem_filter]
    refine ⟨by rw [e1]; exact ht, ?_⟩
    simp only [decide_eq_true_eq]
    rw [hwk, e3]; exact hle

theorem timer_interrupts_succ (TIMER_FREQ : Int) (k : Nat) (s sk : State)
    (h : timer_interrupts TIMER_FREQ (k + 1) s = some sk) :
    ∃ s', timer_interrupt TIMER_FREQ s = some s' ∧ timer_interrupts TIMER_FREQ k s' = some sk := by
  unfold timer_interrupts at h
  cases h1 : timer_interrupt TIMER_FREQ s with
  | none => rw [h1] at h; simp at h
  | some s' => rw [h1] at h; exact ⟨s', rfl, by simpa using h⟩

theorem timer_interrupts_sleeper (TIMER_FREQ : Int) (c : Nat) :
    ∀ (k M : Nat) (s sk : State), sleep_inv s → c ∈ s.block_list →
      (s.threads c).wake_tick = s.ticks + M → 0 < M → k ≤ M →
      timer_interrupts TIMER_FREQ k s = some sk →
      sk.ticks = s.ticks + k ∧
      (k < M → (sk.threads c).status = THREAD_BLOCKED ∧ c ∈ sk.block_list) ∧
      (k = M → (sk.threads c).status = THREAD_READY ∧ c ∉ sk.block_list ∧
        c ∈ sk.ready_list) := by
  intro k
  induction k with
  | zero =>
    intro M s sk hinv hc _ hM _ h
    simp only [timer_interrupts, Option.some.injEq] at h
    subst h
    refine ⟨by simp, fun _ => ⟨hinv.2.1 c hc, hc⟩, fun h0 => by omega⟩
  | succ k ih =>
    intro M s sk hinv hc hwake hM hk h
    obtain ⟨s', h1, h2⟩ := timer_interrupts_succ TIMER_FREQ k s sk h
    obtain ⟨f1, f2, _, f4, f5, f6, f7⟩ := timer_interrupt_sleepers TIMER_FREQ s s' hinv h1
    by_cases hM1 : M = 1
    · subst hM1
      have hk0 : k = 0 := by omega
      subst hk0
      simp only [timer_interrupts, Option.some.injEq] at h2
      subst h2
      have hle : (s.threads c).wake_tick ≤ s.ticks + 1 := by rw [hwake]; simp
      refine ⟨by rw [f1]; simp, fun hlt => by omega, fun _ => ⟨?_, ?_, f7 c hc hle⟩⟩
      · rw [f6, if_pos ⟨hc, hle⟩]
      · rw [f4, List.mem_filter]
        intro hcon
        have : s.ticks + 1 < (s.threads c).wake_tick := by simpa using hcon.2
        omega
    · have hc' : c ∈ s'.block_list := by
        rw [f4, List.mem_filter]
        refine ⟨hc, ?_⟩
        simp only [decide_eq_true_eq]
        rw [hwake]
        have : (2 : Int) ≤ (M : Int) := by omega
        omega
      have hwake' : (s'.threads c).wake_tick = s'.ticks + ((M - 1 : Nat) : Int) := by
        rw [f5, hwake, f1]
        have : ((M - 1 : Nat) : Int) = (M : Int) - 1 := by omega
        rw [this]; ring
      obtain ⟨g1, g2, g3⟩ := ih (M - 1) s' sk f2 hc' hwake' (by omega) (by omega) h2
      refine ⟨?_, fun hlt => g2 (by omega), fun heq => g3 (by omega)⟩
      rw [g1, f1]; push_cast; ring

theorem donate_loop_mono :
    ∀ (n : Nat) (s : State) (t1 t2 : Nat) (s' : State),
      donate_loop n s t1 t2 = Run.done s' →
      ∀ t, (s.threads t).priority ≤ (s'.threads t).priority := by
  intro n
  induction n with
  | zero => intro s t1 t2 s' h; simp [donate_loop] at h
  | succ n ih =>
    intro s t1 t2 s' h t
    unfold donate_loop at h
    by_cases hlt : (s.threads t1).priority < (s.threads t2).priority
    · simp only [hlt, if_true] at h
      have hstep : (s.threads t).priority
          ≤ ((s.upd t1 fun r => { r with priority := (s.threads t2).priority }).threads t).priority := by
        rw [upd_threads]
        split_ifs with e
        · subst e; exact le_of_lt hlt
        · exact le_refl _
      cases hl : ((s.upd t1 fun r => { r with priority := (s.threads t2).priority }).threads
          t1).lock_pointing with
      | none =>
        rw [hl] at h
        simp only [Run.done.injEq] at h
        subst h
        exact hstep
      | some l =>
        rw [hl] at h
        simp only at h
        cases hh : (s.upd t1 fun r => { r with priority := (s.threads t2).priority }).holder l with
        | none => rw [hh] at h; simp at h
        | some z =>
          rw [hh] at h
          simp only at h
          exact le_trans hstep (ih _ _ _ _ h t)
    · simp only [hlt, if_false, Run.done.injEq] at h
      subst h
      exact le_refl _

/-- C4: whenever `donate_priority` returns, every thread's effective
priority is at least what it was before the call. -/
theorem donate_priority_never_lowers (n : Nat) (s s' : State)
    (h : donate_priority n s = Run.done s') (t : Nat) :
    (s.threads t).priority ≤ (s'.threads t).priority := by
  unfold donate_priority at h
  cases hc : thread_current s with
  | none => rw [hc] at h; simp at h
  | some t2 =>
    rw [hc] at h
    simp only at h
    cases hl : (s.threads t2).lock_pointing with
    | none => rw [hl] at h; simp at h
    | some l =>
      rw [hl] at h
      simp only at h
      cases hh : s.holder l with
      | none => rw [hh] at h; simp at h
      | some t1 =>
        rw [hh] at h
        simp only at h
        exact donate_loop_mono n s t1 t2 s' h t

/-- Witness of `donate_priority_never_lowers`: the nested donation of C (30)
through B (20) to A (20) returns, and no priority went down; A and B end
at 30. -/
theorem donate_priority_never_lowers_witness :
    ∃ s', donate_priority 3 nested_state = Run.done s' ∧
      (∀ t, (nested_state.threads t).priority ≤ (s'.threads t).priority) ∧
      (s'.threads 0).priority = 30 ∧ (s'.threads 1).priority = 30 :=
  ⟨_, rfl, fun t => donate_priority_never_lowers 3 nested_state _ rfl t, by decide, by decide⟩

/-! ## C2: donation and the max-rule -/

theorem max_rule_iff (s : State) (t : Nat) :
    max_rule s t ↔
      ((s.threads t).priority_inst ≤ (s.threads t).priority ∧
        (∀ d ∈ (s.threads t).dona_list, (s.threads d).priority ≤ (s.threads t).priority) ∧
        ((s.threads t).priority = (s.threads t).priority_inst ∨
          ∃ d ∈ (s.threads t).dona_list, (s.threads t).priority = (s.threads d).priority)) := by
  unfold max_rule
  constructor
  · intro h
    rw [h]
    exact ⟨donor_max_ge_base _ _ _, fun d hd => donor_max_ge_mem _ _ _ d hd,
      donor_max_attained _ _ _⟩
  · rintro ⟨h1, h2, h3⟩
    exact donor_max_unique s _ _ _ h1 h2 h3

theorem waits_for_unique (s : State) (t h h' : Nat) (a : waits_for s t h) (b : waits_for s t h') :
    h = h' := by
  obtain ⟨l, a1, a2⟩ := a
  obtain ⟨l', b1, b2⟩ := b
  rw [a1] at b1
  simp only [Option.some.injEq] at b1
  subst b1
  rw [a2] at b2
  simpa using b2

theorem waits_for_raise (s : State) (t1 : Nat) (p : Int) (t h : Nat) :
    waits_for (s.upd t1 fun r => { r with priority := p }) t h ↔ waits_for s t h := by
  unfold waits_for
  simp only [upd_holder, upd_threads]
  by_cases e : t = t1
  · subst e; simp
  · simp [e]

theorem dona_list_raise (s : State) (t1 : Nat) (p : Int) (t : Nat) :
    ((s.upd t1 fun r => { r with priority := p }).threads t).dona_list
      = (s.threads t).dona_list := by
  rw [upd_threads]; split_ifs with e
  · subst e; rfl
  · rfl

theorem priority_inst_raise (s : State) (t1 : Nat) (p : Int) (t : Nat) :
    ((s.upd t1 fun r => { r with priority := p }).threads t).priority_inst
      = (s.threads t).priority_inst := by
  rw [upd_threads]; split_ifs with e
  · subst e; rfl
  · rfl

theorem priority_raise (s : State) (t1 : Nat) (p : Int) (t : Nat) :
    ((s.upd t1 fun r => { r with priority := p }).threads t).priority
      = if t = t1 then p else (s.threads t).priority := by
  rw [upd_threads]; split_ifs with e
  · rfl
  · rfl

theorem max_rule_raise_other (s : State) (t1 : Nat) (p : Int) (t : Nat)
    (hdw : ∀ t h, t ∈ (s.threads h).dona_list → waits_for s t h)
    (hne : t ≠ t1) (hnw : ¬ waits_for s t1 t) (h : max_rule s t) :
    max_rule (s.upd t1 fun r => { r with priority := p }) t := by
  rw [max_rule_iff] at h ⊢
  obtain ⟨h1, h2, h3⟩ := h
  have hd : ∀ d ∈ (s.threads t).dona_list,
      ((s.upd t1 fun r => { r with priority := p }).threads d).priority
        = (s.threads d).priority := by
    intro d hd
    rw [priority_raise, if_neg]
    intro e
    exact hnw (e ▸ hdw d t hd)
  simp only [dona_list_raise, priority_inst_raise]
  rw [priority_raise, if_neg hne]
  refine ⟨h1, ?_, ?_⟩
  · intro d hdm
    rw [hd d hdm]; exact h2 d hdm
  · rcases h3 with h3 | ⟨d, hdm, h3⟩
    · left; exact h3
    · right; exact ⟨d, hdm, by rw [hd d hdm]; exact h3⟩

theorem donate_loop_max_rule (rank : Nat → Nat) :
    ∀ (n : Nat) (s : State) (t1 t2 : Nat),
      (∀ t h, waits_for s t h → rank h < rank t) →
      (∀ t h, waits_for s t h → t ∈ (s.threads h).dona_list) →
      (∀ t h, t ∈ (s.threads h).dona_list → waits_for s t h) →
      (∀ t l, (s.threads t).lock_pointing = some l → ∃ h, s.holder l = some h) →
      waits_for s t2 t1 →
      (∀ t, t ≠ t1 → max_rule s t) →
      (s.threads t1).priority_inst ≤ (s.threads t1).priority →
      (∀ d ∈ (s.threads t1).dona_list, d ≠ t2 →
        (s.threads d).priority ≤ (s.threads t1).priority) →
      ((s.threads t1).priority = (s.threads t1).priority_inst ∨
        (∃ d ∈ (s.threads t1).dona_list, d ≠ t2 ∧
          (s.threads t1).priority = (s.threads d).priority) ∨
        (s.threads t1).priority < (s.threads t2).priority) →
      rank t1 < n →
      ∃ s', donate_loop n s t1 t2 = Run.done s' ∧ ∀ t, max_rule s' t := by
  intro n
  induction n with
  | zero => intro s t1 t2 _ _ _ _ _ _ _ _ _ hn; omega
  | succ n ih =>
    intro s t1 t2 hrank hwd hdw hhold hw hmr hb hd hatt hn
    have h21 : t2 ≠ t1 := by
      intro e
      have := hrank t2 t1 hw
      rw [e] at this
      omega
    have hself : ∀ t, ¬ waits_for s t t := by
      intro t hc
      have := hrank t t hc
      omega
    unfold donate_loop
    by_cases hlt : (s.threads t1).priority < (s.threads t2).priority
    · simp only [hlt, if_true]
      obtain ⟨s1, hs1⟩ : ∃ s1 : State,
        s1 = s.upd t1 fun r => { r with priority := (s.threads t2).priority } := ⟨_, rfl⟩
      rw [← hs1]
      have hwf : ∀ t h, waits_for s1 t h ↔ waits_for s t h := by
        intro t h; rw [hs1]; exact waits_for_raise s t1 _ t h
      have hdl : ∀ t, (s1.threads t).dona_list = (s.threads t).dona_list := by
        intro t; rw [hs1]; exact dona_list_raise s t1 _ t
      have hpi : ∀ t, (s1.threads t).priority_inst = (s.threads t).priority_inst := by
        intro t; rw [hs1]; exact priority_inst_raise s t1 _ t
      have hpr : ∀ t, (s1.threads t).priority
          = if t = t1 then (s.threads t2).priority else (s.threads t).priority := by
        intro t; rw [hs1]; exact priority_raise s t1 _ t
      have hlp : ∀ t, (s1.threads t).lock_pointing = (s.threads t).lock_pointing := by
        intro t; rw [hs1, upd_threads]; split_ifs with e
        · subst e; rfl
        · rfl
      have hho : s1.holder = s.holder := by rw [hs1]; rfl
      have hA : max_rule s1 t1 := by
        rw [max_rule_iff]
        simp only [hdl, hpi]
        rw [hpr t1, if_pos rfl]
        refine ⟨by omega, ?_, ?_⟩
        · intro d hdm
          rw [hpr d]
          split_ifs with e
          · exact le_refl _
          · by_cases e2 : d = t2
            · subst e2; exact le_refl _
            · have := hd d hdm e2; omega
        · right
          refine ⟨t2, hwd t2 t1 hw, ?_⟩
          rw [hpr t2, if_neg h21]
      have hB : ∀ t, t ≠ t1 → ¬ waits_for s t1 t → max_rule s1 t := by
        intro t hne hnw
        rw [hs1]
        exact max_rule_raise_other s t1 _ t hdw hne hnw (hmr t hne)
      cases hl : (s1.threads t1).lock_pointing with
      | none =>
        refine ⟨s1, rfl, ?_⟩
        intro t
        by_cases e : t = t1
        · subst e; exact hA
        · apply hB t e
          rintro ⟨l, c1, _⟩
          rw [← hlp, hl] at c1
          simp at c1
      | some l =>
        simp only
        have hl0 : (s.threads t1).lock_pointing = some l := by rw [← hlp]; exact hl
        obtain ⟨z, hz⟩ := hhold t1 l hl0
        have hz1 : s1.holder l = some z := by rw [hho]; exact hz
        rw [hz1]
        simp only
        have hwz : waits_for s t1 z := ⟨l, hl0, hz⟩
        have hz1ne : z ≠ t1 := by
          intro e; rw [e] at hwz; exact hself t1 hwz
        have hmz := (max_rule_iff s z).1 (hmr z hz1ne)
        apply ih s1 z t1
        · intro t h hh; exact hrank t h ((hwf t h).1 hh)
        · intro t h hh; rw [hdl]; exact hwd t h ((hwf t h).1 hh)
        · intro t h hh; rw [hdl] at hh; exact (hwf t h).2 (hdw t h hh)
        · intro t l' hh; rw [hlp] at hh; rw [hho]; exact hhold t l' hh
        · exact (hwf t1 z).2 hwz
        · intro t hne
          by_cases e : t = t1
          · subst e; exact hA
          · apply hB t e
            intro hc
            exact hne (waits_for_unique s t1 t z hc hwz)
        · rw [hpi, hpr z, if_neg hz1ne]; exact hmz.1
        · intro d hdm hdne
          rw [hdl] at hdm
          rw [hpr d, if_neg hdne, hpr z, if_neg hz1ne]
          exact hmz.2.1 d hdm
        · rw [hpr z, if_neg hz1ne, hpi, hdl, hpr t1, if_pos rfl]
          rcases hmz.2.2 with h3 | ⟨d, hdm, h3⟩
          · left; exact h3
          · by_cases e : d = t1
            · subst e
              right; right
              rw [h3]; exact hlt
            · right; left
              exact ⟨d, hdm, e, by rw [hpr d, if_neg e]; exact h3⟩
        · have := hrank t1 z hwz
          omega
    · simp only [hlt, if_false]
      refine ⟨s, rfl, ?_⟩
      intro t
      by_cases e : t = t1
      · subst e
        rw [max_rule_iff]
        refine ⟨hb, ?_, ?_⟩
        · intro d hdm
          by_cases e2 : d = t2
          · subst e2; omega
          · exact hd d hdm e2
        · rcases hatt with h3 | ⟨d, hdm, _, h3⟩ | h3
          · left; exact h3
          · right; exact ⟨d, hdm, h3⟩
          · exact absurd h3 hlt
      · exact hmr t e

/-- C2, amended: let the caller run and be registered on a lock held by h1.
Assume the wait-for graph is acyclic (`rank` decreases along it), every lock
waited on has a holder, the donor list of every thread holds exactly the
threads blocked on its locks, the max-rule holds for every thread other than
h1, and for h1 it holds with the caller left out of the donor list (it held
before the caller registered).  Then `donate_priority` returns and the
max-rule holds for every thread. -/
theorem donate_priority_restores_max_rule (rank : Nat → Nat) (n : Nat) (s : State)
    (l h1 : Nat)
    (hrun : (s.threads s.cur).status = THREAD_RUNNING)
    (hlock : (s.threads s.cur).lock_pointing = some l) (hholder : s.holder l = some h1)
    (hrank : ∀ t h, waits_for s t h → rank h < rank t)
    (hwd : ∀ t h, waits_for s t h → t ∈ (s.threads h).dona_list)
    (hdw : ∀ t h, t ∈ (s.threads h).dona_list → waits_for s t h)
    (hhold : ∀ t l, (s.threads t).lock_pointing = some l → ∃ h, s.holder l = some h)
    (hmr : ∀ t, t ≠ h1 → max_rule s t)
    (hh1 : (s.threads h1).priority = donor_max s (s.threads h1).priority_inst
      ((s.threads h1).dona_list.filter (fun d => decide (d ≠ s.cur))))
    (hn : rank h1 < n) :
    ∃ s', donate_priority n s = Run.done s' ∧ ∀ t, max_rule s' t := by
  have hstart : donate_priority n s = donate_loop n s h1 s.cur := by
    unfold donate_priority thread_current
    simp only [hrun, if_true, hlock, hholder]
  rw [hstart]
  have g1 := donor_max_ge_base s (s.threads h1).priority_inst
    ((s.threads h1).dona_list.filter (fun d => decide (d ≠ s.cur)))
  have g2 := donor_max_ge_mem s (s.threads h1).priority_inst
    ((s.threads h1).dona_list.filter (fun d => decide (d ≠ s.cur)))
  have g3 := donor_max_attained s (s.threads h1).priority_inst
    ((s.threads h1).dona_list.filter (fun d => decide (d ≠ s.cur)))
  rw [← hh1] at g1 g2 g3
  apply donate_loop_max_rule rank n s h1 s.cur hrank hwd hdw hhold ⟨l, hlock, hholder⟩ hmr g1
  · intro d hdm hne
    exact g2 d (List.mem_filter.2 ⟨hdm, by simpa using hne⟩)
  · rcases g3 with g | ⟨d, hdm, g⟩
    · left; exact g
    · right; left
      rw [List.mem_filter] at hdm
      exact ⟨d, hdm.1, by simpa using hdm.2, g⟩
  · exact hn

theorem nested_waits (t h : Nat) (hw : waits_for nested_state t h) :
    (t = 1 ∧ h = 0) ∨ (t = 2 ∧ h = 1) := by
  obtain ⟨l, h1, h2⟩ := hw
  by_cases e0 : t = 0
  · subst e0; simp [nested_state, plain_state, plain_thread] at h1
  · by_cases e1 : t = 1
    · subst e1
      simp [nested_state, plain_state, plain_thread] at h1
      subst h1
      simp [nested_state, plain_state] at h2
      left; exact ⟨rfl, h2.symm⟩
    · by_cases e2 : t = 2
      · subst e2
        simp [nested_state, plain_state, plain_thread] at h1
        subst h1
        simp [nested_state, plain_state] at h2
        right; exact ⟨rfl, h2.symm⟩
      · simp [nested_state, plain_state, plain_thread, e0, e1, e2] at h1

theorem nested_donors (t h : Nat) (hd : t ∈ (nested_state.threads h).dona_list) :
    (t = 1 ∧ h = 0) ∨ (t = 2 ∧ h = 1) := by
  by_cases e0 : h = 0
  · subst e0; simp [nested_state, plain_state, plain_thread] at hd; left; exact ⟨hd, rfl⟩
  · by_cases e1 : h = 1
    · subst e1; simp [nested_state, plain_state, plain_thread] at hd; right; exact ⟨hd, rfl⟩
    · by_cases e2 : h = 2
      · subst e2; simp [nested_state, plain_state, plain_thread] at hd
      · simp [nested_state, plain_state, plain_thread, e0, e1, e2] at hd

theorem nested_max_rule (t : Nat) (ht : t ≠ 1) : max_rule nested_state t := by
  by_cases e0 : t = 0
  · subst e0; unfold max_rule; decide
  · by_cases e2 : t = 2
    · subst e2; unfold max_rule; decide
    · simp [max_rule, nested_state, plain_state, plain_thread, e0, ht, e2, donor_max]

/-- Witness of `donate_priority_restores_max_rule`, the nested donation of
the spec: A (10, raised to 20) holds L1, B (20) holds L2 and waits on L1,
C (30) calls `donate_priority` while waiting on L2; afterwards the max-rule
holds everywhere and B and A both have effective priority 30. -/
theorem donate_priority_restores_max_rule_witness :
    ∃ s', donate_priority 3 nested_state = Run.done s' ∧ (∀ t, max_rule s' t) ∧
      (s'.threads 1).priority = 30 ∧ (s'.threads 0).priority = 30 := by
  obtain ⟨s', h1, h2⟩ := donate_priority_restores_max_rule (fun t => t) 3 nested_state 2 1
    (by decide) (by decide) (by decide)
    (fun t h hw => by rcases nested_waits t h hw with ⟨a, b⟩ | ⟨a, b⟩ <;> subst a <;> subst b <;> decide)
    (fun t h hw => by rcases nested_waits t h hw with ⟨a, b⟩ | ⟨a, b⟩ <;> subst a <;> subst b <;> decide)
    (fun t h hd => by
      rcases nested_donors t h hd with ⟨a, b⟩ | ⟨a, b⟩ <;> subst a <;> subst b
      · exact ⟨1, by decide, by decide⟩
      · exact ⟨2, by decide, by decide⟩)
    (fun t l hl => by
      by_cases e1 : t = 1
      · subst e1
        simp [nested_state, plain_state, plain_thread] at hl
        subst hl; exact ⟨0, by decide⟩
      · by_cases e2 : t = 2
        · subst e2
          simp [nested_state, plain_state, plain_thread] at hl
          subst hl; exact ⟨1, by decide⟩
        · by_cases e0 : t = 0
          · subst e0; simp [nested_state, plain_state, plain_thread] at hl
          · simp [nested_state, plain_state, plain_thread, e0, e1, e2] at hl)
    nested_max_rule (by decide) (by decide)
  have e : donate_priority 3 nested_state = Run.done s' := h1
  refine ⟨s', h1, h2, ?_, ?_⟩
  · have h3 : (match donate_priority 3 nested_state with
        | Run.done s => (s.threads 1).priority
        | _ => 0) = 30 := by decide
    rw [e] at h3; exact h3
  · have h3 : (match donate_priority 3 nested_state with
        | Run.done s => (s.threads 0).priority
        | _ => 0) = 30 := by decide
    rw [e] at h3; exact h3

theorem stale_waits (t h : Nat) (hw : waits_for stale_holder_state t h) : t = 2 ∧ h = 0 := by
  obtain ⟨l, h1, h2⟩ := hw
  by_cases e2 : t = 2
  · subst e2
    simp [stale_holder_state, plain_state, plain_thread] at h1
    subst h1
    simp [stale_holder_state, plain_state] at h2
    exact ⟨rfl, h2.symm⟩
  · by_cases e0 : t = 0
    · subst e0; simp [stale_holder_state, plain_state, plain_thread] at h1
    · simp [stale_holder_state, plain_state, plain_thread, e0, e2] at h1

/-- C2, as stated, fails: the wait-for graph is acyclic, the only blocked
thread (the caller, thread 2, priority 30) is in the donor list of the
holder (thread 0), and the max-rule holds for every thread except the
holder, whose effective priority is 40 with base 10; `donate_priority`
returns without a change and the max-rule still fails for the holder. -/
theorem donate_priority_stale_holder :
    (∀ t h, waits_for stale_holder_state t h → h < t) ∧
    (∀ t h, waits_for stale_holder_state t h → t ∈ (stale_holder_state.threads h).dona_list) ∧
    (∀ t, t ≠ 0 → max_rule stale_holder_state t) ∧
    waits_for stale_holder_state stale_holder_state.cur 0 ∧
    ∃ s', donate_priority 3 stale_holder_state = Run.done s' ∧ ¬ max_rule s' 0 := by
  refine ⟨?_, ?_, ?_, ⟨1, by decide, by decide⟩, stale_holder_state, rfl, ?_⟩
  · intro t h hw
    obtain ⟨a, b⟩ := stale_waits t h hw
    subst a; subst b; decide
  · intro t h hw
    obtain ⟨a, b⟩ := stale_waits t h hw
    subst a; subst b; decide
  · intro t ht
    by_cases e2 : t = 2
    · subst e2; unfold max_rule; decide
    · simp [max_rule, stale_holder_state, plain_state, plain_thread, ht, e2, donor_max]
  · unfold max_rule; decide

/-! ## C8: `load_avg` stays non-negative -/

theorem load_avg_step (la n : Int) (h0 : 0 ≤ la) (h1 : la ≤ 131071 * F) (hn0 : 0 ≤ n)
    (hn1 : n ≤ 131071) :
    0 ≤ wrap32 (fixed_mul (Int.tdiv (int_to_fixed 59) 60) la
        + wrap32 (Int.tdiv (int_to_fixed 1) 60 * n)) ∧
      wrap32 (fixed_mul (Int.tdiv (int_to_fixed 59) 60) la
        + wrap32 (Int.tdiv (int_to_fixed 1) 60 * n)) ≤ 131071 * F := by
  have e59 : Int.tdiv (int_to_fixed 59) 60 = 16110 := by decide
  have e1 : Int.tdiv (int_to_fixed 1) 60 = 273 := by decide
  rw [e59, e1]
  unfold fixed_mul F at *
  rw [wrap64_eq (16110 * la) (by omega) (by omega)]
  rw [Int.tdiv_eq_ediv (by omega) (by norm_num)]
  rw [wrap32_eq (16110 * la / 2 ^ 14) (by omega) (by omega)]
  rw [wrap32_eq (273 * n) (by omega) (by omega)]
  rw [wrap32_eq _ (by omega) (by omega)]
  omega

theorem mlfqs_load_avg_ok (s : State) (hrun : (s.threads s.cur).status = THREAD_RUNNING)
    (h0 : 0 ≤ s.load_avg) (h1 : s.load_avg ≤ 131071 * F)
    (hlen : s.ready_list.length < 131071) :
    ∃ s', mlfqs_load_avg s = some s' ∧ 0 ≤ s'.load_avg ∧ s'.load_avg ≤ 131071 * F ∧
      s'.threads = s.threads ∧ s'.cur = s.cur := by
  have hn0 : wrap32 (s.ready_list.length : Int) = (s.ready_list.length : Int) :=
    wrap32_eq _ (by omega) (by omega)
  have hn1 : wrap32 ((s.ready_list.length : Int) + 1) = (s.ready_list.length : Int) + 1 :=
    wrap32_eq _ (by omega) (by omega)
  unfold mlfqs_load_avg thread_current
  simp only [hrun, if_true, hn0, hn1]
  by_cases hi : some s.cur ≠ s.idle_thread
  · simp only [hi, if_true, not_false_eq_true, ne_eq]
    obtain ⟨b0, b1⟩ := load_avg_step s.load_avg ((s.ready_list.length : Int) + 1) h0 h1
      (by omega) (by omega)
    rw [if_pos b0]
    exact ⟨_, rfl, b0, b1, rfl, rfl⟩
  · simp only [hi, if_false]
    obtain ⟨b0, b1⟩ := load_avg_step s.load_avg (s.ready_list.length : Int) h0 h1
      (by omega) (by omega)
    rw [if_pos b0]
    exact ⟨_, rfl, b0, b1, rfl, rfl⟩

theorem load_avg_updates_bounded :
    ∀ (rls : List (List Nat)) (s : State),
      (s.threads s.cur).status = THREAD_RUNNING → 0 ≤ s.load_avg → s.load_avg ≤ 131071 * F →
      (∀ rl ∈ rls, rl.length < 131071) →
      ∃ s', load_avg_updates rls s = some s' ∧ 0 ≤ s'.load_avg ∧ s'.load_avg ≤ 131071 * F := by
  intro rls
  induction rls with
  | nil => intro s _ h0 h1 _; exact ⟨s, rfl, h0, h1⟩
  | cons rl rest ih =>
    intro s hrun h0 h1 hlen
    obtain ⟨s1, k1, k2, k3, k4, k5⟩ := mlfqs_load_avg_ok { s with ready_list := rl } hrun h0 h1
      (hlen rl (List.mem_cons_self _ _))
    obtain ⟨s', g1, g2, g3⟩ := ih s1 (by rw [k4, k5]; exact hrun) k2 k3
      (fun r hr => hlen r (List.mem_cons_of_mem _ hr))
    refine ⟨s', ?_, g2, g3⟩
    unfold load_avg_updates
    rw [k1]
    exact g1

/-- C8, amended: starting from load_avg = 0, after any sequence of
`mlfqs_load_avg` updates in which every ready list has fewer than 131071
elements (the ready count fits the 17.14 format), no update fires
`ASSERT (load_avg >= 0)` and load_avg is non-negative and at most
131071.0. -/
theorem load_avg_nonneg (rls : List (List Nat)) (s : State)
    (hrun : (s.threads s.cur).status = THREAD_RUNNING) (hstart : s.load_avg = 0)
    (hlen : ∀ rl ∈ rls, rl.length < 131071) :
    ∃ s', load_avg_updates rls s = some s' ∧ 0 ≤ s'.load_avg ∧ s'.load_avg ≤ 131071 * F :=
  load_avg_updates_bounded rls s hrun (by rw [hstart]) (by rw [hstart]; decide) hlen

/-- Witness of `load_avg_nonneg`: three updates with 2, 0 and 3 ready threads
from the boot state give load_avg 2151. -/
theorem load_avg_nonneg_witness :
    ((mlfqs_boot_state.threads mlfqs_boot_state.cur).status = THREAD_RUNNING ∧
      mlfqs_boot_state.load_avg = 0 ∧
      ∀ rl ∈ [[2, 3], [], [2, 3, 4]], rl.length < 131071) ∧
    (∃ s', load_avg_updates [[2, 3], [], [2, 3, 4]] mlfqs_boot_state = some s' ∧
      0 ≤ s'.load_avg ∧ s'.load_avg ≤ 131071 * F) ∧
    (load_avg_updates [[2, 3], [], [2, 3, 4]] mlfqs_boot_state).map (fun s => s.load_avg)
      = some 2151 :=
  ⟨⟨by decide, by decide, by decide⟩,
    load_avg_nonneg [[2, 3], [], [2, 3, 4]] mlfqs_boot_state (by decide) (by decide) (by decide),
    by decide⟩

/-! ## C9: `recent_cpu` of a continuously running thread -/

/-- C9, as stated, fails: with TIMER_FREQ = 100 a single non-idle thread
with nice 0 that runs from boot has recent_cpu 99.0 after the 99th timer
interrupt and 52800 (about 3.22) after the 100th, the first per-second tick,
where recent_cpu is multiplied by the coefficient 2*load_avg / (2*load_avg + 1)
computed from load_avg 273. -/
theorem recent_cpu_drops_at_second :
    (timer_interrupts 100 99 mlfqs_boot_state).map
        (fun s => (s.ticks, s.cur, (s.threads 0).recent_cpu, (s.threads 0).nice, s.load_avg))
      = some (99, 0, 99 * F, 0, 0) ∧
    (timer_interrupts 100 100 mlfqs_boot_state).map
        (fun s => (s.ticks, s.cur, (s.threads 0).recent_cpu, (s.threads 0).nice, s.load_avg))
      = some (100, 0, 52800, 0, 273) ∧
    (52800 : Int) < 99 * F := by
  decide!

theorem thread_tick_frame (s s1 : State) (h : thread_tick s = some s1) :
    s1.threads = s.threads ∧ s1.cur = s.cur ∧ s1.idle_thread = s.idle_thread ∧
      s1.block_list = s.block_list ∧ s1.ticks = s.ticks ∧ s1.thread_mlfqs = s.thread_mlfqs := by
  unfold thread_tick at h
  cases hc : thread_current s with
  | none => rw [hc] at h; simp at h
  | some c =>
    rw [hc] at h
    simp only [Option.some.injEq] at h
    subst h
    split_ifs <;> exact ⟨rfl, rfl, rfl, rfl, rfl, rfl⟩

theorem mlfqs_increment_eq (s : State) (hrun : (s.threads s.cur).status = THREAD_RUNNING)
    (hidle : some s.cur ≠ s.idle_thread) :
    mlfqs_increment s
      = some (s.upd s.cur fun r => { r with recent_cpu := fixed_int_add r.recent_cpu 1 }) := by
  unfold mlfqs_increment thread_current
  simp only [hrun, if_true, hidle, if_false]

theorem timer_wake_nil (s : State) (h : s.block_list = []) : timer_wake s = some s := by
  unfold timer_wake
  rw [h]
  rfl

theorem fixed_int_add_one (x : Int) (hlo : INT_MIN ≤ x) (hhi : x + F ≤ INT_MAX) :
    fixed_int_add x 1 = x + F := by
  unfold fixed_int_add
  unfold INT_MIN INT_MAX F at *
  rw [wrap32_eq (1 * 2 ^ 14) (by omega) (by omega), wrap32_eq _ (by omega) (by omega)]
  omega

/-- C9, amended: under MLFQS, for a single non-idle thread that runs with
nothing asleep, every timer interrupt that is not a per-second tick
(the new tick count is not a multiple of TIMER_FREQ) completes and raises the
thread's recent_cpu by exactly 1.0, provided the sum fits a 32-bit `int`; so
recent_cpu is non-decreasing between per-second ticks. -/
theorem recent_cpu_rises_between_seconds (TIMER_FREQ : Int) (s : State)
    (hmode : s.thread_mlfqs = true)
    (hrun : (s.threads s.cur).status = THREAD_RUNNING)
    (hidle : some s.cur ≠ s.idle_thread)
    (hbl : s.block_list = [])
    (hsec : Int.tmod (s.ticks + 1) TIMER_FREQ ≠ 0)
    (hlo : INT_MIN ≤ (s.threads s.cur).recent_cpu)
    (hhi : (s.threads s.cur).recent_cpu + F ≤ INT_MAX) :
    ∃ s', timer_interrupt TIMER_FREQ s = some s' ∧ s'.cur = s.cur ∧
      (s'.threads s.cur).recent_cpu = (s.threads s.cur).recent_cpu + F ∧
      (s.threads s.cur).recent_cpu ≤ (s'.threads s.cur).recent_cpu := by
  obtain ⟨s1, h1⟩ := thread_tick_total { s with ticks := s.ticks + 1 } hrun
  obtain ⟨a1, a2, a3, a4, a5, a6⟩ := thread_tick_frame _ _ h1
  simp only at a1 a2 a3 a4 a5 a6
  have hrun1 : (s1.threads s1.cur).status = THREAD_RUNNING := by rw [a1, a2]; exact hrun
  have hidle1 : some s1.cur ≠ s1.idle_thread := by rw [a2, a3]; exact hidle
  have h2 := mlfqs_increment_eq s1 hrun1 hidle1
  obtain ⟨s2, hs2⟩ : ∃ s2 : State,
    s2 = s1.upd s1.cur fun r => { r with recent_cpu := fixed_int_add r.recent_cpu 1 } := ⟨_, rfl⟩
  rw [← hs2] at h2
  have b1 : (s2.threads s.cur).recent_cpu = (s.threads s.cur).recent_cpu + F := by
    rw [hs2, a2, upd_threads_same, a1]
    exact fixed_int_add_one _ hlo hhi
  have b2 : s2.ticks = s.ticks + 1 := by rw [hs2]; exact a5
  have b3 : s2.block_list = [] := by rw [hs2]; exact a4.trans hbl
  have b4 : s2.cur = s.cur := by rw [hs2]; exact a2
  have b5 : (s2.threads s2.cur).status = THREAD_RUNNING := by
    rw [b4, hs2, a2, upd_threads_same, a1]; exact hrun
  have hF : (0 : Int) ≤ F := by decide
  unfold timer_interrupt
  simp only
  rw [h1]
  simp only [a6, hmode, if_true, h2, b2, hsec, if_false]
  by_cases h4 : Int.tmod (s.ticks + 1) 4 = 0
  · simp only [h4, if_true]
    have hc : thread_current s2 = some s.cur := by
      unfold thread_current; rw [if_pos b5, b4]
    rw [hc]
    simp only [Option.map_some']
    have hwk := timer_wake_nil (mlfqs_priority s.cur s2)
      (by rw [(mlfqs_priority_same s.cur s2).1]; exact b3)
    refine ⟨_, hwk, ?_, ?_, ?_⟩
    · rw [(mlfqs_priority_same s.cur s2).2.2.2.1]; exact b4
    · have : ((mlfqs_priority s.cur s2).threads s.cur).recent_cpu
          = (s2.threads s.cur).recent_cpu := by
        unfold mlfqs_priority
        split_ifs
        · rfl
        · rw [upd_threads_same]
      rw [this, b1]
    · have : ((mlfqs_priority s.cur s2).threads s.cur).recent_cpu
          = (s2.threads s.cur).recent_cpu := by
        unfold mlfqs_priority
        split_ifs
        · rfl
        · rw [upd_threads_same]
      rw [this, b1]; omega
  · simp only [h4, if_false]
    refine ⟨_, timer_wake_nil s2 b3, b4, b1, ?_⟩
    rw [b1]; omega

/-- Witness of `recent_cpu_rises_between_seconds`: the first timer interrupt
after boot, with TIMER_FREQ = 100, raises recent_cpu of thread 0 from 0
to 1.0. -/
theorem recent_cpu_rises_between_seconds_witness :
    (mlfqs_boot_state.thread_mlfqs = true ∧
      (mlfqs_boot_state.threads mlfqs_boot_state.cur).status = THREAD_RUNNING ∧
      some mlfqs_boot_state.cur ≠ mlfqs_boot_state.idle_thread ∧
      mlfqs_boot_state.block_list = [] ∧
      Int.tmod (mlfqs_boot_state.ticks + 1) 100 ≠ 0 ∧
      INT_MIN ≤ (mlfqs_boot_state.threads mlfqs_boot_state.cur).recent_cpu ∧
      (mlfqs_boot_state.threads mlfqs_boot_state.cur).recent_cpu + F ≤ INT_MAX) ∧
    (∃ s', timer_interrupt 100 mlfqs_boot_state = some s' ∧ s'.cur = mlfqs_boot_state.cur ∧
      (s'.threads mlfqs_boot_state.cur).recent_cpu
        = (mlfqs_boot_state.threads mlfqs_boot_state.cur).recent_cpu + F ∧
      (mlfqs_boot_state.threads mlfqs_boot_state.cur).recent_cpu
        ≤ (s'.threads mlfqs_boot_state.cur).recent_cpu) ∧
    (timer_interrupt 100 mlfqs_boot_state).map (fun s => (s.threads 0).recent_cpu)
      = some 16384 :=
  ⟨⟨by decide, by decide, by decide, by decide, by decide, by decide, by decide⟩,
    recent_cpu_rises_between_seconds 100 mlfqs_boot_state (by decide) (by decide) (by decide)
      (by decide) (by decide) (by decide) (by decide),
    by decide⟩

/-! ## C11: rounding and truncation of fixed-point values -/

theorem round_core (x : Int) (h1 : -2147475455 ≤ x) (h2 : x ≤ 2147475455) :
    -16384 ≤ 2 * (x - fixed_to_int_round x * 16384) ∧
      2 * (x - fixed_to_int_round x * 16384) ≤ 16384 ∧
      (2 * (x - fixed_to_int_round x * 16384) = 16384 → x < 0) ∧
      (2 * (x - fixed_to_int_round x * 16384) = -16384 → 0 < x) := by
  unfold fixed_to_int_round F
  have e2 : Int.tdiv ((2 : Int) ^ 14) 2 = 8192 := by decide
  rw [e2]
  split
  · rw [wrap32_eq _ (by omega) (by omega), Int.tdiv_eq_ediv (by omega) (by norm_num)]
    omega
  · have e : x - 8192 = -(8192 - x) := by ring
    rw [wrap32_eq _ (by omega) (by omega), e, Int.neg_tdiv,
      Int.tdiv_eq_ediv (by omega) (by norm_num)]
    omega

theorem zero_core (x : Int) :
    (0 ≤ x → 0 ≤ fixed_to_int_zero x ∧ fixed_to_int_zero x * 16384 ≤ x ∧
      x < (fixed_to_int_zero x + 1) * 16384) ∧
    (x ≤ 0 → fixed_to_int_zero x ≤ 0 ∧ (fixed_to_int_zero x - 1) * 16384 < x ∧
      x ≤ fixed_to_int_zero x * 16384) := by
  unfold fixed_to_int_zero F
  constructor
  · intro h
    rw [Int.tdiv_eq_ediv h (by norm_num)]
    omega
  · intro h
    have e : x = -(-x) := by ring
    rw [e, Int.neg_tdiv, Int.tdiv_eq_ediv (by omega) (by norm_num)]
    omega

theorem nearest_of_core (x r : Int) (a1 : -16384 ≤ 2 * (x - r * 16384))
    (a2 : 2 * (x - r * 16384) ≤ 16384)
    (a3 : 2 * (x - r * 16384) = 16384 → x < 0)
    (a4 : 2 * (x - r * 16384) = -16384 → 0 < x) :
    (∀ m : Int, |x - r * 16384| ≤ |x - m * 16384|) ∧
      (∀ m : Int, |x - m * 16384| = |x - r * 16384| → |m| ≤ |r|) ∧
      |(x : ℚ) / 2 ^ 14 - (r : ℚ)| ≤ 1 / 2 := by
  refine ⟨?_, ?_, ?_⟩
  · intro m
    rcases abs_cases (x - r * 16384) with ⟨e1, _⟩ | ⟨e1, _⟩ <;>
      rcases abs_cases (x - m * 16384) with ⟨e2, _⟩ | ⟨e2, _⟩ <;> omega
  · intro m hm
    rcases abs_cases (x - r * 16384) with ⟨e1, _⟩ | ⟨e1, _⟩ <;>
      rcases abs_cases (x - m * 16384) with ⟨e2, _⟩ | ⟨e2, _⟩ <;>
      rcases abs_cases m with ⟨e3, _⟩ | ⟨e3, _⟩ <;>
      rcases abs_cases r with ⟨e4, _⟩ | ⟨e4, _⟩ <;> omega
  · have c1 : (-16384 : ℚ) ≤ 2 * ((x : ℚ) - r * 16384) := by exact_mod_cast a1
    have c2 : 2 * ((x : ℚ) - r * 16384) ≤ 16384 := by exact_mod_cast a2
    have e : (x : ℚ) / 2 ^ 14 - (r : ℚ) = ((x : ℚ) - r * 16384) / 16384 := by ring
    rw [e, abs_le]
    constructor
    · rw [le_div_iff₀ (by norm_num)]; linarith
    · rw [div_le_iff₀ (by norm_num)]; linarith

/-- C11: for every fixed-point x with |x| <= INT_MAX - F/2,
`fixed_to_int_round x` is the integer nearest to x / 2^14 (no integer m is
nearer, the distance is at most 1/2), and of two nearest integers it is the
one away from zero; x = F/2 gives 1 and x = -F/2 gives -1.  For every x,
`fixed_to_int_zero x` is x / 2^14 truncated toward zero: the floor of the
quotient for x >= 0 and its ceiling for x <= 0. -/
theorem fixed_to_int_round_nearest (x : Int) :
    (-(INT_MAX - Int.tdiv F 2) ≤ x → x ≤ INT_MAX - Int.tdiv F 2 →
      (∀ m : Int, |x - fixed_to_int_round x * F| ≤ |x - m * F|) ∧
      (∀ m : Int, |x - m * F| = |x - fixed_to_int_round x * F| →
        |m| ≤ |fixed_to_int_round x|) ∧
      |(x : ℚ) / 2 ^ 14 - (fixed_to_int_round x : ℚ)| ≤ 1 / 2) ∧
    fixed_to_int_round (Int.tdiv F 2) = 1 ∧ fixed_to_int_round (-(Int.tdiv F 2)) = -1 ∧
    (0 ≤ x → fixed_to_int_zero x = ⌊(x : ℚ) / 2 ^ 14⌋) ∧
    (x ≤ 0 → fixed_to_int_zero x = ⌈(x : ℚ) / 2 ^ 14⌉) := by
  refine ⟨?_, by decide, by decide, ?_, ?_⟩
  · intro h1 h2
    have e2 : INT_MAX - Int.tdiv F 2 = 2147475455 := by decide
    rw [e2] at h1 h2
    obtain ⟨a1, a2, a3, a4⟩ := round_core x h1 h2
    have eF : F = 16384 := by decide
    rw [eF]
    exact nearest_of_core x _ a1 a2 a3 a4
  · intro h
    obtain ⟨_, b2, b3⟩ := (zero_core x).1 h
    symm
    rw [Int.floor_eq_iff]
    have c2 : ((fixed_to_int_zero x : ℚ)) * 16384 ≤ (x : ℚ) := by exact_mod_cast b2
    have c3 : (x : ℚ) < ((fixed_to_int_zero x : ℚ) + 1) * 16384 := by exact_mod_cast b3
    constructor
    · rw [le_div_iff₀ (by norm_num)]; linarith
    · rw [div_lt_iff₀ (by norm_num)]; linarith
  · intro h
    obtain ⟨_, b2, b3⟩ := (zero_core x).2 h
    symm
    rw [Int.ceil_eq_iff]
    have c2 : ((fixed_to_int_zero x : ℚ) - 1) * 16384 < (x : ℚ) := by exact_mod_cast b2
    have c3 : (x : ℚ) ≤ (fixed_to_int_zero x : ℚ) * 16384 := by exact_mod_cast b3
    constructor
    · rw [lt_div_iff₀ (by norm_num)]; linarith
    · rw [div_le_iff₀ (by norm_num)]; linarith

/-- Witness of `fixed_to_int_round_nearest` at x = 1.5 (24576), a tie, which
rounds to 2, and x = -1.5, which rounds to -2 and truncates to -1. -/
theorem fixed_to_int_round_nearest_witness :
    (-(INT_MAX - Int.tdiv F 2) ≤ 24576 ∧ (24576 : Int) ≤ INT_MAX - Int.tdiv F 2) ∧
    ((∀ m : Int, |24576 - fixed_to_int_round 24576 * F| ≤ |24576 - m * F|) ∧
      (∀ m : Int, |24576 - m * F| = |24576 - fixed_to_int_round 24576 * F| →
        |m| ≤ |fixed_to_int_round 24576|) ∧
      |((24576 : Int) : ℚ) / 2 ^ 14 - (fixed_to_int_round 24576 : ℚ)| ≤ 1 / 2) ∧
    fixed_to_int_zero 24576 = ⌊((24576 : Int) : ℚ) / 2 ^ 14⌋ ∧
    fixed_to_int_zero (-24576) = ⌈((-24576 : Int) : ℚ) / 2 ^ 14⌉ ∧
    fixed_to_int_round 24576 = 2 ∧ fixed_to_int_round (-24576) = -2 ∧
    fixed_to_int_zero 24576 = 1 ∧ fixed_to_int_zero (-24576) = -1 :=
  ⟨⟨by decide, by decide⟩,
    (fixed_to_int_round_nearest 24576).1 (by decide) (by decide),
    (fixed_to_int_round_nearest 24576).2.2.2.1 (by decide),
    (fixed_to_int_round_nearest (-24576)).2.2.2.2 (by decide),
    by decide, by decide, by decide, by decide⟩

/-! ## C12, C13: `fixed_mul` and `fixed_div` -/

theorem int32_mul_bounds (x y : Int) (hx1 : -(2 : Int) ^ 31 ≤ x) (hx2 : x ≤ 2 ^ 31 - 1)
    (hy1 : -(2 : Int) ^ 31 ≤ y) (hy2 : y ≤ 2 ^ 31 - 1) :
    -(2 : Int) ^ 62 ≤ x * y ∧ x * y ≤ 2 ^ 62 := by
  have h1 : |x| ≤ 2 ^ 31 := by rw [abs_le]; constructor <;> omega
  have h2 : |y| ≤ 2 ^ 31 := by rw [abs_le]; constructor <;> omega
  have h3 : |x * y| ≤ 2 ^ 31 * 2 ^ 31 := by
    rw [abs_mul]
    exact mul_le_mul h1 h2 (abs_nonneg _) (by norm_num)
  rw [abs_le] at h3
  constructor
  · have := h3.1; norm_num at this ⊢; linarith
  · have := h3.2; norm_num at this ⊢; linarith

/-- C12: for all signed 32-bit x and y the 64-bit product in `fixed_mul` does
not overflow (it lies in the `int64_t` range, so narrowing it to 64 bits
changes nothing), and whenever (x*y)/2^14 truncated toward zero fits a signed
32-bit integer, `fixed_mul x y` is exactly that value. -/
theorem fixed_mul_exact (x y : Int) (hx1 : INT_MIN ≤ x) (hx2 : x ≤ INT_MAX)
    (hy1 : INT_MIN ≤ y) (hy2 : y ≤ INT_MAX) :
    (-(2 : Int) ^ 63 ≤ x * y ∧ x * y ≤ 2 ^ 63 - 1 ∧ wrap64 (x * y) = x * y) ∧
    (INT_MIN ≤ Int.tdiv (x * y) F → Int.tdiv (x * y) F ≤ INT_MAX →
      fixed_mul x y = Int.tdiv (x * y) F) := by
  unfold INT_MIN INT_MAX at *
  obtain ⟨b1, b2⟩ := int32_mul_bounds x y hx1 hx2 hy1 hy2
  have w : wrap64 (x * y) = x * y := wrap64_eq _ (by omega) (by omega)
  refine ⟨⟨by omega, by omega, w⟩, ?_⟩
  intro f1 f2
  unfold fixed_mul
  rw [w]
  exact wrap32_eq _ f1 f2

/-- Witness of `fixed_mul_exact`: 1.5 times -2.5 is -3.75 (-61440), and the
largest product INT_MIN * INT_MIN still fits 64 bits. -/
theorem fixed_mul_exact_witness :
    (INT_MIN ≤ 24576 ∧ (24576 : Int) ≤ INT_MAX ∧ INT_MIN ≤ -40960 ∧ (-40960 : Int) ≤ INT_MAX ∧
      INT_MIN ≤ Int.tdiv (24576 * -40960) F ∧ Int.tdiv (24576 * -40960) F ≤ INT_MAX) ∧
    fixed_mul 24576 (-40960) = Int.tdiv (24576 * -40960) F ∧
    fixed_mul 24576 (-40960) = -61440 ∧ wrap64 (INT_MIN * INT_MIN) = INT_MIN * INT_MIN :=
  ⟨⟨by decide, by decide, by decide, by decide, by decide, by decide⟩,
    (fixed_mul_exact 24576 (-40960) (by decide) (by decide) (by decide) (by decide)).2
      (by decide) (by decide),
    by decide, by decide⟩

theorem tdiv_mul_right_cancel (m n c : Int) (hc : 0 < c) :
    Int.tdiv (m * c) (n * c) = Int.tdiv m n := by
  have key : ∀ a b : Int, 0 ≤ a → 0 ≤ b → Int.tdiv (a * c) (b * c) = Int.tdiv a b := by
    intro a b ha hb
    rw [Int.tdiv_eq_ediv (Int.mul_nonneg ha (le_of_lt hc)) (Int.mul_nonneg hb (le_of_lt hc)),
      Int.tdiv_eq_ediv ha hb, Int.mul_ediv_mul_of_pos_left _ _ hc]
  rcases le_total 0 m with hm | hm <;> rcases le_total 0 n with hn | hn
  · exact key m n hm hn
  · have e : n * c = -((-n) * c) := by ring
    have e2 : n = -(-n) := by ring
    rw [e, Int.tdiv_neg, key m (-n) hm (by omega)]
    conv_rhs => rw [e2, Int.tdiv_neg]
  · have e : m * c = -((-m) * c) := by ring
    have e2 : m = -(-m) := by ring
    rw [e, Int.neg_tdiv, key (-m) n (by omega) hn]
    conv_rhs => rw [e2, Int.neg_tdiv]
  · have e : m * c = -((-m) * c) := by ring
    have e' : n * c = -((-n) * c) := by ring
    have e2 : m = -(-m) := by ring
    have e2' : n = -(-n) := by ring
    rw [e, e', Int.neg_tdiv, Int.tdiv_neg, key (-m) (-n) (by omega) (by omega)]
    conv_rhs => rw [e2, e2', Int.neg_tdiv, Int.tdiv_neg]

/-- C13: for all signed 32-bit x and y with y != 0, the 64-bit product x * 2^14
in `fixed_div` does not overflow, the division does not trap, and whenever
(x * 2^14) / y truncated toward zero fits a signed 32-bit integer,
`fixed_div x y` is exactly that value.  In particular, for representable
integers a and b with b != 0, `fixed_div (int_to_fixed a) (int_to_fixed b)`
is (a * 2^14) / b truncated toward zero, the 17.14 encoding of a/b, whenever
that fits. -/
theorem fixed_div_exact (x y a b : Int) :
    (INT_MIN ≤ x → x ≤ INT_MAX → INT_MIN ≤ y → y ≤ INT_MAX → y ≠ 0 →
      (-(2 : Int) ^ 63 ≤ x * F ∧ x * F ≤ 2 ^ 63 - 1 ∧ wrap64 (x * F) = x * F) ∧
      fixed_div x y = some (wrap32 (Int.tdiv (x * F) y)) ∧
      (INT_MIN ≤ Int.tdiv (x * F) y → Int.tdiv (x * F) y ≤ INT_MAX →
        fixed_div x y = some (Int.tdiv (x * F) y))) ∧
    (-(2 : Int) ^ 17 ≤ a → a ≤ 2 ^ 17 - 1 → -(2 : Int) ^ 17 ≤ b → b ≤ 2 ^ 17 - 1 → b ≠ 0 →
      INT_MIN ≤ Int.tdiv (a * F) b → Int.tdiv (a * F) b ≤ INT_MAX →
      fixed_div (int_to_fixed a) (int_to_fixed b) = some (Int.tdiv (a * F) b)) := by
  unfold INT_MIN INT_MAX
  constructor
  · intro hx1 hx2 _ _ hy
    have w : wrap64 (x * F) = x * F := by
      unfold F; exact wrap64_eq _ (by omega) (by omega)
    refine ⟨⟨by unfold F; omega, by unfold F; omega, w⟩, ?_, ?_⟩
    · unfold fixed_div; rw [if_neg hy, w]
    · intro f1 f2
      unfold fixed_div; rw [if_neg hy, w, wrap32_eq _ f1 f2]
  · intro ha1 ha2 hb1 hb2 hb f1 f2
    have ea : int_to_fixed a = a * F := by
      unfold int_to_fixed F; exact wrap32_eq _ (by omega) (by omega)
    have eb : int_to_fixed b = b * F := by
      unfold int_to_fixed F; exact wrap32_eq _ (by omega) (by omega)
    have hbF : b * F ≠ 0 := by unfold F; omega
    have w : wrap64 (a * F * F) = a * F * F := by
      unfold F; exact wrap64_eq _ (by omega) (by omega)
    unfold fixed_div
    rw [ea, eb, if_neg hbF, w, tdiv_mul_right_cancel (a * F) b F (by decide),
      wrap32_eq _ f1 f2]

/-- Witness of `fixed_div_exact`: 1.5 / -2.0 is -0.75 (-12288), and
`fixed_div (int_to_fixed 1) (int_to_fixed 3)` is 5461, one third in 17.14
truncated toward zero. -/
theorem fixed_div_exact_witness :
    ((INT_MIN ≤ 24576 ∧ (24576 : Int) ≤ INT_MAX ∧ INT_MIN ≤ -32768 ∧ (-32768 : Int) ≤ INT_MAX ∧
        (-32768 : Int) ≠ 0 ∧ INT_MIN ≤ Int.tdiv (24576 * F) (-32768) ∧
        Int.tdiv (24576 * F) (-32768) ≤ INT_MAX) ∧
      (-(2 : Int) ^ 17 ≤ 1 ∧ (1 : Int) ≤ 2 ^ 17 - 1 ∧ -(2 : Int) ^ 17 ≤ 3 ∧
        (3 : Int) ≤ 2 ^ 17 - 1 ∧ (3 : Int) ≠ 0 ∧ INT_MIN ≤ Int.tdiv (1 * F) 3 ∧
        Int.tdiv (1 * F) 3 ≤ INT_MAX)) ∧
    fixed_div 24576 (-32768) = some (Int.tdiv (24576 * F) (-32768)) ∧
    fixed_div (int_to_fixed 1) (int_to_fixed 3) = some (Int.tdiv (1 * F) 3) ∧
    fixed_div 24576 (-32768) = some (-12288) ∧
    fixed_div (int_to_fixed 1) (int_to_fixed 3) = some 5461 :=
  ⟨⟨⟨by decide, by decide, by decide, by decide, by decide, by decide, by decide⟩,
      ⟨by decide, by decide, by decide, by decide, by decide, by decide, by decide⟩⟩,
    ((fixed_div_exact 24576 (-32768) 1 3).1 (by decide) (by decide) (by decide) (by decide)
      (by decide)).2.2 (by decide) (by decide),
    (fixed_div_exact 24576 (-32768) 1 3).2 (by decide) (by decide) (by decide) (by decide)
      (by decide) (by decide) (by decide),
    by decide, by decide⟩

/-! ## C14: `thread_unblock` keeps the ready list sorted -/

theorem list_insert_ordered_split {α : Type} (key : α → Int) (x : α) (l : List α)
    (hs : l.Pairwise (fun a b => key b ≤ key a)) :
    ∃ l1 l2, l = l1 ++ l2 ∧
      list_insert_ordered (fun a b => decide (key a > key b)) x l = l1 ++ x :: l2 ∧
      (∀ a ∈ l1, key x ≤ key a) ∧ (∀ b ∈ l2, key b < key x) := by
  induction l with
  | nil => exact ⟨[], [], rfl, rfl, by simp, by simp⟩
  | cons e l ih =>
    rw [List.pairwise_cons] at hs
    unfold list_insert_ordered
    split
    · rename_i hgt
      have hgt2 : key e < key x := by simpa using hgt
      refine ⟨[], e :: l, rfl, rfl, by simp, ?_⟩
      intro b hb
      rcases List.mem_cons.1 hb with rfl | hb
      · exact hgt2
      · have := hs.1 b hb; omega
    · rename_i hgt
      have hle : key x ≤ key e := by simpa using hgt
      obtain ⟨l1, l2, h1, h2, h3, h4⟩ := ih hs.2
      refine ⟨e :: l1, l2, by rw [h1]; rfl, by rw [h2]; rfl, ?_, h4⟩
      intro a ha
      rcases List.mem_cons.1 ha with rfl | ha
      · exact hle
      · exact h3 a ha

theorem pairwise_insert_middle {α : Type} (key : α → Int) (x : α) (l1 l2 : List α)
    (hs : (l1 ++ l2).Pairwise (fun a b => key b ≤ key a))
    (h1 : ∀ a ∈ l1, key x ≤ key a) (h2 : ∀ b ∈ l2, key b < key x) :
    (l1 ++ x :: l2).Pairwise (fun a b => key b ≤ key a) := by
  rw [List.pairwise_append] at hs ⊢
  refine ⟨hs.1, ?_, ?_⟩
  · rw [List.pairwise_cons]
    exact ⟨fun b hb => le_of_lt (h2 b hb), hs.2.1⟩
  · intro a ha b hb
    rcases List.mem_cons.1 hb with rfl | hb
    · exact h1 a ha
    · exact hs.2.2 a ha b hb

theorem thread_unblock_spec (t : Nat) (s : State)
    (hst : (s.threads t).status = THREAD_BLOCKED) :
    ∃ s', thread_unblock t s = some s' ∧
      s'.ready_list = list_insert_ordered (high_pri s) t s.ready_list ∧
      (∀ u, s'.threads u =
        if u = t then { s.threads t with status := THREAD_READY } else s.threads u) ∧
      s'.cur = s.cur ∧ s'.idle_thread = s.idle_thread ∧ s'.block_list = s.block_list := by
  refine ⟨_, thread_unblock_eq t s hst, rfl, ?_, rfl, rfl, rfl⟩
  intro u
  exact upd_threads _ t u _

/-- C14: for every ready list sorted in descending priority and every Blocked
thread t not in it, `thread_unblock (t)` returns, sets t to Ready, changes no
priority, and the new ready list is the old one with t put in once, behind
every thread whose priority is >= t's and in front of every thread whose
priority is lower; it is again sorted in descending priority. -/
theorem thread_unblock_sorted (t : Nat) (s : State)
    (hst : (s.threads t).status = THREAD_BLOCKED)
    (hsorted : s.ready_list.Pairwise
      (fun a b => (s.threads b).priority ≤ (s.threads a).priority))
    (hnot : t ∉ s.ready_list) :
    ∃ s', thread_unblock t s = some s' ∧ (s'.threads t).status = THREAD_READY ∧
      (∀ u, (s'.threads u).priority = (s.threads u).priority) ∧
      s'.ready_list.Pairwise (fun a b => (s'.threads b).priority ≤ (s'.threads a).priority) ∧
      s'.ready_list.count t = 1 ∧
      ∃ l1 l2, s.ready_list = l1 ++ l2 ∧ s'.ready_list = l1 ++ t :: l2 ∧
        (∀ a ∈ l1, (s.threads t).priority ≤ (s.threads a).priority) ∧
        (∀ b ∈ l2, (s.threads b).priority < (s.threads t).priority) := by
  obtain ⟨l1, l2, h1, h2, h3, h4⟩ :=
    list_insert_ordered_split (fun u => (s.threads u).priority) t s.ready_list hsorted
  have hins : list_insert_ordered (high_pri s) t s.ready_list = l1 ++ t :: l2 := h2
  obtain ⟨s', k1, k2, k3, _⟩ := thread_unblock_spec t s hst
  rw [hins] at k2
  have hp : ∀ u, (s'.threads u).priority = (s.threads u).priority := by
    intro u
    rw [k3]
    split_ifs with e
    · subst e; rfl
    · rfl
  refine ⟨s', k1, by rw [k3]; simp, hp, ?_, ?_, l1, l2, h1, k2, h3, h4⟩
  · simp only [hp, k2]
    exact pairwise_insert_middle (fun u => (s.threads u).priority) t l1 l2
      (by rw [← h1]; exact hsorted) h3 h4
  · rw [k2]
    rw [h1, List.mem_append] at hnot
    rw [List.count_append, List.count_cons_self,
      List.count_eq_zero_of_not_mem (fun h => hnot (Or.inl h)),
      List.count_eq_zero_of_not_mem (fun h => hnot (Or.inr h))]

/-- Witness of `thread_unblock_sorted`: thread 5 (priority 31) is unblocked
into the ready list 3 (40), 4 (31) and lands behind thread 4. -/
theorem thread_unblock_sorted_witness :
    ((unblock_state.threads 5).status = THREAD_BLOCKED ∧
      unblock_state.ready_list.Pairwise
        (fun a b => (unblock_state.threads b).priority ≤ (unblock_state.threads a).priority) ∧
      5 ∉ unblock_state.ready_list) ∧
    (∃ s', thread_unblock 5 unblock_state = some s' ∧ (s'.threads 5).status = THREAD_READY ∧
      (∀ u, (s'.threads u).priority = (unblock_state.threads u).priority) ∧
      s'.ready_list.Pairwise (fun a b => (s'.threads b).priority ≤ (s'.threads a).priority) ∧
      s'.ready_list.count 5 = 1 ∧
      ∃ l1 l2, unblock_state.ready_list = l1 ++ l2 ∧ s'.ready_list = l1 ++ 5 :: l2 ∧
        (∀ a ∈ l1, (unblock_state.threads 5).priority ≤ (unblock_state.threads a).priority) ∧
        (∀ b ∈ l2, (unblock_state.threads b).priority < (unblock_state.threads 5).priority)) ∧
    (thread_unblock 5 unblock_state).map (fun s => s.ready_list) = some [3, 4, 5] ∧
    (thread_unblock 6 unblock_state).map (fun s => s.ready_list) = some [3, 6, 4] :=
  ⟨⟨by decide, by decide, by decide⟩,
    thread_unblock_sorted 5 unblock_state (by decide) (by decide) (by decide),
    by decide, by decide⟩

/-! ## C15: the record set up by `init_thread` -/

/-- C15, as stated, fails: `init_thread` for a new thread 7 with priority 31,
called while thread 0 with recent_cpu 5.0 runs, gives the new record
recent_cpu 5.0, not 0. -/
theorem init_thread_inherits_recent_cpu :
    (PRI_MIN ≤ 31 ∧ (31 : Int) ≤ PRI_MAX) ∧
    (init_thread 7 31 create_state).map
        (fun s => ((s.threads 7).priority, (s.threads 7).priority_inst, (s.threads 7).nice,
          (s.threads 7).recent_cpu))
      = some (31, 31, 0, 5 * F) ∧
    (init_thread 7 31 create_state).map
        (fun s => ((s.threads 7).dona_list, (s.threads 7).status))
      = some ([], THREAD_BLOCKED) ∧
    (5 * F ≠ 0) :=
  ⟨by decide, by decide, by decide, by decide⟩

theorem init_thread_eq (t : Nat) (priority : Int) (s : State)
    (h1 : PRI_MIN ≤ priority) (h2 : priority ≤ PRI_MAX)
    (hc : some t = s.initial_thread ∨
      ((s.threads s.cur).status = THREAD_RUNNING ∧ t ≠ s.cur)) :
    ∃ s', init_thread t priority s = some s' ∧
      s'.threads t =
        { tid := 0, status := THREAD_BLOCKED, priority := priority, priority_inst := priority,
          recent_cpu := if some t = s.initial_thread then 0 else (s.threads s.cur).recent_cpu,
          nice := 0, wake_tick := 0, lock_pointing := none, dona_list := [] } ∧
      (∀ u, u ≠ t → s'.threads u = s.threads u) ∧
      s'.all_list = s.all_list ++ [t] ∧ s'.cur = s.cur ∧ s'.ready_list = s.ready_list ∧
      s'.idle_thread = s.idle_thread ∧ s'.next_tid = s.next_tid := by
  unfold init_thread
  simp only [h1, h2, and_self, if_true, upd_initial_thread]
  by_cases hi : some t = s.initial_thread
  · rw [if_pos hi, if_pos hi]
    refine ⟨_, rfl, ?_, ?_, rfl, rfl, rfl, rfl, rfl⟩
    · simp [upd_threads]
    · intro u hu
      simp [upd_threads, hu]
  · rcases hc with hc | ⟨hrun, hne⟩
    · exact absurd hc hi
    · rw [if_neg hi, if_neg hi]
      have hcur : ∀ (f g : thread → thread), thread_current ((s.upd t f).upd t g) = some s.cur := by
        intro f g
        unfold thread_current
        simp [upd_threads, Ne.symm hne, hrun]
      rw [hcur]
      refine ⟨_, rfl, ?_, ?_, rfl, rfl, rfl, rfl, rfl⟩
      · simp [upd_threads, Ne.symm hne]
      · intro u hu
        simp [upd_threads, hu]

/-- C15, amended: for every requested priority in [PRI_MIN, PRI_MAX],
`init_thread` (called for the initial thread, or for another record while
the creating thread runs) returns and leaves a record with base priority and
effective priority equal to the requested priority, nice = 0, an empty donor
list and status Blocked; its recent_cpu is 0 for the initial thread and the
recent_cpu of the creating thread for every other thread. -/
theorem init_thread_record (t : Nat) (priority : Int) (s : State)
    (h1 : PRI_MIN ≤ priority) (h2 : priority ≤ PRI_MAX)
    (hc : some t = s.initial_thread ∨
      ((s.threads s.cur).status = THREAD_RUNNING ∧ t ≠ s.cur)) :
    ∃ s', init_thread t priority s = some s' ∧
      (s'.threads t).priority_inst = priority ∧ (s'.threads t).priority = priority ∧
      (s'.threads t).nice = 0 ∧
      (s'.threads t).recent_cpu
        = (if some t = s.initial_thread then 0 else (s.threads s.cur).recent_cpu) ∧
      (s'.threads t).dona_list = [] ∧ (s'.threads t).status = THREAD_BLOCKED := by
  obtain ⟨s', k1, k2, _⟩ := init_thread_eq t priority s h1 h2 hc
  refine ⟨s', k1, ?_, ?_, ?_, ?_, ?_, ?_⟩ <;> rw [k2]

/-- Witness of `init_thread_record`: a record for thread 7 with priority 31 is
set up while thread 0 (recent_cpu 5.0) runs. -/
theorem init_thread_record_witness :
    (PRI_MIN ≤ 31 ∧ (31 : Int) ≤ PRI_MAX ∧
      (some 7 = create_state.initial_thread ∨
        ((create_state.threads create_state.cur).status = THREAD_RUNNING ∧
          7 ≠ create_state.cur))) ∧
    ∃ s', init_thread 7 31 create_state = some s' ∧
      (s'.threads 7).priority_inst = 31 ∧ (s'.threads 7).priority = 31 ∧
      (s'.threads 7).nice = 0 ∧
      (s'.threads 7).recent_cpu
        = (if some 7 = create_state.initial_thread then 0
            else (create_state.threads create_state.cur).recent_cpu) ∧
      (s'.threads 7).dona_list = [] ∧ (s'.threads 7).status = THREAD_BLOCKED :=
  ⟨⟨by decide, by decide, Or.inr ⟨by decide, by decide⟩⟩,
    init_thread_record 7 31 create_state (by decide) (by decide)
      (Or.inr ⟨by decide, by decide⟩)⟩

/-! ## C19: `thread_create` and preemption -/

theorem list_insert_ordered_head {α : Type} (key : α → Int) (x : α) (l : List α) :
    ∃ h rest, list_insert_ordered (fun a b => decide (key a > key b)) x l = h :: rest ∧
      key x ≤ key h := by
  cases l with
  | nil => exact ⟨x, [], rfl, le_refl _⟩
  | cons e l =>
    unfold list_insert_ordered
    split
    · exact ⟨x, e :: l, rfl, le_refl _⟩
    · rename_i hgt
      exact ⟨e, _, rfl, by simpa using hgt⟩

theorem list_insert_ordered_behind {α : Type} (key : α → Int) (x h : α) (rest : List α)
    (hle : key x ≤ key h) :
    list_insert_ordered (fun a b => decide (key a > key b)) x (h :: rest)
      = h :: list_insert_ordered (fun a b => decide (key a > key b)) x rest := by
  conv_lhs => unfold list_insert_ordered
  have : ¬ key x > key h := by omega
  simp [this]

theorem thread_create_steps (t : Nat) (p : Int) (s : State)
    (h1 : PRI_MIN ≤ p) (h2 : p ≤ PRI_MAX)
    (hrun : (s.threads s.cur).status = THREAD_RUNNING) (hne : t ≠ s.cur) :
    ∃ s3, thread_create (some t) p s
        = (if (s3.threads t).priority > (s3.threads s.cur).priority then
            (thread_yield s3).map fun s4 => (s.next_tid, s4)
          else some (s.next_tid, s3)) ∧
      s3.cur = s.cur ∧ s3.idle_thread = s.idle_thread ∧
      (∃ pri2 : Nat → Int, pri2 t = p ∧ (∀ u, u ≠ t → pri2 u = (s.threads u).priority) ∧
        (∀ u, (s3.threads u).priority = pri2 u) ∧
        s3.ready_list
          = list_insert_ordered (fun a b => decide (pri2 a > pri2 b)) t s.ready_list) ∧
      (s3.threads t).status = THREAD_READY ∧
      (s3.threads s.cur).status = THREAD_RUNNING := by
  obtain ⟨s1, k1, k2, k3, _, k5, k6, k7, k8⟩ :=
    init_thread_eq t p s h1 h2 (Or.inr ⟨hrun, hne⟩)
  obtain ⟨s2, hs2⟩ : ∃ s2 : State,
    s2 = (allocate_tid s1).2.upd t fun r => { r with tid := (allocate_tid s1).1 } := ⟨_, rfl⟩
  have htid : (allocate_tid s1).1 = s.next_tid := k8
  have a1 : ∀ u, s2.threads u
      = if u = t then { s1.threads t with tid := (allocate_tid s1).1 } else s1.threads u := by
    intro u; rw [hs2]; exact upd_threads _ t u _
  have a2 : s2.ready_list = s.ready_list := by rw [hs2]; exact k6
  have a3 : s2.cur = s.cur := by rw [hs2]; exact k5
  have a4 : s2.idle_thread = s.idle_thread := by rw [hs2]; exact k7
  have a5 : (s2.threads t).status = THREAD_BLOCKED := by rw [a1, if_pos rfl, k2]
  have a6 : (s2.threads t).priority = p := by rw [a1, if_pos rfl, k2]
  have a7 : ∀ u, u ≠ t → s2.threads u = s.threads u := by
    intro u hu; rw [a1, if_neg hu]; exact k3 u hu
  obtain ⟨s3, b1, b2, b3, b4, b5, _⟩ := thread_unblock_spec t s2 a5
  have c1 : (s3.threads s.cur).status = THREAD_RUNNING := by
    rw [b3, if_neg (Ne.symm hne), a7 _ (Ne.symm hne)]; exact hrun
  have c2 : thread_current s3 = some s.cur := by
    unfold thread_current
    rw [b4, a3, c1]; rfl
  have c3 : ∀ u, (s3.threads u).priority = (s2.threads u).priority := by
    intro u; rw [b3]; split_ifs with e
    · subst e; rfl
    · rfl
  refine ⟨s3, ?_, b4.trans a3, b5.trans a4, ⟨fun u => (s2.threads u).priority, a6, ?_, c3, ?_⟩,
    ?_, c1⟩
  · unfold thread_create
    simp only
    rw [k1]
    simp only
    rw [← hs2, b1]
    simp only
    rw [c2]
    simp only [htid]
  · intro u hu; simp only; rw [a7 u hu]
  · rw [b2, a2]; rfl
  · rw [b3, if_pos rfl]

/-- C19: for every successful `thread_create` with priority p (allocation
succeeded, p in [PRI_MIN, PRI_MAX]) called by a running thread of effective
priority q, the call returns the next tid and the new thread has been put
into the ready list.  When p <= q no yield happens: the creator is still the
running thread and the new thread is Ready in the ready list.  When p > q
the creator yields before the call returns: it is Ready (in the ready list
unless it is the idle thread), and the thread now running is another thread,
of priority >= p; the new thread is that thread or is still in the ready
list. -/
theorem thread_create_preempts (t : Nat) (p : Int) (s : State)
    (h1 : PRI_MIN ≤ p) (h2 : p ≤ PRI_MAX)
    (hrun : (s.threads s.cur).status = THREAD_RUNNING) (hne : t ≠ s.cur) :
    ∃ s', thread_create (some t) p s = some (s.next_tid, s') ∧
      (s'.threads t).priority = p ∧
      (p ≤ (s.threads s.cur).priority →
        s'.cur = s.cur ∧ (s'.threads s.cur).status = THREAD_RUNNING ∧
          (s'.threads t).status = THREAD_READY ∧ t ∈ s'.ready_list) ∧
      ((s.threads s.cur).priority < p →
        s'.cur ≠ s.cur ∧ (s'.threads s.cur).status = THREAD_READY ∧
          (s'.threads s'.cur).status = THREAD_RUNNING ∧ p ≤ (s'.threads s'.cur).priority ∧
          (s'.cur = t ∨ t ∈ s'.ready_list) ∧
          (some s.cur ≠ s.idle_thread → s.cur ∈ s'.ready_list)) := by
  obtain ⟨s3, e, d1, d2, ⟨pri2, q1, q2, q3, q4⟩, d3, d4⟩ :=
    thread_create_steps t p s h1 h2 hrun hne
  have hq : (s3.threads s.cur).priority = (s.threads s.cur).priority := by
    rw [q3, q2 _ (Ne.symm hne)]
  have hp : (s3.threads t).priority = p := by rw [q3, q1]
  rw [hp, hq] at e
  by_cases hgt : p > (s.threads s.cur).priority
  · rw [if_pos hgt] at e
    obtain ⟨h, rest1, hL1, hle⟩ :=
      list_insert_ordered_head pri2 t s.ready_list
    rw [← q4] at hL1
    rw [q1] at hle
    have hhp : high_pri s3 = fun a b => decide (pri2 a > pri2 b) := by
      funext a b; simp [high_pri, q3]
    have hrun3 : (s3.threads s3.cur).status = THREAD_RUNNING := by rw [d1]; exact d4
    have hcl : pri2 s.cur ≤ pri2 h := by
      rw [q2 _ (Ne.symm hne)]; omega
    have hhc : h ≠ s.cur := by
      intro ec
      rw [ec, q2 _ (Ne.symm hne)] at hle
      omega
    obtain ⟨Y0, hY0⟩ : ∃ Y0 : State, Y0 = (if some s3.cur ≠ s3.idle_thread then
          ({ s3 with ready_list := list_insert_ordered (high_pri s3) s3.cur s3.ready_list } : State)
        else s3) := ⟨_, rfl⟩
    have y1 : Y0.threads = s3.threads := by rw [hY0]; split <;> rfl
    have y2 : Y0.cur = s.cur := by rw [hY0]; split <;> exact d1
    have y3 : ∃ rest2, Y0.ready_list = h :: rest2 ∧ (t ≠ h → t ∈ rest2) ∧
        (some s.cur ≠ s.idle_thread → s.cur ∈ rest2) := by
      have ht1 : t ∈ s3.ready_list := by
        rw [q4]; exact (mem_list_insert_ordered _ t t _).2 (Or.inl rfl)
      rw [hY0]
      by_cases hi : some s3.cur ≠ s3.idle_thread
      · rw [if_pos hi]
        refine ⟨list_insert_ordered (fun a b => decide (pri2 a > pri2 b)) s.cur rest1, ?_, ?_, ?_⟩
        · show list_insert_ordered (high_pri s3) s3.cur s3.ready_list = _
          rw [hhp, hL1, d1]
          exact list_insert_ordered_behind pri2 s.cur h rest1 hcl
        · intro hth
          rw [hL1] at ht1
          rcases List.mem_cons.1 ht1 with e1 | e1
          · exact absurd e1 hth
          · exact (mem_list_insert_ordered _ _ _ _).2 (Or.inr e1)
        · intro _
          exact (mem_list_insert_ordered _ _ _ _).2 (Or.inl rfl)
      · rw [if_neg hi]
        refine ⟨rest1, hL1, ?_, ?_⟩
        · intro hth
          rw [hL1] at ht1
          rcases List.mem_cons.1 ht1 with e1 | e1
          · exact absurd e1 hth
          · exact e1
        · intro hi2
          rw [d1, d2] at hi
          exact absurd hi2 hi
    obtain ⟨rest2, y3, y4, y5⟩ := y3
    have hyield := thread_yield_eq s3 hrun3
    rw [← hY0, d1] at hyield
    have hnext := next_thread_to_run_cons
      (Y0.upd s.cur fun r => { r with status := THREAD_READY }) h rest2 (by simpa using y3)
    have hsched := schedule_eq_some
      (Y0.upd s.cur fun r => { r with status := THREAD_READY }) h (by rw [hnext])
      (by simp [y2])
    rw [hsched] at hyield
    rw [hyield] at e
    simp only [Option.map_some'] at e
    refine ⟨_, e, ?_, ?_, ?_⟩
    · rw [thread_schedule_tail_threads]
      simp only [next_thread_to_run_threads, upd_threads, y1]
      split_ifs <;> simp_all
    · intro hle2; omega
    · intro _
      have hth : ∀ u, (thread_schedule_tail
          (next_thread_to_run (Y0.upd s.cur fun r => { r with status := THREAD_READY })).2
            h).threads u
          = if u = h then { s3.threads h with status := THREAD_RUNNING }
            else if u = s.cur then { s3.threads s.cur with status := THREAD_READY }
            else s3.threads u := by
        intro u
        rw [thread_schedule_tail_threads]
        simp only [next_thread_to_run_threads, upd_threads, y1]
        split_ifs <;> simp_all
      have hrl : (thread_schedule_tail
          (next_thread_to_run (Y0.upd s.cur fun r => { r with status := THREAD_READY })).2
            h).ready_list = rest2 := by
        rw [thread_schedule_tail_ready_list, hnext]
      refine ⟨?_, ?_, ?_, ?_, ?_, ?_⟩
      · rw [thread_schedule_tail_cur]; exact hhc
      · rw [hth, if_neg (Ne.symm hhc), if_pos rfl]
      · rw [thread_schedule_tail_cur, hth, if_pos rfl]
      · rw [thread_schedule_tail_cur, hth, if_pos rfl]
        show p ≤ (s3.threads h).priority
        rw [q3]; exact hle
      · rw [thread_schedule_tail_cur, hrl]
        by_cases eth : t = h
        · left; exact eth.symm
        · right; exact y4 eth
      · intro hi
        rw [hrl]; exact y5 hi
  · rw [if_neg hgt] at e
    refine ⟨s3, e, hp, ?_, ?_⟩
    · intro _
      refine ⟨d1, d4, d3, ?_⟩
      rw [q4]; exact (mem_list_insert_ordered _ t t _).2 (Or.inl rfl)
    · intro hlt; omega

/-- Witness of `thread_create_preempts`: thread 0 (priority 31) creates
thread 7 while thread 3 (priority 40) is ready.  With priority 50 the creator
yields and thread 7 runs; with priority 20 the creator keeps running and
thread 7 waits behind thread 3. -/
theorem thread_create_preempts_witness :
    (PRI_MIN ≤ 50 ∧ (50 : Int) ≤ PRI_MAX ∧
      (create_state.threads create_state.cur).status = THREAD_RUNNING ∧
      7 ≠ create_state.cur) ∧
    (∃ s', thread_create (some 7) 50 create_state = some (create_state.next_tid, s') ∧
      (s'.threads 7).priority = 50 ∧
      (50 ≤ (create_state.threads create_state.cur).priority →
        s'.cur = create_state.cur ∧
          (s'.threads create_state.cur).status = THREAD_RUNNING ∧
          (s'.threads 7).status = THREAD_READY ∧ 7 ∈ s'.ready_list) ∧
      ((create_state.threads create_state.cur).priority < 50 →
        s'.cur ≠ create_state.cur ∧ (s'.threads create_state.cur).status = THREAD_READY ∧
          (s'.threads s'.cur).status = THREAD_RUNNING ∧ 50 ≤ (s'.threads s'.cur).priority ∧
          (s'.cur = 7 ∨ 7 ∈ s'.ready_list) ∧
          (some create_state.cur ≠ create_state.idle_thread →
            create_state.cur ∈ s'.ready_list))) ∧
    (thread_create (some 7) 50 create_state).map
        (fun r => (r.1, r.2.cur, r.2.ready_list, (r.2.threads 0).status))
      = some (7, 7, [3, 0], THREAD_READY) ∧
    (thread_create (some 7) 20 create_state).map
        (fun r => (r.1, r.2.cur, r.2.ready_list, (r.2.threads 0).status))
      = some (7, 0, [3, 7], THREAD_RUNNING) :=
  ⟨⟨by decide, by decide, by decide, by decide⟩,
    thread_create_preempts 7 50 create_state (by decide) (by decide) (by decide) (by decide),
    by decide, by decide⟩

/-! ## C16, C17: `thread_set_nice` -/

/-- C16, the code at a failing input: in MLFQS mode thread 0 (priority 63)
calls `thread_set_nice (20)` while thread 1 (priority 60) is ready; nice,
recent_cpu (20.0) and priority (18) are recomputed and the ready list is
sorted, but the caller, now below the head of the ready list, is still the
running thread: `thread_set_nice` does not yield. -/
theorem thread_set_nice_does_not_yield :
    (thread_set_nice 20 nice_state).map
        (fun s => ((s.threads 0).nice, (s.threads 0).recent_cpu, (s.threads 0).priority))
      = some (20, 20 * F, 18) ∧
    (thread_set_nice 20 nice_state).map
        (fun s => (s.ready_list, (s.threads 1).priority, s.cur, (s.threads 0).status))
      = some ([1], 60, 0, THREAD_RUNNING) :=
  ⟨by decide, by decide⟩

/-- C17, the code at a failing input: in priority-donation mode thread 0,
with base priority 31, effective priority 31 and recent_cpu 0, calls
`thread_set_nice (5)`; the call is carried out as in MLFQS mode and leaves
effective priority 52 and recent_cpu 5.0 (the base priority stays 31). -/
theorem thread_set_nice_ignores_mode :
    set_priority_state.thread_mlfqs = false ∧
    ((set_priority_state.threads 0).priority, (set_priority_state.threads 0).priority_inst,
      (set_priority_state.threads 0).recent_cpu) = (31, 31, 0) ∧
    (thread_set_nice 5 set_priority_state).map
        (fun s => ((s.threads 0).priority, (s.threads 0).priority_inst,
          (s.threads 0).recent_cpu, (s.threads 0).nice))
      = some (52, 31, 5 * F, 5) :=
  ⟨by decide, by decide, by decide⟩

/-! ## C18: `thread_set_priority` outside the priority domain -/

/-- C18, the code at two failing inputs: in priority-donation mode
`thread_set_priority (100)` returns without a fault and stores base and
effective priority 100, above PRI_MAX; `thread_set_priority (-5)` stores -5,
below PRI_MIN, and then yields to the ready thread 1. -/
theorem thread_set_priority_out_of_range :
    sleep_state.thread_mlfqs = false ∧ PRI_MAX < 100 ∧ (-5 : Int) < PRI_MIN ∧
    (thread_set_priority 100 sleep_state).map
        (fun s => ((s.threads 0).priority_inst, (s.threads 0).priority, s.cur))
      = some (100, 100, 0) ∧
    (thread_set_priority (-5) sleep_state).map
        (fun s => ((s.threads 0).priority_inst, (s.threads 0).priority, s.cur))
      = some (-5, -5, 1) :=
  ⟨by decide, by decide, by decide, by decide, by decide⟩

/-! ## C20: `thread_get_load_avg` and `thread_get_recent_cpu` -/

/-- C20, as stated, fails: 100 * 21474836 = 2147483600 fits a signed 32-bit
integer, but adding F/2 in `fixed_to_int_round` wraps, and both calls return
-131071 although the nearest integer to 2147483600 / 2^14 is 131072. -/
theorem thread_get_rounding_wraps :
    (INT_MIN ≤ 100 * large_stats_state.load_avg ∧ 100 * large_stats_state.load_avg ≤ INT_MAX) ∧
    (INT_MIN ≤ (large_stats_state.threads 0).recent_cpu * 100 ∧
      (large_stats_state.threads 0).recent_cpu * 100 ≤ INT_MAX) ∧
    thread_get_load_avg large_stats_state = -131071 ∧
    thread_get_recent_cpu large_stats_state = some (-131071) ∧
    |100 * large_stats_state.load_avg - 131072 * F|
      < |100 * large_stats_state.load_avg - (-131071) * F| :=
  ⟨⟨by decide, by decide⟩, ⟨by decide, by decide⟩, by decide, by decide, by decide⟩

/-- C20, amended: when 100 * load_avg and 100 * recent_cpu lie within
INT_MAX - F/2 of zero, `thread_get_load_avg` returns the integer nearest to
100 * load_avg / 2^14 and `thread_get_recent_cpu`, called by the running
thread, returns the integer nearest to 100 * recent_cpu / 2^14, ties away
from zero.  Neither call changes anything: each returns with the state it was
entered with and with the interrupt level restored to the level at entry. -/
theorem thread_get_rounded (s : State)
    (hrun : (s.threads s.cur).status = THREAD_RUNNING)
    (hl1 : -(INT_MAX - Int.tdiv F 2) ≤ 100 * s.load_avg)
    (hl2 : 100 * s.load_avg ≤ INT_MAX - Int.tdiv F 2)
    (hr1 : -(INT_MAX - Int.tdiv F 2) ≤ 100 * (s.threads s.cur).recent_cpu)
    (hr2 : 100 * (s.threads s.cur).recent_cpu ≤ INT_MAX - Int.tdiv F 2) :
    ((∀ m : Int, |100 * s.load_avg - thread_get_load_avg s * F| ≤ |100 * s.load_avg - m * F|) ∧
      (∀ m : Int, |100 * s.load_avg - m * F| = |100 * s.load_avg - thread_get_load_avg s * F| →
        |m| ≤ |thread_get_load_avg s|) ∧
      |((100 * s.load_avg : Int) : ℚ) / 2 ^ 14 - (thread_get_load_avg s : ℚ)| ≤ 1 / 2) ∧
    (∃ r, thread_get_recent_cpu s = some r ∧
      (∀ m : Int, |100 * (s.threads s.cur).recent_cpu - r * F|
        ≤ |100 * (s.threads s.cur).recent_cpu - m * F|) ∧
      (∀ m : Int, |100 * (s.threads s.cur).recent_cpu - m * F|
          = |100 * (s.threads s.cur).recent_cpu - r * F| → |m| ≤ |r|) ∧
      |((100 * (s.threads s.cur).recent_cpu : Int) : ℚ) / 2 ^ 14 - (r : ℚ)| ≤ 1 / 2) ∧
    (∀ level : intr_level,
      thread_get_load_avg_call level s = (thread_get_load_avg s, level, s)) ∧
    (∀ level : intr_level,
      thread_get_recent_cpu_call level s
        = (thread_get_recent_cpu s).map fun r => (r, level, s)) := by
  have e2 : INT_MAX - Int.tdiv F 2 = 2147475455 := by decide
  have eF : F = 16384 := by decide
  rw [e2] at hl1 hl2 hr1 hr2
  rw [eF]
  refine ⟨?_, ?_, ?_, ?_⟩
  · unfold thread_get_load_avg
    rw [wrap32_eq _ (by omega) (by omega)]
    obtain ⟨a1, a2, a3, a4⟩ := round_core (100 * s.load_avg) hl1 hl2
    exact nearest_of_core _ _ a1 a2 a3 a4
  · refine ⟨fixed_to_int_round (100 * (s.threads s.cur).recent_cpu), ?_, ?_⟩
    · unfold thread_get_recent_cpu thread_current
      rw [if_pos hrun]
      simp only [Option.map_some']
      rw [wrap32_eq _ (by omega) (by omega), mul_comm]
    · obtain ⟨a1, a2, a3, a4⟩ := round_core (100 * (s.threads s.cur).recent_cpu) hr1 hr2
      exact nearest_of_core _ _ a1 a2 a3 a4
  · intro level
    rfl
  · intro level
    unfold thread_get_recent_cpu_call thread_get_recent_cpu thread_current
    simp only [hrun, if_true, Option.map_some']
    rfl

/-- Witness of `thread_get_rounded`: with load_avg 16265 the product 1626500
is 99.27 * 2^14 and `thread_get_load_avg` rounds down to 99; with recent_cpu
655450 the product 65545000 is 4000.55 * 2^14 and `thread_get_recent_cpu`
rounds up to 4001; both calls return the state unchanged. -/
theorem thread_get_rounded_witness :
    ((rounding_state.threads rounding_state.cur).status = THREAD_RUNNING ∧
      -(INT_MAX - Int.tdiv F 2) ≤ 100 * rounding_state.load_avg ∧
      100 * rounding_state.load_avg ≤ INT_MAX - Int.tdiv F 2 ∧
      -(INT_MAX - Int.tdiv F 2) ≤ 100 * (rounding_state.threads rounding_state.cur).recent_cpu ∧
      100 * (rounding_state.threads rounding_state.cur).recent_cpu ≤ INT_MAX - Int.tdiv F 2) ∧
    (((∀ m : Int, |100 * rounding_state.load_avg - thread_get_load_avg rounding_state * F|
        ≤ |100 * rounding_state.load_avg - m * F|) ∧
      (∀ m : Int, |100 * rounding_state.load_avg - m * F|
          = |100 * rounding_state.load_avg - thread_get_load_avg rounding_state * F| →
        |m| ≤ |thread_get_load_avg rounding_state|) ∧
      |((100 * rounding_state.load_avg : Int) : ℚ) / 2 ^ 14
        - (thread_get_load_avg rounding_state : ℚ)| ≤ 1 / 2) ∧
    (∃ r, thread_get_recent_cpu rounding_state = some r ∧
      (∀ m : Int, |100 * (rounding_state.threads rounding_state.cur).recent_cpu - r * F|
        ≤ |100 * (rounding_state.threads rounding_state.cur).recent_cpu - m * F|) ∧
      (∀ m : Int, |100 * (rounding_state.threads rounding_state.cur).recent_cpu - m * F|
          = |100 * (rounding_state.threads rounding_state.cur).recent_cpu - r * F| →
        |m| ≤ |r|) ∧
      |((100 * (rounding_state.threads rounding_state.cur).recent_cpu : Int) : ℚ) / 2 ^ 14
        - (r : ℚ)| ≤ 1 / 2) ∧
    (∀ level : intr_level,
      thread_get_load_avg_call level rounding_state
        = (thread_get_load_avg rounding_state, level, rounding_state)) ∧
    (∀ level : intr_level,
      thread_get_recent_cpu_call level rounding_state
        = (thread_get_recent_cpu rounding_state).map fun r => (r, level, rounding_state))) ∧
    (100 * rounding_state.load_avg = 99 * F + 4484 ∧
      100 * (rounding_state.threads 0).recent_cpu = 4000 * F + 9000) ∧
    thread_get_load_avg rounding_state = 99 ∧
    thread_get_recent_cpu rounding_state = some 4001 ∧
    (thread_get_load_avg_call intr_level.INTR_ON rounding_state).1 = 99 ∧
    (thread_get_load_avg_call intr_level.INTR_ON rounding_state).2.1 = intr_level.INTR_ON ∧
    (thread_get_recent_cpu_call intr_level.INTR_ON rounding_state).map (fun r => (r.1, r.2.1))
      = some (4001, intr_level.INTR_ON) :=
  ⟨⟨by decide, by decide, by decide, by decide, by decide⟩,
    thread_get_rounded rounding_state (by decide) (by decide) (by decide) (by decide)
      (by decide),
    ⟨by decide, by decide⟩, by decide, by decide, by decide, by decide, by decide⟩

/-! ## C24, C21: repeated `mlfqs_load_avg` updates with a constant ready count -/

theorem mlfqs_load_avg_eq (s : State) (R : Int)
    (hrun : (s.threads s.cur).status = THREAD_RUNNING) (hcount : ready_count s = R)
    (hR0 : 0 ≤ R) (hR1 : R ≤ 131071) (h0 : 0 ≤ s.load_avg) (h1 : s.load_avg ≤ 131071 * F) :
    mlfqs_load_avg s = some { s with load_avg := load_avg_next R s.load_avg } ∧
      0 ≤ load_avg_next R s.load_avg ∧ load_avg_next R s.load_avg ≤ 131071 * F := by
  have e59 : Int.tdiv (int_to_fixed 59) 60 = 16110 := by decide
  have e1 : Int.tdiv (int_to_fixed 1) 60 = 273 := by decide
  have hval : ∀ n : Int, 0 ≤ n → n ≤ 131071 →
      wrap32 (fixed_mul (Int.tdiv (int_to_fixed 59) 60) s.load_avg
        + wrap32 (Int.tdiv (int_to_fixed 1) 60 * n)) = load_avg_next n s.load_avg := by
    intro n hn0 hn1
    rw [e59, e1]
    unfold fixed_mul load_avg_next F at *
    rw [wrap64_eq (16110 * s.load_avg) (by omega) (by omega)]
    rw [Int.tdiv_eq_ediv (by omega) (by norm_num)]
    rw [wrap32_eq (16110 * s.load_avg / 2 ^ 14) (by omega) (by omega)]
    rw [wrap32_eq (273 * n) (by omega) (by omega)]
    rw [wrap32_eq _ (by omega) (by omega)]
    norm_num
  have hb : 0 ≤ load_avg_next R s.load_avg ∧ load_avg_next R s.load_avg ≤ 131071 * F := by
    unfold load_avg_next F at *
    omega
  refine ⟨?_, hb⟩
  unfold ready_count at hcount
  unfold mlfqs_load_avg thread_current
  simp only [hrun, if_true]
  by_cases hi : some s.cur ≠ s.idle_thread
  · rw [if_pos hi] at hcount
    have hn0 : wrap32 (s.ready_list.length : Int) = (s.ready_list.length : Int) :=
      wrap32_eq _ (by omega) (by omega)
    have hn1 : wrap32 ((s.ready_list.length : Int) + 1) = R := by
      rw [wrap32_eq _ (by omega) (by omega)]; exact hcount
    simp only [hi, if_true, not_false_eq_true, ne_eq, hn0, hn1]
    rw [hval R hR0 hR1, if_pos hb.1]
  · rw [if_neg hi] at hcount
    have hn0 : wrap32 (s.ready_list.length : Int) = R := by
      rw [wrap32_eq _ (by omega) (by omega)]; exact hcount
    simp only [hi, if_false, hn0]
    rw [hval R hR0 hR1, if_pos hb.1]

theorem mlfqs_load_avg_iter_eq (R : Int) (hR0 : 0 ≤ R) (hR1 : R ≤ 131071) :
    ∀ (k : Nat) (s : State), (s.threads s.cur).status = THREAD_RUNNING → ready_count s = R →
      0 ≤ s.load_avg → s.load_avg ≤ 131071 * F →
      mlfqs_load_avg_iter k s = some { s with load_avg := load_avg_seq R k s.load_avg } := by
  intro k
  induction k with
  | zero => intro s _ _ _ _; rfl
  | succ k ih =>
    intro s hrun hcount h0 h1
    obtain ⟨e, b0, b1⟩ := mlfqs_load_avg_eq s R hrun hcount hR0 hR1 h0 h1
    have hstep := ih { s with load_avg := load_avg_next R s.load_avg } hrun hcount b0 b1
    unfold mlfqs_load_avg_iter
    rw [e, Option.some_bind, hstep]
    rfl

theorem load_avg_seq_mono (n : Int) :
    ∀ (k : Nat) (x y : Int), x ≤ y → load_avg_seq n k x ≤ load_avg_seq n k y := by
  intro k
  induction k with
  | zero => intro x y h; exact h
  | succ k ih =>
    intro x y h
    unfold load_avg_seq
    apply ih
    unfold load_avg_next
    omega

theorem load_avg_seq_succ (n : Int) :
    ∀ (k : Nat) (x : Int), load_avg_seq n (k + 1) x = load_avg_next n (load_avg_seq n k x) := by
  intro k
  induction k with
  | zero => intro x; rfl
  | succ k ih =>
    intro x
    have h : load_avg_seq n (k + 1 + 1) x = load_avg_seq n (k + 1) (load_avg_next n x) := rfl
    rw [h, ih]
    rfl

theorem load_avg_seq_bounded (R : Int) (hR0 : 0 ≤ R) :
    ∀ (k : Nat) (x : Int), 0 ≤ x → x ≤ R * 16384 →
      0 ≤ load_avg_seq R k x ∧ load_avg_seq R k x ≤ R * 16384 := by
  intro k
  induction k with
  | zero => intro x h0 h1; exact ⟨h0, h1⟩
  | succ k ih =>
    intro x h0 h1
    unfold load_avg_seq
    apply ih
    · unfold load_avg_next; omega
    · unfold load_avg_next; omega

theorem load_avg_seq_reach (R : Int) (hR1 : 1 ≤ R) :
    ∀ (k : Nat) (x : Int), 0 ≤ x → x ≤ load_avg_limit R →
      min (x + k) (load_avg_limit R) ≤ load_avg_seq R k x ∧
        load_avg_seq R k x ≤ load_avg_limit R := by
  intro k
  induction k with
  | zero =>
    intro x h0 h1
    refine ⟨?_, h1⟩
    simp only [load_avg_seq, Nat.cast_zero, add_zero]
    exact min_le_left _ _
  | succ k ih =>
    intro x h0 h1
    have hnext : 0 ≤ load_avg_next R x ∧ load_avg_next R x ≤ load_avg_limit R ∧
        min (x + 1) (load_avg_limit R) ≤ load_avg_next R x := by
      unfold load_avg_next load_avg_limit F at *
      rw [min_def]
      split_ifs <;> omega
    obtain ⟨a0, a1, a2⟩ := hnext
    obtain ⟨b1, b2⟩ := ih (load_avg_next R x) a0 a1
    unfold load_avg_seq
    refine ⟨?_, b2⟩
    refine le_trans ?_ b1
    rw [min_def, min_def] at *
    push_cast
    split_ifs at * <;> omega

theorem int_to_fixed_eq (n : Int) (h1 : -(2 : Int) ^ 17 ≤ n) (h2 : n ≤ 2 ^ 17 - 1) :
    int_to_fixed n = n * 16384 := by
  unfold int_to_fixed F
  rw [wrap32_eq _ (by omega) (by omega)]
  norm_num

/-- C24: for a ready count R with 0 <= R <= 2^16, one `mlfqs_load_avg` update
of a state with 0 <= load_avg <= int_to_fixed (R) succeeds and leaves
0 <= load_avg <= int_to_fixed (R); of two such states with the same ready
count, the one with the smaller load_avg has the smaller load_avg after the
update; and from load_avg = 0 every run of updates succeeds, each value of the
sequence is at most the next, and none exceeds int_to_fixed (R). -/
theorem mlfqs_load_avg_bounded_monotone (R : Int) (hR0 : 0 ≤ R) (hR1 : R ≤ 2 ^ 16) :
    (∀ s : State, (s.threads s.cur).status = THREAD_RUNNING → ready_count s = R →
        0 ≤ s.load_avg → s.load_avg ≤ int_to_fixed R →
        ∃ s', mlfqs_load_avg s = some s' ∧ 0 ≤ s'.load_avg ∧ s'.load_avg ≤ int_to_fixed R) ∧
    (∀ s t : State, (s.threads s.cur).status = THREAD_RUNNING →
        (t.threads t.cur).status = THREAD_RUNNING → ready_count s = R → ready_count t = R →
        0 ≤ s.load_avg → s.load_avg ≤ t.load_avg → t.load_avg ≤ int_to_fixed R →
        ∃ s' t', mlfqs_load_avg s = some s' ∧ mlfqs_load_avg t = some t' ∧
          s'.load_avg ≤ t'.load_avg) ∧
    (∀ s : State, (s.threads s.cur).status = THREAD_RUNNING → ready_count s = R →
        s.load_avg = 0 →
        ∀ k : Nat, ∃ sk sk1, mlfqs_load_avg_iter k s = some sk ∧
          mlfqs_load_avg_iter (k + 1) s = some sk1 ∧ 0 ≤ sk.load_avg ∧
          sk.load_avg ≤ sk1.load_avg ∧ sk1.load_avg ≤ int_to_fixed R) := by
  have eR : int_to_fixed R = R * 16384 := int_to_fixed_eq R (by omega) (by omega)
  have eF : F = 16384 := by decide
  rw [eR]
  refine ⟨?_, ?_, ?_⟩
  · intro s hrun hcount h0 h1
    obtain ⟨e, _, _⟩ := mlfqs_load_avg_eq s R hrun hcount hR0 (by omega) h0 (by rw [eF]; omega)
    refine ⟨_, e, ?_, ?_⟩
    · show 0 ≤ load_avg_next R s.load_avg
      unfold load_avg_next; omega
    · show load_avg_next R s.load_avg ≤ R * 16384
      unfold load_avg_next; omega
  · intro s t hs ht cs ct h0 hle h1
    obtain ⟨e1, _, _⟩ := mlfqs_load_avg_eq s R hs cs hR0 (by omega) h0 (by rw [eF]; omega)
    obtain ⟨e2, _, _⟩ := mlfqs_load_avg_eq t R ht ct hR0 (by omega) (by omega)
      (by rw [eF]; omega)
    refine ⟨_, _, e1, e2, ?_⟩
    show load_avg_next R s.load_avg ≤ load_avg_next R t.load_avg
    unfold load_avg_next; omega
  · intro s hrun hcount hstart k
    have e1 := mlfqs_load_avg_iter_eq R hR0 (by omega) k s hrun hcount (by omega)
      (by rw [eF]; omega)
    have e2 := mlfqs_load_avg_iter_eq R hR0 (by omega) (k + 1) s hrun hcount (by omega)
      (by rw [eF]; omega)
    refine ⟨_, _, e1, e2, ?_, ?_, ?_⟩
    · show 0 ≤ load_avg_seq R k s.load_avg
      exact (load_avg_seq_bounded R hR0 k s.load_avg (by omega) (by omega)).1
    · show load_avg_seq R k s.load_avg ≤ load_avg_seq R (k + 1) s.load_avg
      have h : load_avg_seq R (k + 1) s.load_avg
          = load_avg_seq R k (load_avg_next R s.load_avg) := rfl
      rw [h]
      apply load_avg_seq_mono
      rw [hstart]
      unfold load_avg_next; omega
    · show load_avg_seq R (k + 1) s.load_avg ≤ R * 16384
      exact (load_avg_seq_bounded R hR0 (k + 1) s.load_avg (by omega) (by omega)).2

/-- Witness of `mlfqs_load_avg_bounded_monotone` at R = 2 (thread 0 runs,
thread 1 is ready): the first update gives 546, the values after 3 and 4
updates are 1609 and 2128, both at most 2.0 = 32768. -/
theorem mlfqs_load_avg_bounded_monotone_witness :
    ((0 : Int) ≤ 2 ∧ (2 : Int) ≤ 2 ^ 16 ∧
      (nice_state.threads nice_state.cur).status = THREAD_RUNNING ∧
      ready_count nice_state = 2 ∧ nice_state.load_avg = 0) ∧
    (∃ s', mlfqs_load_avg nice_state = some s' ∧ 0 ≤ s'.load_avg ∧
      s'.load_avg ≤ int_to_fixed 2) ∧
    (∃ sk sk1, mlfqs_load_avg_iter 3 nice_state = some sk ∧
      mlfqs_load_avg_iter (3 + 1) nice_state = some sk1 ∧ 0 ≤ sk.load_avg ∧
      sk.load_avg ≤ sk1.load_avg ∧ sk1.load_avg ≤ int_to_fixed 2) ∧
    (mlfqs_load_avg nice_state).map (fun s => s.load_avg) = some 546 ∧
    (mlfqs_load_avg_iter 3 nice_state).map (fun s => s.load_avg) = some 1609 ∧
    (mlfqs_load_avg_iter 4 nice_state).map (fun s => s.load_avg) = some 2128 :=
  ⟨⟨by decide, by decide, by decide, by decide, by decide⟩,
    (mlfqs_load_avg_bounded_monotone 2 (by decide) (by decide)).1 nice_state (by decide)
      (by decide) (by decide) (by decide),
    (mlfqs_load_avg_bounded_monotone 2 (by decide) (by decide)).2.2 nice_state (by decide)
      (by decide) (by decide) 3,
    by decide, by decide, by decide⟩

/-- C21, as stated, fails: with one ready thread (the running thread, empty
ready list) and load_avg = 0 at the start, the sequence of load_avg values is
constant from the 367th update on, but at 16265 (about 0.9927), not at
int_to_fixed (1) = 16384, and `thread_get_load_avg` returns 99, not 100. -/
theorem load_avg_limit_below_ready_count :
    ready_count mlfqs_boot_state = 1 ∧ mlfqs_boot_state.load_avg = 0 ∧
      ∀ k : Nat, 367 ≤ k →
        (mlfqs_load_avg_iter k mlfqs_boot_state).map
          (fun s => (s.load_avg, thread_get_load_avg s)) = some (16265, 99) := by
  refine ⟨by decide, rfl, ?_⟩
  intro k hk
  rw [mlfqs_load_avg_iter_eq 1 (by decide) (by decide) k mlfqs_boot_state (by decide)
    (by decide) (by decide) (by decide)]
  have hseq : load_avg_seq 1 k mlfqs_boot_state.load_avg = 16265 := by
    have h0 : mlfqs_boot_state.load_avg = 0 := rfl
    rw [h0]
    induction k, hk using Nat.le_induction with
    | base => decide!
    | succ n _ ih =>
      rw [load_avg_seq_succ, ih]
      decide
  rw [hseq]
  rfl

/-- C21, amended: with the ready count held at R, 1 <= R <= 131071, and
load_avg = 0 at the start, every run of at least L updates succeeds and ends
with load_avg = L, where L = `load_avg_limit R` is the least integer above
(273 * R - 1) * F / 274.  L lies below int_to_fixed (R) by (R + 1) * F / 274,
up to one unit: the sequence settles about 0.4 percent below R, because 59/60
and 1/60 enter as the truncated constants 16110 and 273.  For R <= 1310
`thread_get_load_avg` then returns a value from 99 * R to 100 * R - 1. -/
theorem load_avg_converges (s : State) (R : Int)
    (hrun : (s.threads s.cur).status = THREAD_RUNNING) (hcount : ready_count s = R)
    (hR0 : 1 ≤ R) (hR1 : R ≤ 131071) (hstart : s.load_avg = 0) :
    (∀ k : Nat, load_avg_limit R ≤ k →
      mlfqs_load_avg_iter k s = some { s with load_avg := load_avg_limit R }) ∧
    ((R + 1) * F - 274 ≤ 274 * (int_to_fixed R - load_avg_limit R) ∧
      274 * (int_to_fixed R - load_avg_limit R) < (R + 1) * F) ∧
    (R ≤ 1310 →
      99 * R ≤ thread_get_load_avg { s with load_avg := load_avg_limit R } ∧
      thread_get_load_avg { s with load_avg := load_avg_limit R } ≤ 100 * R - 1) := by
  have eR : int_to_fixed R = R * 16384 := int_to_fixed_eq R (by omega) (by omega)
  have eF : F = 16384 := by decide
  have hL : 0 ≤ load_avg_limit R := by unfold load_avg_limit F; omega
  refine ⟨?_, ?_, ?_⟩
  · intro k hk
    rw [mlfqs_load_avg_iter_eq R (by omega) hR1 k s hrun hcount (by omega) (by rw [eF]; omega)]
    obtain ⟨a, b⟩ := load_avg_seq_reach R hR0 k s.load_avg (by omega) (by omega)
    have e : load_avg_seq R k s.load_avg = load_avg_limit R := by
      rw [min_def] at a
      split_ifs at a <;> omega
    rw [e]
  · rw [eR, eF]
    unfold load_avg_limit F
    omega
  · intro hR2
    unfold thread_get_load_avg
    show 99 * R ≤ fixed_to_int_round (wrap32 (100 * load_avg_limit R)) ∧
      fixed_to_int_round (wrap32 (100 * load_avg_limit R)) ≤ 100 * R - 1
    have hb : 100 * load_avg_limit R ≤ 2147475455 := by unfold load_avg_limit F; omega
    rw [wrap32_eq _ (by omega) (by omega)]
    obtain ⟨a1, a2, _, _⟩ := round_core (100 * load_avg_limit R) (by omega) hb
    unfold load_avg_limit F at *
    omega

/-- Witness of `load_avg_converges` at R = 1 in the boot state: the limit is
16265, every run of at least 16265 updates ends there, and
`thread_get_load_avg` then returns 99. -/
theorem load_avg_converges_witness :
    ((mlfqs_boot_state.threads mlfqs_boot_state.cur).status = THREAD_RUNNING ∧
      ready_count mlfqs_boot_state = 1 ∧ (1 : Int) ≤ 1 ∧ (1 : Int) ≤ 131071 ∧
      mlfqs_boot_state.load_avg = 0) ∧
    ((∀ k : Nat, load_avg_limit 1 ≤ k →
      mlfqs_load_avg_iter k mlfqs_boot_state
        = some { mlfqs_boot_state with load_avg := load_avg_limit 1 }) ∧
    ((1 + 1) * F - 274 ≤ 274 * (int_to_fixed 1 - load_avg_limit 1) ∧
      274 * (int_to_fixed 1 - load_avg_limit 1) < (1 + 1) * F) ∧
    ((1 : Int) ≤ 1310 →
      99 * 1 ≤ thread_get_load_avg { mlfqs_boot_state with load_avg := load_avg_limit 1 } ∧
      thread_get_load_avg { mlfqs_boot_state with load_avg := load_avg_limit 1 }
        ≤ 100 * 1 - 1)) ∧
    load_avg_limit 1 = 16265 ∧
    thread_get_load_avg { mlfqs_boot_state with load_avg := load_avg_limit 1 } = 99 :=
  ⟨⟨by decide, by decide, by decide, by decide, by decide⟩,
    load_avg_converges mlfqs_boot_state 1 (by decide) (by decide) (by decide) (by decide)
      (by decide),
    by decide, by decide⟩

/-! ## C22, C23: the walk of `donate_priority` -/

theorem chain_below_priority (s : State) (p : Int) (h1 t : Nat) (h : chain_below s p h1 t) :
    (s.threads t).priority < p := by
  cases h with
  | head a => exact a
  | next u _ _ _ a => exact a

theorem chain_below_step (s : State) (p : Int) (t1 h : Nat)
    (hlt : (s.threads t1).priority < p) (hw : waits_for s t1 h) (t : Nat) :
    chain_below s p t1 t ↔
      t = t1 ∨ chain_below (s.upd t1 fun r => { r with priority := p }) p h t := by
  constructor
  · intro c
    induction c with
    | head _ => exact Or.inl rfl
    | next u v _ hwv hv ih =>
      by_cases e : v = t1
      · exact Or.inl e
      · right
        have hv1 : ((s.upd t1 fun r => { r with priority := p }).threads v).priority < p := by
          rw [priority_raise, if_neg e]; exact hv
        rcases ih with ih | ih
        · subst ih
          have e2 : h = v := waits_for_unique s u h v hw hwv
          subst e2
          exact chain_below.head hv1
        · exact chain_below.next u v ih ((waits_for_raise s t1 p u v).2 hwv) hv1
  · intro c
    rcases c with c | c
    · subst c; exact chain_below.head hlt
    · induction c with
      | head a =>
        have e : h ≠ t1 := by
          intro e
          rw [priority_raise, if_pos e] at a
          exact lt_irrefl _ a
        rw [priority_raise, if_neg e] at a
        exact chain_below.next t1 h (chain_below.head hlt) hw a
      | next u v _ hwv hv ih =>
        have e : v ≠ t1 := by
          intro e
          rw [priority_raise, if_pos e] at hv
          exact lt_irrefl _ hv
        rw [priority_raise, if_neg e] at hv
        exact chain_below.next u v ih ((waits_for_raise s t1 p u v).1 hwv) hv

theorem chain_below_empty (s : State) (p : Int) (h1 t : Nat)
    (hge : ¬ (s.threads h1).priority < p) : ¬ chain_below s p h1 t := by
  intro c
  induction c with
  | head a => exact hge a
  | next _ _ _ _ _ ih => exact ih

theorem chain_below_single (s : State) (p : Int) (h1 t : Nat)
    (hl : (s.threads h1).lock_pointing = none) (c : chain_below s p h1 t) : t = h1 := by
  induction c with
  | head _ => rfl
  | next u v _ hwv _ ih =>
    subst ih
    obtain ⟨l, a, _⟩ := hwv
    rw [hl] at a
    simp at a

theorem raise_threads (s : State) (t1 : Nat) (p : Int) (t : Nat) :
    (s.upd t1 fun r => { r with priority := p }).threads t
      = if t = t1 then { s.threads t with priority := p } else s.threads t := by
  rw [upd_threads]
  split_ifs with e
  · subst e; rfl
  · rfl

theorem donate_loop_result :
    ∀ (n : Nat) (s : State) (t1 t2 : Nat) (p : Int) (s' : State),
      (s.threads t2).priority = p → donate_loop n s t1 t2 = Run.done s' →
      s' = { s with threads := s'.threads } ∧
      (∀ t, chain_below s p t1 t → s'.threads t = { s.threads t with priority := p }) ∧
      (∀ t, ¬ chain_below s p t1 t → s'.threads t = s.threads t) := by
  intro n
  induction n with
  | zero => intro s t1 t2 p s' _ h; simp [donate_loop] at h
  | succ n ih =>
    intro s t1 t2 p s' hp h
    unfold donate_loop at h
    rw [hp] at h
    by_cases hlt : (s.threads t1).priority < p
    · simp only [hlt, if_true] at h
      have hl1 : ((s.upd t1 fun r => { r with priority := p }).threads t1).lock_pointing
          = (s.threads t1).lock_pointing := by
        rw [raise_threads, if_pos rfl]
      rw [hl1] at h
      cases hl : (s.threads t1).lock_pointing with
      | none =>
        rw [hl] at h
        simp only [Run.done.injEq] at h
        subst h
        refine ⟨rfl, ?_, ?_⟩
        · intro t c
          have e := chain_below_single s p t1 t hl c
          subst e
          rw [raise_threads, if_pos rfl]
        · intro t c
          have e : t ≠ t1 := by
            intro e; subst e; exact c (chain_below.head hlt)
          rw [raise_threads, if_neg e]
      | some l =>
        rw [hl] at h
        simp only [upd_holder] at h
        cases hh : s.holder l with
        | none => rw [hh] at h; simp at h
        | some z =>
          rw [hh] at h
          simp only at h
          have hw : waits_for s t1 z := ⟨l, hl, hh⟩
          have hp1 : ((s.upd t1 fun r => { r with priority := p }).threads t1).priority = p := by
            rw [raise_threads, if_pos rfl]
          obtain ⟨a, b, c⟩ := ih _ z t1 p s' hp1 h
          refine ⟨?_, ?_, ?_⟩
          · rw [a]; rfl
          · intro t ct
            by_cases c1 : chain_below (s.upd t1 fun r => { r with priority := p }) p z t
            · rw [b t c1, raise_threads]
              split_ifs <;> rfl
            · rcases (chain_below_step s p t1 z hlt hw t).1 ct with e | e
              · rw [c t c1, raise_threads, if_pos e]
              · exact absurd e c1
          · intro t ct
            have e1 : t ≠ t1 := by
              intro e; subst e; exact ct (chain_below.head hlt)
            have e2 : ¬ chain_below (s.upd t1 fun r => { r with priority := p }) p z t :=
              fun e => ct ((chain_below_step s p t1 z hlt hw t).2 (Or.inr e))
            rw [c t e2, raise_threads, if_neg e1]
    · simp only [hlt, if_false, Run.done.injEq] at h
      subst h
      refine ⟨rfl, ?_, ?_⟩
      · intro t c
        exact absurd c (chain_below_empty s p t1 t hlt)
      · intro t _
        rfl

theorem donate_loop_terminates :
    ∀ (n : Nat) (s : State) (t1 t2 : Nat) (p : Int) (T : Finset Nat),
      (s.threads t2).priority = p →
      (∀ t, (s.threads t).priority < p → t ∈ T) →
      (T.filter fun t => (s.threads t).priority < p).card < n →
      (∀ t l, chain_below s p t1 t → (s.threads t).lock_pointing = some l →
        (s.holder l).isSome) →
      ∃ s', donate_loop n s t1 t2 = Run.done s' := by
  intro n
  induction n with
  | zero => intro s t1 t2 p T _ _ hc _; exact absurd hc (Nat.not_lt_zero _)
  | succ n ih =>
    intro s t1 t2 p T hp hT hc hh
    unfold donate_loop
    rw [hp]
    by_cases hlt : (s.threads t1).priority < p
    · simp only [hlt, if_true]
      have hl1 : ((s.upd t1 fun r => { r with priority := p }).threads t1).lock_pointing
          = (s.threads t1).lock_pointing := by
        rw [raise_threads, if_pos rfl]
      rw [hl1]
      cases hl : (s.threads t1).lock_pointing with
      | none => exact ⟨_, rfl⟩
      | some l =>
        simp only [upd_holder]
        have hsome := hh t1 l (chain_below.head hlt) hl
        cases hz : s.holder l with
        | none => rw [hz] at hsome; simp at hsome
        | some z =>
          simp only
          have hw : waits_for s t1 z := ⟨l, hl, hz⟩
          have hp1 : ((s.upd t1 fun r => { r with priority := p }).threads t1).priority = p := by
            rw [raise_threads, if_pos rfl]
          have hsub : (T.filter fun t =>
              ((s.upd t1 fun r => { r with priority := p }).threads t).priority < p)
              ⊂ (T.filter fun t => (s.threads t).priority < p) := by
            rw [Finset.ssubset_iff_of_subset]
            · refine ⟨t1, ?_, ?_⟩
              · exact Finset.mem_filter.2 ⟨hT t1 hlt, hlt⟩
              · intro hm
                have := (Finset.mem_filter.1 hm).2
                rw [priority_raise, if_pos rfl] at this
                exact lt_irrefl _ this
            · intro t hm
              obtain ⟨m1, m2⟩ := Finset.mem_filter.1 hm
              rw [priority_raise] at m2
              split_ifs at m2 with e
              · exact absurd m2 (lt_irrefl _)
              · exact Finset.mem_filter.2 ⟨m1, m2⟩
          have hcard := Finset.card_lt_card hsub
          apply ih _ z t1 p T hp1
          · intro t ht
            rw [priority_raise] at ht
            split_ifs at ht with e
            · exact absurd ht (lt_irrefl _)
            · exact hT t ht
          · omega
          · intro t l2 ct hl2
            rw [upd_holder]
            have ct2 := (chain_below_step s p t1 z hlt hw t).2 (Or.inr ct)
            apply hh t l2 ct2
            rw [raise_threads] at hl2
            split_ifs at hl2 with e
            · exact hl2
            · exact hl2
    · simp only [hlt, if_false]
      exact ⟨_, rfl⟩

theorem donate_priority_eq (n : Nat) (s : State) (c l0 h1 : Nat)
    (hcur : thread_current s = some c) (hwait : (s.threads c).lock_pointing = some l0)
    (hhold : s.holder l0 = some h1) : donate_priority n s = donate_loop n s h1 c := by
  unfold donate_priority
  rw [hcur]
  simp only [hwait, hhold]

theorem chain_state_below (t : Nat) (h : (chain_state.threads t).priority < 30) :
    t ∈ ({0, 1, 3} : Finset Nat) := by
  by_cases e0 : t = 0
  · subst e0; decide
  · by_cases e1 : t = 1
    · subst e1; decide
    · by_cases e3 : t = 3
      · subst e3; decide
      · by_cases e2 : t = 2
        · subst e2; simp [chain_state, plain_state, plain_thread] at h
        · simp [chain_state, plain_state, plain_thread, e0, e1, e2, e3] at h

theorem chain_state_holders (t l : Nat) (h : (chain_state.threads t).lock_pointing = some l) :
    (chain_state.holder l).isSome := by
  by_cases e1 : t = 1
  · subst e1
    simp [chain_state, plain_state, plain_thread] at h
    subst h; decide
  · by_cases e2 : t = 2
    · subst e2
      simp [chain_state, plain_state, plain_thread] at h
      subst h; decide
    · by_cases e0 : t = 0
      · subst e0; simp [chain_state, plain_state, plain_thread] at h
      · by_cases e3 : t = 3
        · subst e3; simp [chain_state, plain_state, plain_thread] at h
        · simp [chain_state, plain_state, plain_thread, e0, e1, e2, e3] at h

/-- C22: let the running thread c wait on a lock, let T be a finite set that
holds every thread whose effective priority is below that of c, and let k be
the number of those threads.  If the lock c waits on has a holder and so has
every lock on which a thread raised by the walk waits, the loop of
`donate_priority` ends within k iterations (k + 1 evaluations of its
condition) and `donate_priority` returns; no assumption on the shape of the
wait-for graph is needed. -/
theorem donate_priority_terminates (s : State) (c l0 : Nat) (T : Finset Nat)
    (hcur : thread_current s = some c) (hwait : (s.threads c).lock_pointing = some l0)
    (hT : ∀ t, (s.threads t).priority < (s.threads c).priority → t ∈ T)
    (hhold : (s.holder l0).isSome)
    (hchain : ∀ h1 t l, s.holder l0 = some h1 →
      chain_below s (s.threads c).priority h1 t → (s.threads t).lock_pointing = some l →
      (s.holder l).isSome) :
    ∃ s', donate_priority
      ((T.filter fun t => (s.threads t).priority < (s.threads c).priority).card + 1) s
        = Run.done s' := by
  cases hh : s.holder l0 with
  | none => rw [hh] at hhold; simp at hhold
  | some h1 =>
    rw [donate_priority_eq _ s c l0 h1 hcur hwait hh]
    exact donate_loop_terminates _ s h1 c _ T rfl hT (Nat.lt_succ_self _)
      (fun t l ct hl => hchain h1 t l hh ct hl)

/-- Witness of `donate_priority_terminates`: in the chain scenario three
threads (0, 1 and 3) are below the caller's priority 30, and the call
returns within 4 evaluations of the loop condition. -/
theorem donate_priority_terminates_witness :
    (thread_current chain_state = some 2 ∧
      (chain_state.threads 2).lock_pointing = some 2 ∧ (chain_state.holder 2).isSome) ∧
    (({0, 1, 3} : Finset Nat).filter fun t =>
      (chain_state.threads t).priority < (chain_state.threads 2).priority).card = 3 ∧
    ∃ s', donate_priority
      ((({0, 1, 3} : Finset Nat).filter fun t =>
        (chain_state.threads t).priority < (chain_state.threads 2).priority).card + 1)
      chain_state = Run.done s' :=
  ⟨⟨by decide, by decide, by decide⟩, by decide,
    donate_priority_terminates chain_state 2 2 {0, 1, 3} (by decide) (by decide)
      (fun t h => chain_state_below t h) (by decide)
      (fun _ t l _ _ hl => chain_state_holders t l hl)⟩

/-- C23: let the running thread c, of effective priority p, wait on a lock
whose holder is h1.  Whenever `donate_priority` returns, the threads of the
chain h1, h2, ... up to the first one that did not have a priority below p at
entry (`chain_below`) have effective priority p and are otherwise unchanged,
every other thread record is unchanged, in particular every base priority and
every waiting-on link, and nothing but thread records changed.  The call does
return, within k + 1 evaluations of the loop condition, when the k threads
below p lie in a finite set T and every lock on which a raised thread waits
has a holder. -/
theorem donate_priority_walk (s : State) (c l0 h1 : Nat)
    (hcur : thread_current s = some c) (hwait : (s.threads c).lock_pointing = some l0)
    (hhold : s.holder l0 = some h1) :
    (∀ (n : Nat) (s' : State), donate_priority n s = Run.done s' →
      (∀ t, chain_below s (s.threads c).priority h1 t →
        s'.threads t = { s.threads t with priority := (s.threads c).priority }) ∧
      (∀ t, ¬ chain_below s (s.threads c).priority h1 t → s'.threads t = s.threads t) ∧
      (∀ t, (s'.threads t).priority_inst = (s.threads t).priority_inst ∧
        (s'.threads t).lock_pointing = (s.threads t).lock_pointing) ∧
      s' = { s with threads := s'.threads }) ∧
    (∀ (T : Finset Nat) (n : Nat),
      (∀ t, (s.threads t).priority < (s.threads c).priority → t ∈ T) →
      (T.filter fun t => (s.threads t).priority < (s.threads c).priority).card < n →
      (∀ t l, chain_below s (s.threads c).priority h1 t →
        (s.threads t).lock_pointing = some l → (s.holder l).isSome) →
      ∃ s', donate_priority n s = Run.done s') := by
  constructor
  · intro n s' h
    rw [donate_priority_eq n s c l0 h1 hcur hwait hhold] at h
    obtain ⟨a, b, d⟩ := donate_loop_result n s h1 c _ s' rfl h
    refine ⟨b, d, ?_, a⟩
    intro t
    by_cases ct : chain_below s (s.threads c).priority h1 t
    · rw [b t ct]; exact ⟨rfl, rfl⟩
    · rw [d t ct]; exact ⟨rfl, rfl⟩
  · intro T n hT hn hchain
    rw [donate_priority_eq n s c l0 h1 hcur hwait hhold]
    exact donate_loop_terminates n s h1 c _ T rfl hT hn hchain

/-- Witness of `donate_priority_walk` in the chain scenario: C (thread 2,
priority 30) waits on lock 2 held by B (thread 1, priority 20), which waits on
lock 1 held by A (thread 0, priority 10).  The call returns; B and A end at
30 with base priorities 20 and 10, and the bystander 3 keeps priority 5. -/
theorem donate_priority_walk_witness :
    (thread_current chain_state = some 2 ∧
      (chain_state.threads 2).lock_pointing = some 2 ∧ chain_state.holder 2 = some 1) ∧
    (chain_below chain_state 30 1 1 ∧ chain_below chain_state 30 1 0 ∧
      ¬ chain_below chain_state 30 1 3) ∧
    ∃ s', donate_priority 4 chain_state = Run.done s' ∧
      ((∀ t, chain_below chain_state (chain_state.threads 2).priority 1 t →
        s'.threads t
          = { chain_state.threads t with priority := (chain_state.threads 2).priority }) ∧
      (∀ t, ¬ chain_below chain_state (chain_state.threads 2).priority 1 t →
        s'.threads t = chain_state.threads t) ∧
      (∀ t, (s'.threads t).priority_inst = (chain_state.threads t).priority_inst ∧
        (s'.threads t).lock_pointing = (chain_state.threads t).lock_pointing) ∧
      s' = { chain_state with threads := s'.threads }) ∧
      [(s'.threads 0).priority, (s'.threads 1).priority, (s'.threads 2).priority,
        (s'.threads 3).priority] = [30, 30, 30, 5] ∧
      [(s'.threads 0).priority_inst, (s'.threads 1).priority_inst] = [10, 20] :=
  ⟨⟨by decide, by decide, by decide⟩,
    ⟨chain_below.head (by decide),
      chain_below.next 1 0 (chain_below.head (by decide)) ⟨1, by decide, by decide⟩
        (by decide),
      fun h => by
        cases h with
        | next u _ _ hw _ =>
          obtain ⟨l, a, b⟩ := hw
          by_cases e1 : l = 1
          · subst e1; simp [chain_state, plain_state] at b
          · by_cases e2 : l = 2
            · subst e2; simp [chain_state, plain_state] at b
            · simp [chain_state, plain_state, e1, e2] at b⟩,
    ⟨_, rfl,
      (donate_priority_walk chain_state 2 2 1 (by decide) (by decide) (by decide)).1 4 _ rfl,
      by decide, by decide⟩⟩

/-! ## C25: the decay coefficient of `mlfqs_recent_cpu` -/

theorem decay_coefficient (la : Int) (h0 : 0 ≤ la) (h1 : 2 * la + F ≤ INT_MAX) :
    fixed_int_add (wrap32 (2 * la)) 1 = 2 * la + 16384 ∧
      fixed_div (wrap32 (2 * la)) (fixed_int_add (wrap32 (2 * la)) 1)
        = some (2 * la * 16384 / (2 * la + 16384)) ∧
      0 ≤ 2 * la * 16384 / (2 * la + 16384) ∧ 2 * la * 16384 / (2 * la + 16384) < 16384 := by
  have eF : F = 16384 := by decide
  have eM : INT_MAX = 2147483647 := by decide
  rw [eF, eM] at h1
  have hk0 : 0 ≤ 2 * la * 16384 / (2 * la + 16384) :=
    Int.ediv_nonneg (by omega) (by omega)
  have hk1 : 2 * la * 16384 / (2 * la + 16384) < 16384 :=
    Int.ediv_lt_of_lt_mul (by omega) (by omega)
  have hadd : fixed_int_add (wrap32 (2 * la)) 1 = 2 * la + 16384 := by
    unfold fixed_int_add
    rw [eF, wrap32_eq (2 * la) (by omega) (by omega), wrap32_eq (1 * 16384) (by omega) (by omega),
      wrap32_eq _ (by omega) (by omega)]
    omega
  refine ⟨hadd, ?_, hk0, hk1⟩
  rw [hadd]
  unfold fixed_div
  rw [if_neg (by omega), eF, wrap32_eq (2 * la) (by omega) (by omega),
    wrap64_eq _ (by omega) (by omega), Int.tdiv_eq_ediv (by omega) (by omega),
    wrap32_eq _ (by omega) (by omega)]

/-- C25: for 0 <= load_avg with 2 * load_avg + F <= INT_MAX, the divisor
`fixed_int_add (2 * load_avg, 1)` of `mlfqs_recent_cpu` is positive, the
division does not trap and its result k satisfies 0 <= k < F; for a thread
other than the idle thread with nice = 0 and a recent_cpu in 0 .. INT_MAX the
update succeeds and leaves 0 <= recent_cpu' <= recent_cpu; for the idle
thread the update returns the state as it is. -/
theorem mlfqs_recent_cpu_decay (s : State) (t : Nat) (h0 : 0 ≤ s.load_avg)
    (h1 : 2 * s.load_avg + F ≤ INT_MAX) :
    0 < fixed_int_add (wrap32 (2 * s.load_avg)) 1 ∧
    (∃ k, fixed_div (wrap32 (2 * s.load_avg)) (fixed_int_add (wrap32 (2 * s.load_avg)) 1)
        = some k ∧ 0 ≤ k ∧ k < F) ∧
    (some t ≠ s.idle_thread → (s.threads t).nice = 0 → 0 ≤ (s.threads t).recent_cpu →
      (s.threads t).recent_cpu ≤ INT_MAX →
      ∃ s', mlfqs_recent_cpu t s = some s' ∧ 0 ≤ (s'.threads t).recent_cpu ∧
        (s'.threads t).recent_cpu ≤ (s.threads t).recent_cpu) ∧
    (some t = s.idle_thread → mlfqs_recent_cpu t s = some s) := by
  obtain ⟨hadd, hdiv, hk0, hk1⟩ := decay_coefficient s.load_avg h0 h1
  have eF : F = 16384 := by decide
  have eM : INT_MAX = 2147483647 := by decide
  refine ⟨?_, ⟨_, hdiv, hk0, by rw [eF]; exact hk1⟩, ?_, ?_⟩
  · rw [hadd]; omega
  · intro hi hnice hr0 hr1
    rw [eM] at hr1
    unfold mlfqs_recent_cpu
    rw [if_neg hi, hdiv]
    refine ⟨_, rfl, ?_⟩
    rw [upd_threads_same]
    show 0 ≤ fixed_int_add (fixed_mul _ (s.threads t).recent_cpu) (s.threads t).nice ∧
      fixed_int_add (fixed_mul _ (s.threads t).recent_cpu) (s.threads t).nice
        ≤ (s.threads t).recent_cpu
    rw [hnice]
    generalize 2 * s.load_avg * 16384 / (2 * s.load_avg + 16384) = k at hk0 hk1
    generalize (s.threads t).recent_cpu = rc at hr0 hr1
    have hm0 : 0 ≤ k * rc := mul_nonneg hk0 hr0
    have hm1 : k * rc ≤ 16383 * rc := mul_le_mul_of_nonneg_right (by omega) hr0
    unfold fixed_int_add fixed_mul
    rw [eF]
    generalize k * rc = m at hm0 hm1
    rw [wrap64_eq m (by omega) (by omega), Int.tdiv_eq_ediv hm0 (by norm_num),
      wrap32_eq (m / 16384) (by omega) (by omega), wrap32_eq (0 * 16384) (by omega) (by omega),
      wrap32_eq _ (by omega) (by omega)]
    omega
  · intro hi
    unfold mlfqs_recent_cpu
    rw [if_pos hi]

/-- Witness of `mlfqs_recent_cpu_decay`: with load_avg 2.0 the coefficient is
13107 (about 0.8) and recent_cpu 40.0 = 655360 of thread 1 becomes 524280. -/
theorem mlfqs_recent_cpu_decay_witness :
    (0 ≤ recalc_state.load_avg ∧ 2 * recalc_state.load_avg + F ≤ INT_MAX) ∧
    (0 < fixed_int_add (wrap32 (2 * recalc_state.load_avg)) 1 ∧
    (∃ k, fixed_div (wrap32 (2 * recalc_state.load_avg))
        (fixed_int_add (wrap32 (2 * recalc_state.load_avg)) 1) = some k ∧ 0 ≤ k ∧ k < F) ∧
    (some 1 ≠ recalc_state.idle_thread → (recalc_state.threads 1).nice = 0 →
      0 ≤ (recalc_state.threads 1).recent_cpu → (recalc_state.threads 1).recent_cpu ≤ INT_MAX →
      ∃ s', mlfqs_recent_cpu 1 recalc_state = some s' ∧ 0 ≤ (s'.threads 1).recent_cpu ∧
        (s'.threads 1).recent_cpu ≤ (recalc_state.threads 1).recent_cpu) ∧
    (some 1 = recalc_state.idle_thread → mlfqs_recent_cpu 1 recalc_state = some recalc_state)) ∧
    fixed_div (wrap32 (2 * recalc_state.load_avg))
      (fixed_int_add (wrap32 (2 * recalc_state.load_avg)) 1) = some 13107 ∧
    (mlfqs_recent_cpu 1 recalc_state).map (fun s => (s.threads 1).recent_cpu) = some 524280 :=
  ⟨⟨by decide, by decide⟩,
    mlfqs_recent_cpu_decay recalc_state 1 (by decide) (by decide), by decide, by decide⟩

/-! ## C26: `mlfqs_priority` is antitone in recent_cpu and nice -/

theorem mlfqs_priority_value (rc nice : Int) (hr1 : INT_MIN ≤ rc) (hr2 : rc ≤ INT_MAX)
    (hn1 : -(2 : Int) ^ 29 ≤ nice) (hn2 : nice ≤ 2 ^ 29) :
    ∃ q r : Int,
      wrap32 (wrap32 (PRI_MAX - fixed_to_int_round (Int.tdiv rc 4)) - wrap32 (nice * 2))
        = 63 - r - nice * 2 ∧
      (0 ≤ rc → q = rc / 4) ∧ (rc < 0 → q = -((-rc) / 4)) ∧
      (0 ≤ q → r = (q + 8192) / 16384) ∧ (q < 0 → r = -((8192 - q) / 16384)) := by
  have eMin : INT_MIN = -2147483648 := by decide
  have eMax : INT_MAX = 2147483647 := by decide
  have eP : PRI_MAX = 63 := rfl
  rw [eMin] at hr1
  rw [eMax] at hr2
  have hq : (0 ≤ rc → Int.tdiv rc 4 = rc / 4) ∧ (rc < 0 → Int.tdiv rc 4 = -((-rc) / 4)) := by
    constructor
    · intro h; exact Int.tdiv_eq_ediv h (by norm_num)
    · intro h
      have e : rc = -(-rc) := by ring
      rw [e, Int.neg_tdiv, Int.tdiv_eq_ediv (by omega) (by norm_num)]
      simp
  have hqb : -536870912 ≤ Int.tdiv rc 4 ∧ Int.tdiv rc 4 ≤ 536870911 := by
    by_cases h : 0 ≤ rc
    · rw [hq.1 h]; omega
    · rw [hq.2 (by omega)]; omega
  generalize Int.tdiv rc 4 = q at hq hqb
  have hr : (0 ≤ q → fixed_to_int_round q = (q + 8192) / 16384) ∧
      (q < 0 → fixed_to_int_round q = -((8192 - q) / 16384)) := by
    have e2 : Int.tdiv F 2 = 8192 := by decide
    have eF : F = 16384 := by decide
    unfold fixed_to_int_round
    rw [e2, eF]
    constructor
    · intro h
      rw [if_pos h, wrap32_eq _ (by omega) (by omega), Int.tdiv_eq_ediv (by omega) (by norm_num)]
    · intro h
      have e : q - 8192 = -(8192 - q) := by ring
      rw [if_neg (by omega), wrap32_eq _ (by omega) (by omega), e, Int.neg_tdiv,
        Int.tdiv_eq_ediv (by omega) (by norm_num)]
  have hrb : -32769 ≤ fixed_to_int_round q ∧ fixed_to_int_round q ≤ 32769 := by
    by_cases h : 0 ≤ q
    · rw [hr.1 h]; omega
    · rw [hr.2 (by omega)]; omega
  generalize fixed_to_int_round q = r at hr hrb
  refine ⟨q, r, ?_, hq.1, hq.2, hr.1, hr.2⟩
  rw [eP, wrap32_eq (63 - r) (by omega) (by omega), wrap32_eq (nice * 2) (by omega) (by omega),
    wrap32_eq _ (by omega) (by omega)]

/-- C26: for two threads other than the idle thread, if recent_cpu1 <=
recent_cpu2 (any values of a C `int`: rounding recent_cpu / 4 never
overflows) and nice1 <= nice2 (in the domain -20 .. 20 of nice, or of any
magnitude up to 2^29), the priority that `mlfqs_priority` stores for the
second thread is at most the one it stores for the first. -/
theorem mlfqs_priority_antitone (s1 s2 : State) (t1 t2 : Nat)
    (hi1 : some t1 ≠ s1.idle_thread) (hi2 : some t2 ≠ s2.idle_thread)
    (hr1 : INT_MIN ≤ (s1.threads t1).recent_cpu) (hr2 : (s2.threads t2).recent_cpu ≤ INT_MAX)
    (hrc : (s1.threads t1).recent_cpu ≤ (s2.threads t2).recent_cpu)
    (hn1 : -(2 : Int) ^ 29 ≤ (s1.threads t1).nice) (hn2 : (s2.threads t2).nice ≤ 2 ^ 29)
    (hn : (s1.threads t1).nice ≤ (s2.threads t2).nice) :
    ((mlfqs_priority t2 s2).threads t2).priority
      ≤ ((mlfqs_priority t1 s1).threads t1).priority := by
  unfold mlfqs_priority
  rw [if_neg hi1, if_neg hi2, upd_threads_same, upd_threads_same]
  show wrap32 (wrap32 (PRI_MAX - fixed_to_int_round (Int.tdiv (s2.threads t2).recent_cpu 4))
      - wrap32 ((s2.threads t2).nice * 2))
    ≤ wrap32 (wrap32 (PRI_MAX - fixed_to_int_round (Int.tdiv (s1.threads t1).recent_cpu 4))
      - wrap32 ((s1.threads t1).nice * 2))
  obtain ⟨q1, r1, e1, a1, a2, a3, a4⟩ := mlfqs_priority_value (s1.threads t1).recent_cpu
    (s1.threads t1).nice hr1 (le_trans hrc hr2) hn1 (le_trans hn hn2)
  obtain ⟨q2, r2, e2, b1, b2, b3, b4⟩ := mlfqs_priority_value (s2.threads t2).recent_cpu
    (s2.threads t2).nice (le_trans hr1 hrc) hr2 (le_trans hn1 hn) hn2
  rw [e1, e2]
  by_cases c1 : 0 ≤ (s1.threads t1).recent_cpu <;>
    by_cases c2 : 0 ≤ (s2.threads t2).recent_cpu <;>
    by_cases c3 : 0 ≤ q1 <;> by_cases c4 : 0 ≤ q2 <;>
    simp only [c1, c2, c3, c4, not_le, forall_true_left] at a1 a2 a3 a4 b1 b2 b3 b4 <;>
    omega

/-- Witness of `mlfqs_priority_antitone` in the recalculation scenario:
thread 2 (recent_cpu 0) gets priority 63 and thread 1 (recent_cpu 40.0) gets
priority 53. -/
theorem mlfqs_priority_antitone_witness :
    (some 2 ≠ recalc_state.idle_thread ∧ some 1 ≠ recalc_state.idle_thread ∧
      INT_MIN ≤ (recalc_state.threads 2).recent_cpu ∧
      (recalc_state.threads 1).recent_cpu ≤ INT_MAX ∧
      (recalc_state.threads 2).recent_cpu ≤ (recalc_state.threads 1).recent_cpu ∧
      -(2 : Int) ^ 29 ≤ (recalc_state.threads 2).nice ∧
      (recalc_state.threads 1).nice ≤ 2 ^ 29 ∧
      (recalc_state.threads 2).nice ≤ (recalc_state.threads 1).nice) ∧
    ((mlfqs_priority 1 recalc_state).threads 1).priority
      ≤ ((mlfqs_priority 2 recalc_state).threads 2).priority ∧
    ((mlfqs_priority 1 recalc_state).threads 1).priority = 53 ∧
    ((mlfqs_priority 2 recalc_state).threads 2).priority = 63 :=
  ⟨⟨by decide, by decide, by decide, by decide, by decide, by decide, by decide, by decide⟩,
    mlfqs_priority_antitone recalc_state recalc_state 2 1 (by decide) (by decide) (by decide)
      (by decide) (by decide) (by decide) (by decide) (by decide),
    by decide, by decide⟩

/-! ## C8: the assertion of `mlfqs_load_avg` under a sustained load -/

theorem mlfqs_load_avg_wide (s : State) (R : Int)
    (hrun : (s.threads s.cur).status = THREAD_RUNNING) (hcount : ready_count s = R)
    (hR0 : 0 ≤ R) (hR1 : R ≤ 2 ^ 20) (h0 : 0 ≤ s.load_avg) (h1 : s.load_avg ≤ 2147483647) :
    (load_avg_next R s.load_avg ≤ 2147483647 →
      mlfqs_load_avg s = some { s with load_avg := load_avg_next R s.load_avg }) ∧
    (2147483647 < load_avg_next R s.load_avg → mlfqs_load_avg s = none) := by
  have e59 : Int.tdiv (int_to_fixed 59) 60 = 16110 := by decide
  have e1 : Int.tdiv (int_to_fixed 1) 60 = 273 := by decide
  have hval : wrap32 (fixed_mul (Int.tdiv (int_to_fixed 59) 60) s.load_avg
        + wrap32 (Int.tdiv (int_to_fixed 1) 60 * R)) = wrap32 (load_avg_next R s.load_avg) := by
    rw [e59, e1]
    unfold fixed_mul load_avg_next F
    rw [wrap64_eq (16110 * s.load_avg) (by omega) (by omega)]
    rw [Int.tdiv_eq_ediv (by omega) (by norm_num)]
    rw [wrap32_eq (16110 * s.load_avg / 2 ^ 14) (by omega) (by omega)]
    rw [wrap32_eq (273 * R) (by omega) (by omega)]
    norm_num
  have hn : (if some s.cur ≠ s.idle_thread then wrap32 (wrap32 (s.ready_list.length : Int) + 1)
      else wrap32 (s.ready_list.length : Int)) = R := by
    unfold ready_count at hcount
    by_cases hi : some s.cur ≠ s.idle_thread
    · rw [if_pos hi] at hcount ⊢
      rw [wrap32_eq (s.ready_list.length : Int) (by omega) (by omega),
        wrap32_eq _ (by omega) (by omega)]
      exact hcount
    · rw [if_neg hi] at hcount ⊢
      rw [wrap32_eq _ (by omega) (by omega)]
      exact hcount
  have hm : mlfqs_load_avg s
      = if 0 ≤ wrap32 (load_avg_next R s.load_avg) then
          some { s with load_avg := wrap32 (load_avg_next R s.load_avg) }
        else none := by
    unfold mlfqs_load_avg thread_current
    simp only [hrun, if_true]
    rw [hn, hval]
  have hb : 0 ≤ load_avg_next R s.load_avg ∧ load_avg_next R s.load_avg < 2 ^ 32 := by
    unfold load_avg_next; omega
  constructor
  · intro hle
    rw [hm, wrap32_eq _ (by omega) (by omega), if_pos hb.1]
  · intro hgt
    rw [hm, if_neg]
    unfold wrap32
    omega

theorem load_avg_seq_rising (R : Int) (x : Int) (hx : x ≤ load_avg_next R x) :
    ∀ k j : Nat, j ≤ k → load_avg_seq R j x ≤ load_avg_seq R k x := by
  intro k
  induction k with
  | zero =>
    intro j hj
    have e : j = 0 := by omega
    subst e
    exact le_refl _
  | succ k ih =>
    intro j hj
    by_cases e : j = k + 1
    · subst e; exact le_refl _
    · refine le_trans (ih j (by omega)) ?_
      have h : load_avg_seq R (k + 1) x = load_avg_seq R k (load_avg_next R x) := rfl
      rw [h]
      exact load_avg_seq_mono R k _ _ hx

theorem mlfqs_load_avg_iter_wide (R : Int) (hR0 : 0 ≤ R) (hR1 : R ≤ 2 ^ 20) :
    ∀ (k : Nat) (s : State), (s.threads s.cur).status = THREAD_RUNNING → ready_count s = R →
      0 ≤ s.load_avg → s.load_avg ≤ load_avg_next R s.load_avg →
      load_avg_seq R k s.load_avg ≤ 2147483647 →
      mlfqs_load_avg_iter k s = some { s with load_avg := load_avg_seq R k s.load_avg } := by
  intro k
  induction k with
  | zero => intro s _ _ _ _ _; rfl
  | succ k ih =>
    intro s hrun hcount h0 hx hk
    have h1 : load_avg_next R s.load_avg ≤ 2147483647 :=
      le_trans (load_avg_seq_rising R s.load_avg hx (k + 1) 1 (by omega)) hk
    have e := (mlfqs_load_avg_wide s R hrun hcount hR0 hR1 h0 (by omega)).1 h1
    have hstep := ih { s with load_avg := load_avg_next R s.load_avg } hrun hcount
      (by show 0 ≤ load_avg_next R s.load_avg; omega)
      (by
        show load_avg_next R s.load_avg ≤ load_avg_next R (load_avg_next R s.load_avg)
        have := load_avg_seq_mono R 1 _ _ hx
        exact this)
      hk
    unfold mlfqs_load_avg_iter
    rw [e, Option.some_bind, hstep]
    rfl

theorem mlfqs_load_avg_iter_succ :
    ∀ (k : Nat) (s : State),
      mlfqs_load_avg_iter (k + 1) s = (mlfqs_load_avg_iter k s).bind mlfqs_load_avg := by
  intro k
  induction k with
  | zero =>
    intro s
    simp only [mlfqs_load_avg_iter, Option.some_bind]
    cases mlfqs_load_avg s <;> rfl
  | succ k ih =>
    intro s
    have h : mlfqs_load_avg_iter (k + 1 + 1) s
        = (mlfqs_load_avg s).bind (mlfqs_load_avg_iter (k + 1)) := rfl
    rw [h]
    cases h1 : mlfqs_load_avg s with
    | none => simp [mlfqs_load_avg_iter, h1]
    | some s1 =>
      simp only [Option.some_bind]
      rw [ih s1]
      have h2 : mlfqs_load_avg_iter (k + 1) s
          = (mlfqs_load_avg s).bind (mlfqs_load_avg_iter k) := rfl
      rw [h2, h1, Option.some_bind]

/-- C8, as stated, fails: with 150000 ready threads besides the running one
(fewer threads than a 32-bit address space has pages) and load_avg = 0 at the
start, 124 updates succeed and bring load_avg to 2146164129; the sum of the
125th update, 2151222741, exceeds INT_MAX and wraps to a negative `int`, and
`ASSERT (load_avg >= 0)` fires. -/
theorem mlfqs_load_avg_assert_fires :
    crowded_state.load_avg = 0 ∧ crowded_state.ready_list.length = 150000 ∧
      (mlfqs_load_avg_iter 124 crowded_state).map (fun s => s.load_avg) = some 2146164129 ∧
      mlfqs_load_avg_iter 125 crowded_state = none := by
  have hlen : crowded_state.ready_list.length = 150000 := by simp [crowded_state]
  have hrun : (crowded_state.threads crowded_state.cur).status = THREAD_RUNNING := by decide
  have hcount : ready_count crowded_state = 150001 := by
    unfold ready_count
    rw [hlen]
    have hi : some crowded_state.cur ≠ crowded_state.idle_thread := by decide
    rw [if_pos hi]
    norm_num
  have hla : crowded_state.load_avg = 0 := rfl
  have hseq : load_avg_seq 150001 124 0 = 2146164129 := by decide!
  have h124 := mlfqs_load_avg_iter_wide 150001 (by decide) (by decide) 124 crowded_state hrun
    hcount (by rw [hla]) (by rw [hla]; decide) (by rw [hla, hseq]; decide)
  rw [hla, hseq] at h124
  refine ⟨rfl, hlen, ?_, ?_⟩
  · rw [h124]; rfl
  · rw [mlfqs_load_avg_iter_succ, h124, Option.some_bind]
    exact (mlfqs_load_avg_wide { crowded_state with load_avg := 2146164129 } 150001 hrun hcount
      (by decide) (by decide) (by decide) (by decide)).2 (by decide)
end Pintos
